import Mathlib

/-!
# HyperPage: navigation history and flow cursor

A shallow embedding of `sys/HyperPage.cpp` (Praat).  The C++ object `HyperPage`
becomes a record that is passed explicitly; `double` values are exact rationals;
the collaborators that live outside the file (the document source `v_goToPage`,
the text service behind `Graphics_text` / `Graphics_inqTextY`, the printer) are
collected in an environment record, and every call made to them is appended to a
trace kept in the state.  The namespace `ScriptEditor` embeds `menu_cb_runSelection`
of `sys/ScriptEditor.cpp`.
-/

namespace ScriptEditor

/-! ## ScriptEditor: Run selection

A shallow embedding of `menu_cb_runSelection` of `sys/ScriptEditor.cpp`.  Strings are
`String`s without the terminating null character; reading one character past the end of a
string gives the null character. -/

/-- What `menu_cb_runSelection` reads from the editor and from the libraries outside the file. -/
structure EditorEnv where
  /-- The flag `my interpreter -> running`. -/
  running : Bool
  /-- The result of `GuiText_getSelection (my textWidget)`; `none` is a null pointer. -/
  GuiText_getSelection : Option String
  /-- What `Melder_includeIncludeFiles` turns the selected text into. -/
  Melder_includeIncludeFiles : String → String
  /-- The number of parameters that `Interpreter_readParameters` finds in the text. -/
  Interpreter_readParameters : String → Int
  /-- The lines that `MelderReadText_readLine` returns, one after the other, for the text
      `GuiText_getString (my textWidget)`. -/
  wholeTextLines : List String
  /-- The character class `Melder_isHorizontalSpace`. -/
  Melder_isHorizontalSpace : Char → Bool

/-- The character `s [i]` of a null-terminated string. -/
def charAt (s : List Char) (i : Nat) : Char := s.getD i (Char.ofNat 0)

/-- Modelled from the spec: `Melder_findEndOfHorizontalSpace (line)` is outside this file; it
    gives the line from its first character that is not horizontal space. -/
def Melder_findEndOfHorizontalSpace (env : EditorEnv) (line : List Char) : List Char :=
  line.dropWhile env.Melder_isHorizontalSpace

/-- Modelled from the spec: `Melder_startsWith (string, beginning)` is outside this file; the
    string begins with the given characters. -/
def Melder_startsWith (string beginning : List Char) : Bool := beginning.isPrefixOf string

/-- The first test of the loop: `Melder_startsWith (startOfCode, U"procedure") && Melder_isHorizontalSpace (startOfCode [9])`. -/
def isProcedureLine (env : EditorEnv) (line : String) : Bool :=
  let startOfCode := Melder_findEndOfHorizontalSpace env line.toList
  Melder_startsWith startOfCode "procedure".toList
    && env.Melder_isHorizontalSpace (charAt startOfCode 9)

/-- The last test of the loop: `Melder_startsWith (startOfCode, U"endproc") && (startOfCode [7] == U'\0' || Melder_isHorizontalSpace (startOfCode [7]))`. -/
def isEndprocLine (env : EditorEnv) (line : String) : Bool :=
  let startOfCode := Melder_findEndOfHorizontalSpace env line.toList
  Melder_startsWith startOfCode "endproc".toList
    && (charAt startOfCode 7 == Char.ofNat 0 || env.Melder_isHorizontalSpace (charAt startOfCode 7))

/-- The loop of `menu_cb_runSelection` over the lines that are still to be read, with the
    current `procedureDepth` and `textPlusProcedures`. -/
def menu_cb_runSelection_loop (env : EditorEnv) : List String → Int → String → String
  | [], _, textPlusProcedures => textPlusProcedures
  | line :: rest, procedureDepth, textPlusProcedures =>
    let procedureDepth := if isProcedureLine env line then procedureDepth + 1 else procedureDepth
    let textPlusProcedures :=
      if procedureDepth > 0 then textPlusProcedures ++ "\n" ++ line else textPlusProcedures
    let procedureDepth := if isEndprocLine env line then procedureDepth - 1 else procedureDepth
    menu_cb_runSelection_loop env rest procedureDepth textPlusProcedures

/-- What `menu_cb_runSelection` ends with: a thrown error, the form dialog for the parameters
    (the script is then run later, by the callback of the dialog), or the call
    `Interpreter_run (my interpreter.get(), text, false)`. -/
inductive Outcome where
  | error (message : String)
  | argsDialog
  | run (text : String)
deriving DecidableEq, Repr

/-- The function `menu_cb_runSelection`. -/
def menu_cb_runSelection (env : EditorEnv) : Outcome :=
  if env.running then
    Outcome.error "The script is already running (paused). Please close or continue the pause, trust or demo window."
  else
    match env.GuiText_getSelection with
    | none => Outcome.error "No text selected."
    | some selectedText =>
      let selectedText := env.Melder_includeIncludeFiles selectedText
      let npar := env.Interpreter_readParameters selectedText
      let textPlusProcedures := menu_cb_runSelection_loop env env.wholeTextLines 0 selectedText
      if npar ≠ 0 then Outcome.argsDialog
      else Outcome.run textPlusProcedures

/-! ## Run selection, in the words of the specification -/

/-- A text followed by, for every line of the list, a newline and the line. -/
def appendLines (text : String) (lines : List String) : String :=
  lines.foldl (fun acc line => acc ++ "\n" ++ line) text

/-- The lines of the procedures of a text, in order, in the words of the specification: a
    procedure is a run of lines from a `procedure` line to the next `endproc` line.  `inside`
    says that the lines read so far end inside such a run. -/
def procedureLines_spec (env : EditorEnv) : List String → Bool → List String
  | [], _ => []
  | line :: rest, true => line :: procedureLines_spec env rest (! isEndprocLine env line)
  | line :: rest, false =>
    if isProcedureLine env line && rest.any (isEndprocLine env) then
      line :: procedureLines_spec env rest true
    else procedureLines_spec env rest false

/-- The text that the interpreter is to get, in the words of the specification: the selected
    text followed by, for every procedure in the whole text, a newline and each line of that
    procedure in order. -/
def textPlusProcedures_spec (env : EditorEnv) (selectedText : String) : String :=
  appendLines selectedText (procedureLines_spec env env.wholeTextLines false)

/-- The `procedure` lines and the `endproc` lines of a text alternate: no `endproc` line
    outside a procedure, no `procedure` line inside one, and the last procedure is closed.
    `inside` says that the lines read so far end inside a procedure. -/
def procedureLinesAlternate (env : EditorEnv) : List String → Bool → Prop
  | [], inside => inside = false
  | line :: rest, false =>
    isEndprocLine env line = false ∧ procedureLinesAlternate env rest (isProcedureLine env line)
  | line :: rest, true =>
    isProcedureLine env line = false
      ∧ procedureLinesAlternate env rest (! isEndprocLine env line)

instance decidableProcedureLinesAlternate (env : EditorEnv) :
    ∀ (lines : List String) (inside : Bool),
      Decidable (procedureLinesAlternate env lines inside)
  | [], inside => (inferInstance : Decidable (inside = false))
  | line :: rest, false =>
    @instDecidableAnd (isEndprocLine env line = false)
      (procedureLinesAlternate env rest (isProcedureLine env line)) inferInstance
      (decidableProcedureLinesAlternate env rest (isProcedureLine env line))
  | line :: rest, true =>
    @instDecidableAnd (isProcedureLine env line = false)
      (procedureLinesAlternate env rest (! isEndprocLine env line)) inferInstance
      (decidableProcedureLinesAlternate env rest (! isEndprocLine env line))

/-! ## Example inputs -/

/-- Horizontal space is the space and the tab. -/
def exampleIsHorizontalSpace (c : Char) : Bool := c == ' ' || c == '\t'

/-- An editor in which `x = 1` is selected, with the given lines as its whole text; nothing is
    included and the selection has no parameters. -/
def exampleEditor (lines : List String) : EditorEnv :=
  { running := false
    GuiText_getSelection := some "x = 1"
    Melder_includeIncludeFiles := fun text => text
    Interpreter_readParameters := fun _ => 0
    wholeTextLines := lines
    Melder_isHorizontalSpace := exampleIsHorizontalSpace }

end ScriptEditor

namespace HyperPage

/-! ## Data model -/

/-- One of the 20 history slots: `struct { autostring32 page; double top; }`. -/
structure HistoryEntry where
  page : Option String
  top : Rat
deriving DecidableEq, Repr

instance : Inhabited HistoryEntry := ⟨⟨none, 0⟩⟩

/-- A clickable region, `HyperLink_create (name, x1DC, x2DC, y1DC, y2DC)`. -/
structure HyperLink where
  name : String
  x1DC : Rat
  x2DC : Rat
  y1DC : Rat
  y2DC : Rat
deriving DecidableEq, Repr

/-- The enumeration `kGraphics_font` is declared outside this file; a font is only passed on. -/
abbrev kGraphics_font := Nat

/-- What `Graphics_text` is asked to draw, with the settings made just before the call. -/
structure TextCall where
  onPaper : Bool
  text : String
  font : kGraphics_font
  size : Rat
  style : Int
  wrapWidth : Rat
  secondIndent : Rat
  x : Rat
  y : Rat
deriving DecidableEq, Repr

/-- Calls made to collaborators, in the order in which they happen. -/
inductive Event where
  | goToPage (title : String)
  | scrollBarSet (value : Rat)
  | updateWs
  | text (call : TextCall)
  | line (onPaper : Bool) (lineWidth x1 y1 x2 y2 : Rat)
  | nextSheetOfPaper
  | sheetText (x y : Rat) (s : String)
  | sheetNumber (x y : Rat) (n : Int)
  | centredText (onPaper : Bool) (font : kGraphics_font) (size x y : Rat) (text : String)
  | draw (onPaper : Bool) (x1 x2 y1 y2 : Rat)
  | clearWs
deriving DecidableEq, Repr

/-- The collaborators of the renderer. -/
structure Env where
  /-- The document source: the result of `my v_goToPage (title)`. -/
  v_goToPage : String → Int
  /-- The text service: the value of `Graphics_inqTextY` after the given `Graphics_text`. -/
  Graphics_inqTextY : TextCall → Rat
  /-- The text service: the links reported by `Graphics_getLinks` after the given `Graphics_text`. -/
  Graphics_getLinks : TextCall → List HyperLink
  /-- The printer: `13.0 - (double) thePrinter. paperHeight / thePrinter. resolution`. -/
  PAPER_BOTTOM : Rat

/-- The fields of `structHyperPage` that the history and the flow routines read or write. -/
structure State where
  history : List HistoryEntry
  historyPointer : Nat
  top : Rat
  links : List HyperLink
  optionalCurrentPageTitle : Option String
  d_x : Rat
  d_y : Rat
  previousBottomSpacing : Rat
  rightMargin : Rat
  printing : Bool
  entryHint : Option String
  entryPosition : Rat
  d_printingPageNumber : Int
  mirror : Bool
  insideHeader : Option String
  middleHeader : Option String
  outsideHeader : Option String
  insideFooter : Option String
  middleFooter : Option String
  outsideFooter : Option String
  trace : List Event
  /-- Whether `my graphics` exists (it does not "in the very beginning"). -/
  graphics : Bool
  instancePref_font : kGraphics_font
  instancePref_fontSize : Rat
deriving DecidableEq, Repr

def PAGE_HEIGHT : Rat := 320.0
def SCREEN_HEIGHT : Rat := 18.0
def PAPER_TOP : Rat := 12.0
def TOP_MARGIN : Rat := 0.8
def BOTTOM_MARGIN : Rat := 0.5

/-- A freshly created viewer: 20 empty slots, pointer 0, font size 12, everything else zero. -/
def State.empty : State :=
  { history := List.replicate 20 ⟨none, 0⟩, historyPointer := 0, top := 0, links := [],
    optionalCurrentPageTitle := none, d_x := 0, d_y := 0, previousBottomSpacing := 0,
    rightMargin := 0, printing := false, entryHint := none, entryPosition := 0,
    d_printingPageNumber := 0, mirror := false,
    insideHeader := none, middleHeader := none, outsideHeader := none,
    insideFooter := none, middleFooter := none, outsideFooter := none, trace := [],
    graphics := true, instancePref_font := 0, instancePref_fontSize := 12 }

/-- The element `history [i]` of the slot array. -/
def slotAt (history : List HistoryEntry) (i : Nat) : HistoryEntry := history.getD i default

/-- The slot `my history [i]`. -/
def State.slot (me : State) (i : Nat) : HistoryEntry := slotAt me.history i

/-- The pages of the 20 slots, in order. -/
def State.pages (me : State) : List (Option String) := me.history.map HistoryEntry.page

/-! ## saveHistory -/

/-- `str32equ (page.get(), title)`: the stored page is this title.  A slot without a page is
    taken to differ from every title; on a history that satisfies the invariant `saveHistory`
    never compares such a slot. -/
def str32equ (page : Option String) (title : String) : Bool := page == some title

/-- The loop `while (my historyPointer < 19 && my history [my historyPointer]. page) my historyPointer ++;`
    run for at most `fuel` iterations; `saveHistory` gives it 20, which is enough for the loop
    to reach its exit condition from every pointer up to 19 (`goToTop_spec`). -/
def saveHistory_goToTop (history : List HistoryEntry) : Nat → Nat → Nat
  | 0, p => p
  | fuel + 1, p =>
    if p < 19 ∧ (slotAt history p).page.isSome then saveHistory_goToTop history fuel (p + 1) else p

/-- One iteration `my history [i] = std::move (my history [i + 1])`: the page moves (the source
    slot is left without a page), the stored offset is copied. -/
def saveHistory_move (history : List HistoryEntry) (i : Nat) : List HistoryEntry :=
  let src := slotAt history (i + 1)
  (history.set i src).set (i + 1) { src with page := none }

/-- The shift `for (int i = 0; i < 19; i ++) ...; my history [19]. page. reset();`. -/
def saveHistory_shift (history : List HistoryEntry) : List HistoryEntry :=
  let h := (List.range 19).foldl saveHistory_move history
  h.set 19 { slotAt h 19 with page := none }

/-- The last two steps of `saveHistory`: "If the history buffer is full, shift it" and "Add
    the page title to the top of the history list". -/
def saveHistory_add (me : State) (title : String) : State :=
  let p := me.historyPointer
  let h := if p = 19 ∧ (me.slot p).page.isSome then saveHistory_shift me.history else me.history
  { me with history := h.set p { slotAt h p with page := some title } }

/-- The function `saveHistory (me, title)`; a null title is `none`. -/
def saveHistory (me : State) (title : Option String) : State :=
  match title with
  | none => me
  | some title =>
    let p := saveHistory_goToTop me.history 20 me.historyPointer
    let me := { me with historyPointer := p }
    if (me.slot p).page.isSome then
      if str32equ (me.slot p).page title then me else saveHistory_add me title
    else if p > 0 ∧ str32equ (me.slot (p - 1)).page title then { me with historyPointer := p - 1 }
    else saveHistory_add me title

/-! ## Scroll bar, back and forth -/

/-- The function `updateVerticalScrollBar`: the scroll bar is set to `my top`, and the stored
    offset of the current slot is set to `0` (the source reads `0/*my top*/`). -/
def updateVerticalScrollBar (me : State) : State :=
  { me with
    trace := me.trace ++ [Event.scrollBarSet me.top]
    history := me.history.set me.historyPointer { me.slot me.historyPointer with top := 0 } }

/-- The function `HyperPage_clear`. -/
def HyperPage_clear (me : State) : State :=
  { me with links := [], trace := me.trace ++ [Event.updateWs] }

/-- The function `do_back`; `none` is a failed `Melder_assert (pageTitle)`. -/
def do_back (env : Env) (me : State) : Option State :=
  if me.historyPointer ≤ 0 then some me
  else
    let me := { me with historyPointer := me.historyPointer - 1 }
    match (me.slot me.historyPointer).page with
    | none => none
    | some pageTitle =>
      let top := (me.slot me.historyPointer).top
      let me := { me with trace := me.trace ++ [Event.goToPage pageTitle] }
      if env.v_goToPage pageTitle ≠ 0 then
        some (HyperPage_clear (updateVerticalScrollBar { me with top := top }))
      else some me

/-- The function `do_forth`; `none` is a failed `Melder_assert (pageTitle)`. -/
def do_forth (env : Env) (me : State) : Option State :=
  if me.historyPointer ≥ 19 ∨ ¬ (me.slot (me.historyPointer + 1)).page.isSome then some me
  else
    let me := { me with historyPointer := me.historyPointer + 1 }
    match (me.slot me.historyPointer).page with
    | none => none
    | some pageTitle =>
      let top := (me.slot me.historyPointer).top
      let me := { me with trace := me.trace ++ [Event.goToPage pageTitle] }
      if env.v_goToPage pageTitle ≠ 0 then
        some (HyperPage_clear (updateVerticalScrollBar { me with top := top }))
      else some me

/-! ## The flow routine -/

/-- The flag `HyperPage_ADD_BORDER` of the header file (a single bit of `method`). -/
def HyperPage_ADD_BORDER : Nat := 1

/-- The flag `HyperPage_USE_ENTRY_HINT` of the header file (a single bit of `method`). -/
def HyperPage_USE_ENTRY_HINT : Nat := 2

/-- The conversions `(int) x` and `(integer) x` of a `double`: truncation toward zero. -/
def truncate (q : Rat) : Int := Int.tdiv q.num q.den

/-- The value that a 64-bit `integer` holds after an arithmetic result `n`: the result wraps
    around modulo `2 ^ 64` into the range from `-2 ^ 63` up to `2 ^ 63 - 1`. -/
def wrapInteger (n : Int) : Int := (n + 2 ^ 63) % 2 ^ 64 - 2 ^ 63

/-- The text of one header or footer, if there is one. -/
def sheetTextEvents (x y : Rat) (s : Option String) : List Event :=
  match s with
  | none => []
  | some s => [Event.sheetText x y s]

/-- The function `HyperPage_initSheetOfPaper`. -/
def HyperPage_initSheetOfPaper (env : Env) (me : State) : State :=
  let reflect : Bool := me.mirror && decide (me.d_printingPageNumber % 2 = 0)
  let leftHeader := if reflect then me.outsideHeader else me.insideHeader
  let rightHeader := if reflect then me.insideHeader else me.outsideHeader
  let leftFooter := if reflect then me.outsideFooter else me.insideFooter
  let rightFooter := if reflect then me.insideFooter else me.outsideFooter
  { me with
    d_y := PAPER_TOP - TOP_MARGIN
    d_x := 0
    previousBottomSpacing := 0
    trace := me.trace
      ++ sheetTextEvents 0.7 PAPER_TOP leftHeader
      ++ sheetTextEvents (0.7 + 3) PAPER_TOP me.middleHeader
      ++ sheetTextEvents (0.7 + 6) PAPER_TOP rightHeader
      ++ sheetTextEvents 0.7 env.PAPER_BOTTOM leftFooter
      ++ sheetTextEvents (0.7 + 3) env.PAPER_BOTTOM me.middleFooter
      ++ sheetTextEvents (0.7 + 6) env.PAPER_BOTTOM rightFooter
      ++ (if me.d_printingPageNumber ≠ 0 then
            [Event.sheetNumber (0.7 + (if reflect then 0 else 6)) env.PAPER_BOTTOM
              me.d_printingPageNumber]
          else []) }

/-- The amount that the first `my d_y -= ...` of `HyperPage_any` subtracts: on the screen
    `( my previousBottomSpacing > topSpacing ? my previousBottomSpacing : topSpacing ) * size / 12.0`,
    on paper the same, except `0` when `my d_y == PAPER_TOP - TOP_MARGIN`. -/
def HyperPage_any_topSpacing (me : State) (size topSpacing : Rat) : Rat :=
  let spacing :=
    (if me.previousBottomSpacing > topSpacing then me.previousBottomSpacing else topSpacing)
      * size / 12.0
  if ¬ me.printing then spacing
  else if me.d_y = PAPER_TOP - TOP_MARGIN then 0 else spacing

/-- The screen branch of `HyperPage_any` (`! my printing`). -/
def HyperPage_any_screen (env : Env) (me : State) (heightGuess : Rat) (text : String)
    (font : kGraphics_font) (size : Rat) (style : Int) (x secondIndent topSpacing : Rat)
    (method : Nat) : State :=
  let me :=
    if me.entryHint.isSome ∧ method &&& HyperPage_USE_ENTRY_HINT ≠ 0 ∧ me.entryHint = some text then
      { me with entryPosition := me.d_y }
    else me
  let me := { me with d_y := me.d_y - HyperPage_any_topSpacing me size topSpacing }
  let me := { me with d_y := me.d_y - size * (1.2 / 72) }
  let me := { me with d_x := x }
  if me.d_y < PAGE_HEIGHT - SCREEN_HEIGHT then
    { me with d_y := me.d_y - heightGuess }
  else
    let call : TextCall :=
      { onPaper := false, text := text, font := font, size := size, style := style,
        wrapWidth := me.rightMargin - x - 0.1, secondIndent := secondIndent,
        x := me.d_x, y := me.d_y }
    let me := { me with trace := me.trace ++ [Event.text call] }
    let me := { me with links := me.links ++ env.Graphics_getLinks call }
    let me :=
      if method &&& HyperPage_ADD_BORDER ≠ 0 then
        { me with trace := me.trace ++ [Event.line false 2.0 0.0 me.d_y me.rightMargin me.d_y] }
      else me
    { me with d_y := env.Graphics_inqTextY call }

/-- The paper branch of `HyperPage_any` (`my printing`). -/
def HyperPage_any_paper (env : Env) (me : State) (text : String)
    (font : kGraphics_font) (size : Rat) (style : Int) (minFooterDistance x secondIndent
    topSpacing : Rat) (method : Nat) : State :=
  let me := { me with d_y := me.d_y - HyperPage_any_topSpacing me size topSpacing }
  let me := { me with d_y := me.d_y - size * (1.2 / 72) }
  let me :=
    if me.d_y < env.PAPER_BOTTOM + BOTTOM_MARGIN + minFooterDistance
        + size * (1.2 / 72) * (text.length / (6.0 * 10)) then
      let me := { me with trace := me.trace ++ [Event.nextSheetOfPaper] }
      let me :=
        if me.d_printingPageNumber ≠ 0 then
          { me with d_printingPageNumber := wrapInteger (me.d_printingPageNumber + 1) }
        else me
      let me := HyperPage_initSheetOfPaper env me
      { me with d_y := me.d_y - size * (1.2 / 72) }
    else me
  let me := { me with d_x := 0.7 + x }
  let call : TextCall :=
    { onPaper := true, text := text, font := font, size := size, style := style,
      wrapWidth := 6.0 - x, secondIndent := secondIndent, x := me.d_x, y := me.d_y }
  let me := { me with trace := me.trace ++ [Event.text call] }
  let me :=
    if method &&& HyperPage_ADD_BORDER ≠ 0 then
      { me with trace := me.trace ++
          [Event.line true 3.0 0.7 (me.d_y + size * (1.2 / 72) + 0.07) 6.7
            (me.d_y + size * (1.2 / 72) + 0.07)] }
    else me
  { me with d_y := env.Graphics_inqTextY call }

/-- The function `HyperPage_any`.  `none` is the integer division by zero in
    `(integer) size * Melder_length (text) / (int) (my rightMargin * 150)`, which is evaluated
    before the screen or paper branch is entered. -/
def HyperPage_any (env : Env) (me : State) (text : String) (font : kGraphics_font) (size : Rat)
    (style : Int) (minFooterDistance x secondIndent topSpacing bottomSpacing : Rat)
    (method : Nat) : Option State :=
  if me.rightMargin = 0 then some me
  else if truncate (me.rightMargin * 150) = 0 then none
  else
    let heightGuess : Rat :=
      size * (1.2 / 72)
        * (Int.tdiv (truncate size * (text.length : Int)) (truncate (me.rightMargin * 150)) : Int)
    let me :=
      if ¬ me.printing then
        HyperPage_any_screen env me heightGuess text font size style x secondIndent topSpacing method
      else
        HyperPage_any_paper env me text font size style minFooterDistance x secondIndent topSpacing
          method
    some { me with previousBottomSpacing := bottomSpacing }

/-- The arguments of one call of `HyperPage_any`. -/
structure Fragment where
  text : String
  font : kGraphics_font
  size : Rat
  style : Int
  minFooterDistance : Rat
  x : Rat
  secondIndent : Rat
  topSpacing : Rat
  bottomSpacing : Rat
  method : Nat
deriving DecidableEq, Repr

/-- The call `HyperPage_any (me, text, font, size, ...)` for the arguments in `f`. -/
def Fragment.emit (env : Env) (me : State) (f : Fragment) : Option State :=
  HyperPage_any env me f.text f.font f.size f.style f.minFooterDistance f.x f.secondIndent
    f.topSpacing f.bottomSpacing f.method

/-- A sequence of `HyperPage_any` calls, one after the other. -/
def emitAll (env : Env) : List Fragment → State → Option State
  | [], me => some me
  | f :: fs, me => (f.emit env me).bind (emitAll env fs)

/-- The sum, over the fragments, of `max (previousBottomSpacing, topSpacing) * size / 12` plus
    one line height `size * 1.2 / 72`, where the previous bottom spacing of the first fragment
    is `prev` and that of every later fragment is the bottom spacing of the one before. -/
def spacingSum : Rat → List Fragment → Rat
  | _, [] => 0
  | prev, f :: fs =>
    max prev f.topSpacing * f.size / 12 + f.size * (1.2 / 72) + spacingSum f.bottomSpacing fs

/-- Every fragment of the sequence takes the on-screen branch: the `y` computed for it (after
    the top spacing and one line height are subtracted) is not below
    `PAGE_HEIGHT - SCREEN_HEIGHT`, when the text service does not wrap. -/
def allOnScreen : Rat → Rat → List Fragment → Prop
  | _, _, [] => True
  | y, prev, f :: fs =>
    PAGE_HEIGHT - SCREEN_HEIGHT ≤ y - max prev f.topSpacing * f.size / 12 - f.size * (1.2 / 72)
      ∧ allOnScreen (y - max prev f.topSpacing * f.size / 12 - f.size * (1.2 / 72))
          f.bottomSpacing fs

/-- The fragment of `HyperPage_paragraph` at font size 12. -/
def exampleParagraph : Fragment :=
  { text := "Some text.", font := 0, size := 12, style := 0, minFooterDistance := 0.0,
    x := 0.03, secondIndent := 0.0, topSpacing := 0.1, bottomSpacing := 0.1, method := 0 }

/-! ## Content emitters -/

/-- The flag `HyperPage_EXECUTABLE` of the header file (a single bit of `method`). -/
def HyperPage_EXECUTABLE : Nat := 4

/-- The function `HyperPage_pageTitle`. -/
def HyperPage_pageTitle (env : Env) (me : State) (title : String) : Option State :=
  HyperPage_any env me title me.instancePref_font (me.instancePref_fontSize * 2.0) 0
    2.0 0.0 0.0 (if me.printing then 0.4 / 2 else 0.2 / 2) (0.3 / 2) HyperPage_ADD_BORDER

/-- The function `HyperPage_paragraph`. -/
def HyperPage_paragraph (env : Env) (me : State) (text : String) : Option State :=
  HyperPage_any env me text me.instancePref_font me.instancePref_fontSize 0 0.0 0.03 0.0 0.1 0.1 0

/-- The font `kGraphics_font::COURIER`; the enumeration is declared outside this file. -/
def kGraphics_font_COURIER : kGraphics_font := 2

/-- The function `HyperPage_code0`. -/
def HyperPage_code0 (env : Env) (me : State) (text : String) : Option State :=
  HyperPage_any env me text kGraphics_font_COURIER (me.instancePref_fontSize * 0.86) 0
    0.0 0.0 0.5 0.0 0.0 0

/-- The function `HyperPage_code`. -/
def HyperPage_code (env : Env) (me : State) (text : String) : Option State :=
  HyperPage_any env me text kGraphics_font_COURIER (me.instancePref_fontSize * 0.86) 0
    0.0 0.3 0.5 0.0 0.0 HyperPage_EXECUTABLE

/-- The start of a new sheet, as every emitter does it on paper: `Graphics_nextSheetOfPaper`,
    `if (my d_printingPageNumber) my d_printingPageNumber ++`, `HyperPage_initSheetOfPaper`. -/
def nextSheetOfPaper (env : Env) (me : State) : State :=
  let me := { me with trace := me.trace ++ [Event.nextSheetOfPaper] }
  let me :=
    if me.d_printingPageNumber ≠ 0 then
      { me with d_printingPageNumber := wrapInteger (me.d_printingPageNumber + 1) }
    else me
  HyperPage_initSheetOfPaper env me

/-- The function `HyperPage_formula`. -/
def HyperPage_formula (env : Env) (me : State) (formula : String) : State :=
  let topSpacing : Rat := 0.2
  let bottomSpacing : Rat := 0.2
  let minFooterDistance : Rat := 0.0
  let font := me.instancePref_font
  let size := me.instancePref_fontSize
  let me :=
    if ¬ me.printing then
      let me := { me with d_y := me.d_y - HyperPage_any_topSpacing me size topSpacing }
      let me := { me with d_y := me.d_y - size * (1.2 / 72) }
      if me.d_y > PAGE_HEIGHT + 2.0 ∨ me.d_y < PAGE_HEIGHT - SCREEN_HEIGHT then me
      else
        { me with trace := me.trace ++
            [Event.centredText false font size (0.5 * me.rightMargin) me.d_y formula] }
    else
      let me := { me with d_y := me.d_y - HyperPage_any_topSpacing me size topSpacing }
      let me := { me with d_y := me.d_y - size * (1.2 / 72) }
      let me :=
        if me.d_y < env.PAPER_BOTTOM + BOTTOM_MARGIN + minFooterDistance then
          let me := nextSheetOfPaper env me
          { me with d_y := me.d_y - size * (1.2 / 72) }
        else me
      { me with trace := me.trace ++ [Event.centredText true font size 3.7 me.d_y formula] }
  { me with previousBottomSpacing := bottomSpacing }

/-! ## Page changes -/

/-- The function `HyperPage_goToPage`: the returned number and the viewer afterwards. -/
def HyperPage_goToPage (env : Env) (me : State) (pageTitle : String) : Int × State :=
  let me := { me with trace := me.trace ++ [Event.goToPage pageTitle] }
  if env.v_goToPage pageTitle = -1 then (0, me)
  else if env.v_goToPage pageTitle = 0 then (0, HyperPage_clear me)
  else
    let me := saveHistory me (some pageTitle)
    let me := { me with optionalCurrentPageTitle := some pageTitle }
    let me := { me with top := 0.0 }
    let me := updateVerticalScrollBar me
    (1, HyperPage_clear me)

/-- The function `HyperPage_goToPage_number`.  The document source `my v_goToPage_number` is
    outside this file; `v_goToPage_number` gives the page title that it makes current.  `none`
    is a failed `Melder_assert (! optionalPageNumber || my optionalCurrentPageTitle)`. -/
def HyperPage_goToPage_number (v_goToPage_number : Int → Option String) (me : State)
    (optionalPageNumber : Int) : Option State :=
  let me := { me with optionalCurrentPageTitle := v_goToPage_number optionalPageNumber }
  if ¬ (optionalPageNumber = 0 ∨ me.optionalCurrentPageTitle.isSome) then none
  else
    let me := { me with top := 0.0 }
    let me := updateVerticalScrollBar me
    some (HyperPage_clear me)

/-! ## Scrolling -/

/-- `Melder_clippedLeft (minimum, value)`: the value, or the minimum if the value is below it. -/
def Melder_clippedLeft (minimum value : Rat) : Rat := if value < minimum then minimum else value

/-- `Melder_clippedRight (value, maximum)`: the value, or the maximum if the value is above it. -/
def Melder_clippedRight (value maximum : Rat) : Rat := if value > maximum then maximum else value

/-- The function `gui_cb_verticalScroll`; `value` is `GuiScrollBar_getValue (event -> scrollBar)`. -/
def gui_cb_verticalScroll (me : State) (value : Rat) : State :=
  if value ≠ me.top then
    let me := { me with top := value }
    let me := updateVerticalScrollBar me
    { me with trace := me.trace ++ [Event.updateWs] }
  else me

/-- The function `menu_cb_pageUp`; `verticalScrollBar` is `none` when `my verticalScrollBar`
    does not exist, and otherwise the value that `GuiScrollBar_getValue` reports. -/
def menu_cb_pageUp (me : State) (verticalScrollBar : Option Rat) : State :=
  match verticalScrollBar with
  | none => me
  | some scrollBarValue =>
    let value := Melder_clippedLeft 0.0 (scrollBarValue - 24.0)
    if value ≠ me.top then
      let me := { me with top := value }
      let me := updateVerticalScrollBar me
      { me with trace := me.trace ++ [Event.updateWs] }
    else me

/-- The function `menu_cb_pageDown`. -/
def menu_cb_pageDown (me : State) (verticalScrollBar : Option Rat) : State :=
  match verticalScrollBar with
  | none => me
  | some scrollBarValue =>
    let value := Melder_clippedRight (scrollBarValue + 24.0) (PAGE_HEIGHT * 5.0 - 25.0)
    if value ≠ me.top then
      let me := { me with top := value }
      let me := updateVerticalScrollBar me
      { me with trace := me.trace ++ [Event.updateWs] }
    else me

/-- The function `gui_drawingarea_cb_expose` up to the call of `my v_draw ()`: the jump to the
    entry hint, and the reset of the cursor and of the link registry.  `none` is the early
    return `if (! my graphics) return;`. -/
def gui_drawingarea_cb_expose_begin (me : State) : Option State :=
  if ¬ me.graphics then none
  else
    let me :=
      if me.entryHint.isSome ∧ me.entryPosition ≠ 0.0 then
        let me := { me with entryHint := none }
        let me := { me with top := 5.0 * (PAGE_HEIGHT - me.entryPosition) }
        { me with top := Melder_clippedLeft 0.0 me.top }
      else me
    let me := { me with d_y := PAGE_HEIGHT + me.top / 5.0 }
    let me := { me with d_x := 0.0 }
    let me := { me with previousBottomSpacing := 0.0 }
    let me := { me with links := [] }
    some { me with trace := me.trace ++ [Event.clearWs] }

/-- The function `gui_drawingarea_cb_expose`; `v_draw` is the drawing of the document source
    (`my v_draw ()`), which can fail where an emitter fails. -/
def gui_drawingarea_cb_expose (v_draw : State → Option State) (me : State) : Option State :=
  match gui_drawingarea_cb_expose_begin me with
  | none => some me
  | some me => v_draw me

/-! ## Pointer clicks -/

/-- A `GuiDrawingArea_MouseEvent`: whether it is a click, and where. -/
structure MouseEvent where
  isClick : Bool
  x : Rat
  y : Rat
deriving DecidableEq, Repr

/-- The test of `gui_drawingarea_cb_mouse`:
    `event -> y > link -> y2DC && event -> y < link -> y1DC && event -> x > link -> x1DC && event -> x < link -> x2DC`. -/
def HyperLink.hit (link : HyperLink) (event : MouseEvent) : Bool :=
  decide (event.y > link.y2DC ∧ event.y < link.y1DC ∧ event.x > link.x1DC ∧ event.x < link.x2DC)

/-- The loop of `gui_drawingarea_cb_mouse` over the links that are still to be visited. -/
def gui_drawingarea_cb_mouse_loop (env : Env) (me : State) (event : MouseEvent) :
    List HyperLink → State
  | [] => me
  | link :: rest =>
    if link.hit event then
      let me := saveHistory me me.optionalCurrentPageTitle
      (HyperPage_goToPage env me link.name).2
    else gui_drawingarea_cb_mouse_loop env me event rest

/-- The function `gui_drawingarea_cb_mouse`. -/
def gui_drawingarea_cb_mouse (env : Env) (me : State) (event : MouseEvent) : State :=
  if ¬ event.isClick then me
  else if ¬ me.graphics then me
  else gui_drawingarea_cb_mouse_loop env me event me.links

/-! ## Pictures and scripts -/

/-- A rectangle `x1, x2, y1, y2` in real coordinates. -/
structure Rect where
  x1 : Rat
  x2 : Rat
  y1 : Rat
  y2 : Rat
deriving DecidableEq, Repr

/-- A rectangle `x1DC, x2DC, y1DC, y2DC` in device coordinates. -/
structure DeviceRect where
  x1DC : Int
  x2DC : Int
  y1DC : Int
  y2DC : Int
deriving DecidableEq, Repr

/-- Modelled from the spec: the graphics library is outside this file.  A graphics handle
    (`my graphics` on the screen, `my ps` on paper) carries the "viewport-and-window
    transform": the viewport, the window, the workstation viewport and the workstation window,
    and the three markup switches that `HyperPage_script` saves.  Pen settings (font, size,
    style, colour, line type and width, text alignment, wrap width) are not part of the record. -/
structure Graphics where
  viewport : Rect
  window : Rect
  wsViewport : DeviceRect
  wsWindow : Rect
  dollarSignIsCode : Bool
  backquoteIsVerbatim : Bool
  atSignIsLink : Bool
deriving DecidableEq, Repr

/-- Modelled from the spec: `Graphics_setViewport` replaces the viewport. -/
def Graphics_setViewport (g : Graphics) (x1 x2 y1 y2 : Rat) : Graphics :=
  { g with viewport := ⟨x1, x2, y1, y2⟩ }

/-- Modelled from the spec: `Graphics_setWindow` replaces the window. -/
def Graphics_setWindow (g : Graphics) (x1 x2 y1 y2 : Rat) : Graphics :=
  { g with window := ⟨x1, x2, y1, y2⟩ }

/-- Modelled from the spec: `Graphics_resetWsViewport` replaces the workstation viewport. -/
def Graphics_resetWsViewport (g : Graphics) (x1DC x2DC y1DC y2DC : Int) : Graphics :=
  { g with wsViewport := ⟨x1DC, x2DC, y1DC, y2DC⟩ }

/-- Modelled from the spec: `Graphics_setWsWindow` replaces the workstation window. -/
def Graphics_setWsWindow (g : Graphics) (x1 x2 y1 y2 : Rat) : Graphics :=
  { g with wsWindow := ⟨x1, x2, y1, y2⟩ }

/-- Modelled from the spec: `Graphics_inqWsViewport` reads the workstation viewport. -/
def Graphics_inqWsViewport (g : Graphics) : DeviceRect := g.wsViewport

/-- Modelled from the spec: `Graphics_inqWsWindow` reads the workstation window. -/
def Graphics_inqWsWindow (g : Graphics) : Rect := g.wsWindow

/-- What a nested drawing (the `draw` callback of `HyperPage_picture`, the `Graphics_play` of
    the cached drawing in `HyperPage_script`) does: the graphics handle afterwards, and whether
    it raised an error. -/
structure Drawn where
  g : Graphics
  error : Bool
deriving DecidableEq, Repr

/-- The outcome of `HyperPage_picture` and `HyperPage_script`: the viewer and the graphics
    handle afterwards, and whether an error propagates to the caller (then they are as the
    error left them). -/
structure Emitted where
  me : State
  g : Graphics
  error : Bool
deriving DecidableEq, Repr

/-- The functions of the graphics library and of the text library that `HyperPage_script`
    calls for device coordinates and line ends; all are outside this file. -/
structure Device where
  /-- The point `Graphics_WCtoDC (g, x, y, & xDC, & yDC)`. -/
  Graphics_WCtoDC : Graphics → Rat → Rat → Int × Int
  Graphics_getResolution : Graphics → Rat
  /-- The compile-time switch `cocoa`. -/
  cocoa : Bool
  Melder_isEndOfLine : Char → Bool

/-- The true size of a picture: `inches * ( inches < 0.0 ? -1.0 : size / 12.0 )`. -/
def trueInches (inches size : Rat) : Rat :=
  inches * (if inches < 0.0 then -1.0 else size / 12.0)

/-- The function `HyperPage_picture`; `g` is the graphics handle that the call draws on
    (`my graphics` on the screen, `my ps` on paper).  The source declares `const int size`, so
    `size` is the font size truncated to an integer. -/
def HyperPage_picture (env : Env) (me : State) (g : Graphics) (width_inches height_inches : Rat)
    (draw : Graphics → Drawn) : Emitted :=
  let topSpacing : Rat := 0.1
  let bottomSpacing : Rat := 0.1
  let minFooterDistance : Rat := 0.0
  let size : Rat := ((truncate me.instancePref_fontSize : Int) : Rat)
  let width_inches := trueInches width_inches size
  let height_inches := trueInches height_inches size
  if ¬ me.printing then
    let me := { me with d_y := me.d_y - HyperPage_any_topSpacing me size topSpacing }
    if me.d_y > PAGE_HEIGHT + height_inches ∨ me.d_y < PAGE_HEIGHT - SCREEN_HEIGHT then
      let me := { me with d_y := me.d_y - height_inches }
      ⟨{ me with previousBottomSpacing := bottomSpacing }, g, false⟩
    else
      let me := { me with d_y := me.d_y - height_inches }
      let me := { me with d_x := if width_inches > me.rightMargin then 0.0
                                 else 0.5 * (me.rightMargin - width_inches) }
      let g := Graphics_setViewport g me.d_x (me.d_x + width_inches) me.d_y (me.d_y + height_inches)
      let me := { me with trace := me.trace ++
        [Event.draw false me.d_x (me.d_x + width_inches) me.d_y (me.d_y + height_inches)] }
      let drawn := draw g
      if drawn.error then ⟨me, drawn.g, true⟩
      else
        let g := Graphics_setViewport drawn.g 0.0 1.0 0.0 1.0
        let g := Graphics_setWindow g 0.0 1.0 0.0 1.0
        ⟨{ me with previousBottomSpacing := bottomSpacing }, g, false⟩
  else
    let me := { me with d_y := me.d_y - HyperPage_any_topSpacing me size topSpacing }
    let me := { me with d_y := me.d_y - height_inches }
    let me :=
      if me.d_y < env.PAPER_BOTTOM + BOTTOM_MARGIN + minFooterDistance then
        let me := nextSheetOfPaper env me
        { me with d_y := me.d_y - height_inches }
      else me
    let me := { me with d_x := Melder_clippedLeft 0.0 (3.7 - 0.5 * width_inches) }
    let g := Graphics_setViewport g me.d_x (me.d_x + width_inches) me.d_y (me.d_y + height_inches)
    let me := { me with trace := me.trace ++
      [Event.draw true me.d_x (me.d_x + width_inches) me.d_y (me.d_y + height_inches)] }
    let drawn := draw g
    if drawn.error then ⟨me, drawn.g, true⟩
    else
      let g := Graphics_setViewport drawn.g 0.0 1.0 0.0 1.0
      let g := Graphics_setWindow g 0.0 1.0 0.0 1.0
      ⟨{ me with previousBottomSpacing := bottomSpacing }, g, false⟩

/-- The loop of `HyperPage_script` over the characters of `cacheInfo`: at every end of line the
    buffer is emitted with `HyperPage_code` (with a tab in front if it contains a tab) and
    emptied; every other character is appended to the buffer. -/
def HyperPage_script_cacheLines (env : Env) (dev : Device) :
    List Char → String → State → Option State
  | [], _, me => some me
  | p :: rest, buffer, me =>
    if dev.Melder_isEndOfLine p then
      match HyperPage_code env me (if buffer.contains '\t' then "\t" ++ buffer else buffer) with
      | none => none
      | some me => HyperPage_script_cacheLines env dev rest "" me
    else HyperPage_script_cacheLines env dev rest (buffer.push p) me

/-- The first part of `HyperPage_script`: `if (cacheInfo && cacheInfo [0] != U'\0') ...`. -/
def HyperPage_script_cacheInfo (env : Env) (dev : Device) (me : State)
    (cacheInfo : Option String) : Option State :=
  match cacheInfo with
  | none => some me
  | some info =>
    if info = "" then some me
    else
      match HyperPage_code0 env me "\\#\x7b=>\x7d" with
      | none => none
      | some me => HyperPage_script_cacheLines env dev info.toList "" me

/-- The function `HyperPage_script`; `g` is the graphics handle that the call draws on
    (`my graphics` on the screen, `my ps` on paper), `cacheGraphics` is `none` for a null
    pointer and otherwise what `Graphics_play (cacheGraphics, my graphics.get())` does.  `none`
    is a failed `Melder_assert (cacheGraphics)` or a failed `HyperPage_any`.  The swap of the
    global "current application, objects and picture" is outside the model. -/
def HyperPage_script (env : Env) (dev : Device) (me : State) (g : Graphics)
    (width_inches height_inches : Rat) (script : String)
    (cacheGraphics : Option (Graphics → Drawn)) (cacheInfo : Option String) : Option Emitted :=
  match HyperPage_script_cacheInfo env dev me cacheInfo with
  | none => none
  | some me =>
    let _text := script
    let topSpacing : Rat := 0.1
    let bottomSpacing : Rat := 0.1
    let minFooterDistance : Rat := 0.0
    let fontSize := me.instancePref_fontSize
    let true_width_inches := trueInches width_inches fontSize
    let true_height_inches := trueInches height_inches fontSize
    if ¬ me.printing then
      let me := { me with d_y := me.d_y - HyperPage_any_topSpacing me fontSize topSpacing }
      if me.d_y > PAGE_HEIGHT + true_height_inches ∨ me.d_y < PAGE_HEIGHT - SCREEN_HEIGHT then
        let me := { me with d_y := me.d_y - true_height_inches }
        some ⟨{ me with previousBottomSpacing := bottomSpacing }, g, false⟩
      else
        let me := { me with d_y := me.d_y - true_height_inches }
        let me := { me with d_x := if true_width_inches > me.rightMargin then 0.0
                                   else 0.5 * (me.rightMargin - true_width_inches) }
        let wsViewportOld := Graphics_inqWsViewport g
        let wsWindowOld := Graphics_inqWsWindow g
        let g := Graphics_setViewport g me.d_x (me.d_x + true_width_inches) me.d_y
          (me.d_y + true_height_inches)
        let g := Graphics_setWindow g 0.0 1.0 0.0 1.0
        let lowerLeft := dev.Graphics_WCtoDC g 0.0 0.0
        let upperRight := dev.Graphics_WCtoDC g 1.0 1.0
        let g := Graphics_resetWsViewport g lowerLeft.1 upperRight.1 upperRight.2 lowerLeft.2
        let g := Graphics_setWsWindow g 0 width_inches 0 height_inches
        let g := Graphics_setViewport g 0.0 width_inches 0.0 height_inches
        match cacheGraphics with
        | none => none
        | some play =>
          let dollarSignWasCode := g.dollarSignIsCode
          let backquoteWasVerbatim := g.backquoteIsVerbatim
          let atSignWasLink := g.atSignIsLink
          let g := { g with dollarSignIsCode := false }
          let g := { g with backquoteIsVerbatim := false }
          let g := { g with atSignIsLink := false }
          let me := { me with trace := me.trace ++
            [Event.draw false me.d_x (me.d_x + true_width_inches) me.d_y
              (me.d_y + true_height_inches)] }
          let drawn := play g
          if drawn.error then some ⟨me, drawn.g, true⟩
          else
            let g := drawn.g
            let g := if dollarSignWasCode then { g with dollarSignIsCode := true } else g
            let g := if backquoteWasVerbatim then { g with backquoteIsVerbatim := true } else g
            let g := if atSignWasLink then { g with atSignIsLink := true } else g
            let g := Graphics_resetWsViewport g wsViewportOld.x1DC wsViewportOld.x2DC
              wsViewportOld.y1DC wsViewportOld.y2DC
            let g := Graphics_setWsWindow g wsWindowOld.x1 wsWindowOld.x2 wsWindowOld.y1
              wsWindowOld.y2
            let g := Graphics_setViewport g 0.0 1.0 0.0 1.0
            let g := Graphics_setWindow g 0.0 1.0 0.0 1.0
            some ⟨{ me with previousBottomSpacing := bottomSpacing }, g, false⟩
    else
      let me := { me with d_y := me.d_y - HyperPage_any_topSpacing me fontSize topSpacing }
      let me := { me with d_y := me.d_y - true_height_inches }
      let me :=
        if me.d_y < env.PAPER_BOTTOM + BOTTOM_MARGIN + minFooterDistance then
          let me := nextSheetOfPaper env me
          { me with d_y := me.d_y - true_height_inches }
        else me
      let me := { me with d_x := Melder_clippedLeft 0.0 (3.7 - 0.5 * true_width_inches) }
      let wsViewportOld := Graphics_inqWsViewport g
      let wsWindowOld := Graphics_inqWsWindow g
      let g := Graphics_setViewport g me.d_x (me.d_x + true_width_inches) me.d_y
        (me.d_y + true_height_inches)
      let g := Graphics_setWindow g 0.0 1.0 0.0 1.0
      let lowerLeft := dev.Graphics_WCtoDC g 0.0 0.0
      let upperRight := dev.Graphics_WCtoDC g 1.0 1.0
      let shift : Int :=
        if dev.cocoa then 0
        else truncate (dev.Graphics_getResolution g * true_height_inches)
          + (wsViewportOld.y1DC - wsViewportOld.y2DC)
      let g := Graphics_resetWsViewport g lowerLeft.1 upperRight.1 (upperRight.2 + shift)
        (lowerLeft.2 + shift)
      let g := Graphics_setWsWindow g 0 width_inches 0 height_inches
      let g := Graphics_setViewport g 0.0 width_inches 0.0 height_inches
      let g := Graphics_resetWsViewport g wsViewportOld.x1DC wsViewportOld.x2DC
        wsViewportOld.y1DC wsViewportOld.y2DC
      let g := Graphics_setWsWindow g wsWindowOld.x1 wsWindowOld.x2 wsWindowOld.y1 wsWindowOld.y2
      let g := Graphics_setViewport g 0.0 1.0 0.0 1.0
      let g := Graphics_setWindow g 0.0 1.0 0.0 1.0
      some ⟨{ me with previousBottomSpacing := bottomSpacing }, g, false⟩

/-- The viewer of `HyperPage_picture` on paper before the nested drawing starts: the cursor has
    moved down, onto a new sheet if the picture did not fit. -/
def HyperPage_picture_paperCursor (env : Env) (me : State) (size h : Rat) : State :=
  if me.d_y - HyperPage_any_topSpacing me size 0.1 - h < env.PAPER_BOTTOM + BOTTOM_MARGIN + 0.0 then
    { nextSheetOfPaper env
        { me with d_y := me.d_y - HyperPage_any_topSpacing me size 0.1 - h } with
      d_y := (nextSheetOfPaper env
        { me with d_y := me.d_y - HyperPage_any_topSpacing me size 0.1 - h }).d_y - h }
  else { me with d_y := me.d_y - HyperPage_any_topSpacing me size 0.1 - h }

/-! ## The direction of the flow -/

/-- The number of new sheets requested so far (`Graphics_nextSheetOfPaper`). -/
def State.sheetsStarted (me : State) : Nat := me.trace.count Event.nextSheetOfPaper

/-- How the vertical cursor of `s1`, after a call, relates to that of `me`, before it: it is not
    higher, or the call was made in print mode, requested a new sheet, and the cursor is not
    above the sheet top `PAPER_TOP - TOP_MARGIN`. -/
def flowsDown (me s1 : State) : Prop :=
  s1.d_y ≤ me.d_y
    ∨ (me.printing = true ∧ me.sheetsStarted < s1.sheetsStarted
        ∧ s1.d_y ≤ PAPER_TOP - TOP_MARGIN)

/-- The relation `flowsDown`, together with what a sequence of calls needs to keep it: the mode,
    the margin and the font size stay, and the number of requested sheets does not go down. -/
def flowStep (me s1 : State) : Prop :=
  s1.printing = me.printing ∧ s1.rightMargin = me.rightMargin
    ∧ s1.instancePref_fontSize = me.instancePref_fontSize
    ∧ me.sheetsStarted ≤ s1.sheetsStarted ∧ flowsDown me s1

/-! ## The range of the scroll offset -/

/-- The scroll offset is within `[0, PAGE_HEIGHT * 5 - sliderSize]`, the range of the values of
    the scroll bar (`sliderSize` is 25). -/
def State.topInRange (me : State) : Prop := 0 ≤ me.top ∧ me.top ≤ PAGE_HEIGHT * 5 - 25

instance (me : State) : Decidable me.topInRange := by
  unfold State.topInRange; infer_instance

/-! ## Statement helpers for pictures and scripts -/

/-- The visibility test of `HyperPage_picture` and `HyperPage_script` on the screen, made after
    the top spacing is subtracted: `my d_y > PAGE_HEIGHT + height_inches || my d_y < PAGE_HEIGHT - SCREEN_HEIGHT`.
    When it holds, the cursor moves and nothing is drawn. -/
def State.skipsPicture (me : State) (size height : Rat) : Prop :=
  me.d_y - HyperPage_any_topSpacing me size 0.1 > PAGE_HEIGHT + height
    ∨ me.d_y - HyperPage_any_topSpacing me size 0.1 < PAGE_HEIGHT - SCREEN_HEIGHT

instance (me : State) (size height : Rat) : Decidable (me.skipsPicture size height) := by
  unfold State.skipsPicture; infer_instance

/-- The viewport and the window of the handle are the unit square. -/
def Graphics.unitTransform (g : Graphics) : Prop :=
  g.viewport = ⟨0, 1, 0, 1⟩ ∧ g.window = ⟨0, 1, 0, 1⟩

instance (g : Graphics) : Decidable g.unitTransform := by
  unfold Graphics.unitTransform; infer_instance

/-! ## Statement helpers for sheets -/

/-- The sheet number after the start of a new sheet:
    `if (my d_printingPageNumber != 0) my d_printingPageNumber ++;`, on a 64-bit `integer`. -/
def nextSheetNumber (n : Int) : Int := if n ≠ 0 then wrapInteger (n + 1) else n

/-- What one emitter call does to the sheet number: it requests no sheet and leaves the number
    as it was, or it is a call in print mode that requests exactly one sheet and steps the
    number once. -/
def sheetNumbering (me s1 : State) : Prop :=
  (s1.sheetsStarted = me.sheetsStarted ∧ s1.d_printingPageNumber = me.d_printingPageNumber)
    ∨ (me.printing = true ∧ s1.sheetsStarted = me.sheetsStarted + 1
        ∧ s1.d_printingPageNumber = nextSheetNumber me.d_printingPageNumber)

/-- What a sequence of emitter calls does to the sheet number: the number is stepped once for
    every sheet requested, and sheets are requested in print mode only. -/
def sheetNumberingMany (me s1 : State) : Prop :=
  s1.printing = me.printing ∧ me.sheetsStarted ≤ s1.sheetsStarted
    ∧ s1.d_printingPageNumber
        = nextSheetNumber^[s1.sheetsStarted - me.sheetsStarted] me.d_printingPageNumber
    ∧ (me.sheetsStarted < s1.sheetsStarted → me.printing = true)

/-! ## Resizing -/

/-- Modelled from the spec: `Graphics_setWsViewport` replaces the workstation viewport. -/
def Graphics_setWsViewport (g : Graphics) (x1DC x2DC y1DC y2DC : Int) : Graphics :=
  { g with wsViewport := ⟨x1DC, x2DC, y1DC, y2DC⟩ }

/-- The function `gui_drawingarea_cb_resize`: `resolution` is the file-level
    `static double resolution`, `width` and `height` are `event -> width` and
    `event -> height` in pixels, and `g` is `my graphics`.  The margin becomes
    `event -> width / resolution`. -/
def gui_drawingarea_cb_resize (resolution : Rat) (me : State) (g : Graphics)
    (width height : Int) : State × Graphics :=
  if ¬ me.graphics then (me, g)
  else
    let g := Graphics_setWsViewport g 0 width 0 height
    let me := { me with rightMargin := width / resolution }
    let g := Graphics_setWsWindow g 0.0 me.rightMargin (PAGE_HEIGHT - height / resolution)
      PAGE_HEIGHT
    (me, g)

/-! ## Sequences of viewer operations -/

/-- The operations of the viewer that write the history or the scroll offset. -/
inductive ViewerOp where
  | save (title : Option String)
  | back
  | forth
  | scroll (value : Rat)
  | pageUp (verticalScrollBar : Option Rat)
  | pageDown (verticalScrollBar : Option Rat)
  | goToPage (pageTitle : String)
deriving DecidableEq, Repr

/-- One operation; `none` is a failed assertion. -/
def ViewerOp.run (env : Env) (op : ViewerOp) (me : State) : Option State :=
  match op with
  | ViewerOp.save title => some (saveHistory me title)
  | ViewerOp.back => do_back env me
  | ViewerOp.forth => do_forth env me
  | ViewerOp.scroll value => some (gui_cb_verticalScroll me value)
  | ViewerOp.pageUp verticalScrollBar => some (menu_cb_pageUp me verticalScrollBar)
  | ViewerOp.pageDown verticalScrollBar => some (menu_cb_pageDown me verticalScrollBar)
  | ViewerOp.goToPage pageTitle => some (HyperPage_goToPage env me pageTitle).2

/-- A sequence of operations, from left to right. -/
def runViewerOps (env : Env) : List ViewerOp → State → Option State
  | [], me => some me
  | op :: ops, me => (op.run env me).bind (runViewerOps env ops)

/-- The scroll offset stored in every history slot is 0. -/
def State.storedOffsetsZero (me : State) : Prop := ∀ e, e ∈ me.history → e.top = 0

instance (me : State) : Decidable me.storedOffsetsZero := by
  unfold State.storedOffsetsZero; infer_instance

/-! ## More example inputs -/

/-- The transform of the viewer's graphics between two fragments: unit viewport and window, a
    drawing area of 760 by 600 pixels showing 7.6 by 6 inches at the top of the page. -/
def exampleGraphics : Graphics :=
  { viewport := ⟨0, 1, 0, 1⟩, window := ⟨0, 1, 0, 1⟩, wsViewport := ⟨0, 760, 0, 600⟩,
    wsWindow := ⟨0, 7.6, 314, 320⟩, dollarSignIsCode := true, backquoteIsVerbatim := false,
    atSignIsLink := true }

/-- A device of 100 pixels per inch. -/
def exampleDevice : Device :=
  { Graphics_WCtoDC := fun _ x y => (truncate (100 * x), truncate (100 * y))
    Graphics_getResolution := fun _ => 100
    cocoa := false
    Melder_isEndOfLine := fun c => c = '\n' }

/-- A nested drawing that changes nothing and raises no error. -/
def exampleDraw (g : Graphics) : Drawn := ⟨g, false⟩

/-- A nested drawing that raises an error at once. -/
def exampleFailingDraw (g : Graphics) : Drawn := ⟨g, true⟩

/-- A nested drawing that sets the workstation window and raises no error. -/
def exampleZoomingDraw (g : Graphics) : Drawn := ⟨Graphics_setWsWindow g 0 1 0 1, false⟩

/-! ## Well-formed histories -/

/-- The filled slots are exactly the slots `0 .. n-1` of the 20. -/
def State.filledPrefix (me : State) (n : Nat) : Prop :=
  me.history.length = 20 ∧ n ≤ 20 ∧ ∀ i, i < 20 → ((me.slot i).page.isSome ↔ i < n)

instance (me : State) (n : Nat) : Decidable (me.filledPrefix n) := by
  unfold State.filledPrefix; infer_instance

/-- The pointer is on the last filled slot, and that slot holds the title `t`. -/
def State.atTop (me : State) (t : String) : Prop :=
  me.history.length = 20 ∧ me.historyPointer ≤ 19 ∧ (me.slot me.historyPointer).page = some t ∧
    (me.historyPointer = 19 ∨ (me.slot (me.historyPointer + 1)).page = none)

/-- The invariant of the history: the filled slots are the first `n`, and the pointer is on a
    filled slot (or on slot 0 of an empty history). -/
def State.historyInvariant (me : State) (n : Nat) : Prop :=
  me.filledPrefix n ∧ (me.historyPointer < n ∨ (n = 0 ∧ me.historyPointer = 0))

/-- The operations on the history. -/
inductive HistoryOp where
  | save (title : Option String)
  | back
  | forth
deriving DecidableEq, Repr

/-- One operation; `none` is a failed assertion. -/
def HistoryOp.run (env : Env) (op : HistoryOp) (me : State) : Option State :=
  match op with
  | HistoryOp.save title => some (saveHistory me title)
  | HistoryOp.back => do_back env me
  | HistoryOp.forth => do_forth env me

/-- A sequence of operations, from left to right. -/
def runHistoryOps (env : Env) : List HistoryOp → State → Option State
  | [], me => some me
  | op :: ops, me => (op.run env me).bind (runHistoryOps env ops)

/-! ## Example inputs -/

/-- A history whose first slots hold the given titles (stored offsets 0), with the pointer at `p`. -/
def State.visited (titles : List String) (p : Nat) : State :=
  { State.empty with
    history := titles.map (fun t => ⟨some t, 0⟩) ++ List.replicate (20 - titles.length) ⟨none, 0⟩
    historyPointer := p }

/-- Twenty-one distinct page titles. -/
def exampleTitles : List String :=
  ["p1", "p2", "p3", "p4", "p5", "p6", "p7", "p8", "p9", "p10", "p11", "p12", "p13", "p14",
    "p15", "p16", "p17", "p18", "p19", "p20", "p21"]

/-- A document source that finds every page, a text service that does not wrap and reports no
    links, and US letter paper (11 inches high). -/
def exampleEnv : Env :=
  { v_goToPage := fun _ => 1
    Graphics_inqTextY := fun call => call.y
    Graphics_getLinks := fun _ => []
    PAPER_BOTTOM := 2 }

/-- The viewer at the top of a fresh sheet of paper: print mode, `y = PAPER_TOP - TOP_MARGIN`. -/
def examplePaperTop : State :=
  { State.empty with printing := true, rightMargin := 6, d_y := PAPER_TOP - TOP_MARGIN }

/-- The viewer at the top of the page on the screen: `y = PAGE_HEIGHT`, margin 6 inches. -/
def exampleScreenTop : State :=
  { State.empty with rightMargin := 6, d_y := PAGE_HEIGHT }

/-- The viewer at the top of the page on the screen, with a drawing area one pixel wide at 200
    pixels per inch (`rightMargin = width / resolution`). -/
def exampleNarrowScreen : State :=
  { State.empty with rightMargin := 1 / 200, d_y := PAGE_HEIGHT }

/-- The viewer showing page `A`, with three registered links: one away from the point (2, 2),
    and two overlapping ones, to `B` and to `C`, that both contain it. -/
def exampleLinked : State :=
  { State.visited ["A"] 0 with
    optionalCurrentPageTitle := some "A"
    links := [⟨"far", 5, 6, 6, 5⟩, ⟨"B", 1, 3, 3, 1⟩, ⟨"C", 0, 4, 4, 0⟩] }

/-- The viewer near the bottom of a sheet of paper (`y = 2.7`), with the margin of a drawing
    area one pixel wide at 200 pixels per inch. -/
def exampleNarrowPaper : State :=
  { State.empty with printing := true, rightMargin := 1 / 200, d_y := 2.7 }

/-- The viewer during a render pass on the screen that started at the top of the page
    (`top = 0`), with the cursor 2 inches above the bottom of the 320-inch page, looking for the
    entry `"entry"`. -/
def exampleEntryCursor : State :=
  { State.empty with rightMargin := 6, d_y := 2, entryHint := some "entry" }

/-- A graphics handle whose viewport is not the unit square. -/
def exampleShiftedGraphics : Graphics := Graphics_setViewport exampleGraphics 1 2 1 2

/-- The viewer near the bottom of a sheet of paper (`y = 2.7`, margin 6 inches), with sheet
    number 3. -/
def examplePaperBottom : State :=
  { State.empty with printing := true, rightMargin := 6, d_y := 2.7, d_printingPageNumber := 3 }

/-- The viewer at the top of the page on the screen, with a drawing area one pixel wide at 200
    pixels per inch, looking for the entry `"entry"`. -/
def exampleNarrowEntry : State :=
  { State.empty with rightMargin := 1 / 200, d_y := PAGE_HEIGHT, entryHint := some "entry" }

/-- The viewer showing page `A` with one registered link, to `B`, whose device rectangle has its
    bottom edge `y1DC = 3` below its top edge `y2DC = 1` (device `y` grows downward). -/
def exampleOneLink : State :=
  { State.visited ["A"] 0 with
    optionalCurrentPageTitle := some "A"
    links := [⟨"B", 1, 3, 3, 1⟩] }

/-- The same viewer with the two `y` edges of the link exchanged: `y1DC = 1`, `y2DC = 3`. -/
def exampleExchangedLink : State :=
  { State.visited ["A"] 0 with
    optionalCurrentPageTitle := some "A"
    links := [⟨"B", 1, 3, 1, 3⟩] }

/-- The viewer at the top of sheet number 2 with the mirror option set and all six header and
    footer texts given. -/
def examplePaperHeaders : State :=
  { examplePaperTop with
    mirror := true
    d_printingPageNumber := 2
    insideHeader := some "inside header"
    middleHeader := some "middle header"
    outsideHeader := some "outside header"
    insideFooter := some "inside footer"
    middleFooter := some "middle footer"
    outsideFooter := some "outside footer" }

/-- The viewer near the bottom of a sheet of paper (`y = 2.7`, margin 6 inches) whose sheet
    number is the largest 64-bit integer. -/
def examplePaperLastNumber : State :=
  { State.empty with
    printing := true, rightMargin := 6, d_y := 2.7, d_printingPageNumber := 2 ^ 63 - 1 }

/-! # Theorems -/

/-! ## Slot array lemmas -/

theorem slotAt_set (h : List HistoryEntry) (p i : Nat) (e : HistoryEntry) (hp : p < h.length) :
    slotAt (h.set p e) i = if i = p then e else slotAt h i := by
  simp only [slotAt, List.getD_eq_getElem?_getD, List.getElem?_set]
  by_cases hip : i = p
  · subst hip; simp [hp]
  · have : ¬ p = i := fun h => hip h.symm
    simp [hip, this]

theorem goToTop_succ (h : List HistoryEntry) (fuel p : Nat) :
    saveHistory_goToTop h (fuel + 1) p
      = if p < 19 ∧ (slotAt h p).page.isSome then saveHistory_goToTop h fuel (p + 1) else p := rfl

/-- The loop stops within 20 iterations, at the first slot at or after the pointer that is
    empty or is slot 19. -/
theorem goToTop_spec (h : List HistoryEntry) : ∀ fuel p, p ≤ 19 → 19 - p ≤ fuel →
    p ≤ saveHistory_goToTop h fuel p ∧ saveHistory_goToTop h fuel p ≤ 19 ∧
    (∀ i, p ≤ i → i < saveHistory_goToTop h fuel p → (slotAt h i).page.isSome) ∧
    (saveHistory_goToTop h fuel p = 19 ∨ ¬ (slotAt h (saveHistory_goToTop h fuel p)).page.isSome) := by
  intro fuel
  induction fuel with
  | zero =>
    intro p hp hf
    have : p = 19 := by omega
    subst this
    refine ⟨le_refl _, le_refl _, ?_, Or.inl rfl⟩
    intro i h1 h2
    simp only [saveHistory_goToTop] at h2
    omega
  | succ k ih =>
    intro p hp hf
    by_cases hc : p < 19 ∧ (slotAt h p).page.isSome
    · have hrec := ih (p + 1) (by omega) (by omega)
      simp only [saveHistory_goToTop, hc, and_self, if_true]
      obtain ⟨h1, h2, h3, h4⟩ := hrec
      refine ⟨by omega, h2, ?_, h4⟩
      intro i hpi hir
      by_cases hip : i = p
      · subst hip; exact hc.2
      · exact h3 i (by omega) hir
    · simp only [saveHistory_goToTop, hc, if_false]
      refine ⟨le_refl _, hp, ?_, ?_⟩
      · intro i h1 h2; omega
      · by_cases h19 : p = 19
        · exact Or.inl h19
        · right; intro hs; exact hc ⟨by omega, hs⟩

theorem goToTop_filled (me : State) (n : Nat) (hpre : me.filledPrefix n) (hp : me.historyPointer ≤ 19) :
    saveHistory_goToTop me.history 20 me.historyPointer
      = if me.historyPointer < n then min n 19 else me.historyPointer := by
  obtain ⟨h1, h2, h3, h4⟩ := goToTop_spec me.history 20 me.historyPointer hp (by omega)
  obtain ⟨hl, hn, hf⟩ := hpre
  simp only [State.slot] at hf
  set r := saveHistory_goToTop me.history 20 me.historyPointer with hr
  by_cases hpn : me.historyPointer < n
  · simp only [hpn, if_true]
    have hrn : r ≤ n := by
      by_contra hcon
      have := h3 n (by omega) (by omega)
      have := (hf n (by omega)).1 this
      omega
    rcases h4 with h4 | h4
    · omega
    · have := hf r (by omega)
      have : ¬ r < n := fun hlt => h4 (this.2 hlt)
      omega
  · simp only [hpn, if_false]
    by_contra hcon
    have := h3 me.historyPointer (le_refl _) (by omega)
    have := (hf me.historyPointer (by omega)).1 this
    omega

theorem goToTop_at_top (h : List HistoryEntry) (p : Nat)
    (hfill : (slotAt h p).page.isSome)
    (hnext : 19 ≤ p ∨ (slotAt h (p + 1)).page = none) :
    saveHistory_goToTop h 20 p = if p < 19 then p + 1 else p := by
  by_cases hp : p < 19
  · have hn : (slotAt h (p + 1)).page = none := by
      rcases hnext with h1 | h1
      · omega
      · exact h1
    rw [goToTop_succ, goToTop_succ]
    simp [hp, hfill, hn]
  · rw [goToTop_succ]
    simp [hp]

/-- Saving the title that is in the last filled slot, with the pointer on that slot, changes
    nothing. -/
theorem saveHistory_at_top (me : State) (t : String)
    (ht : (me.slot me.historyPointer).page = some t)
    (hnext : 19 ≤ me.historyPointer ∨ (me.slot (me.historyPointer + 1)).page = none) :
    saveHistory me (some t) = me := by
  have hfill : (slotAt me.history me.historyPointer).page.isSome := by
    simp only [State.slot] at ht; simp [ht]
  have hgo := goToTop_at_top me.history me.historyPointer hfill hnext
  by_cases hp : me.historyPointer < 19
  · have hn : (me.slot (me.historyPointer + 1)).page = none := by
      rcases hnext with h1 | h1
      · omega
      · exact h1
    simp only [hp, if_true] at hgo
    simp only [saveHistory, hgo]
    simp only [State.slot] at hn ht ⊢
    simp [hn, ht, str32equ]
  · simp only [hp, if_false] at hgo
    simp only [saveHistory, hgo]
    simp only [State.slot] at ht ⊢
    simp [ht, str32equ]

theorem length_eq_20 (h : List HistoryEntry) (hl : h.length = 20) :
    ∃ a0 a1 a2 a3 a4 a5 a6 a7 a8 a9 a10 a11 a12 a13 a14 a15 a16 a17 a18 a19,
      h = [a0, a1, a2, a3, a4, a5, a6, a7, a8, a9, a10, a11, a12, a13, a14, a15, a16, a17, a18, a19] := by
  match h, hl with
  | [a0, a1, a2, a3, a4, a5, a6, a7, a8, a9, a10, a11, a12, a13, a14, a15, a16, a17, a18, a19], _ =>
    exact ⟨a0, a1, a2, a3, a4, a5, a6, a7, a8, a9, a10, a11, a12, a13, a14, a15, a16, a17, a18, a19, rfl⟩

/-- The shift drops slot 0, moves every other slot one place down, and leaves slot 19 without a
    page (its stored offset stays). -/
theorem shift_eq (h : List HistoryEntry) (hl : h.length = 20) :
    saveHistory_shift h = h.tail ++ [{ slotAt h 19 with page := none }] := by
  obtain ⟨a0, a1, a2, a3, a4, a5, a6, a7, a8, a9, a10, a11, a12, a13, a14, a15, a16, a17, a18, a19, rfl⟩ :=
    length_eq_20 h hl
  simp [saveHistory_shift, saveHistory_move, slotAt, List.range, List.range.loop]

theorem shift_length (h : List HistoryEntry) (hl : h.length = 20) :
    (saveHistory_shift h).length = 20 := by
  rw [shift_eq h hl]
  simp [hl]

theorem slotAt_shift (h : List HistoryEntry) (hl : h.length = 20) (i : Nat) (hi : i < 19) :
    slotAt (saveHistory_shift h) i = slotAt h (i + 1) := by
  obtain ⟨a0, a1, a2, a3, a4, a5, a6, a7, a8, a9, a10, a11, a12, a13, a14, a15, a16, a17, a18, a19, rfl⟩ :=
    length_eq_20 h hl
  rw [shift_eq _ hl]
  interval_cases i <;> simp [slotAt]

theorem slotAt_shift_last (h : List HistoryEntry) (hl : h.length = 20) :
    slotAt (saveHistory_shift h) 19 = { slotAt h 19 with page := none } := by
  obtain ⟨a0, a1, a2, a3, a4, a5, a6, a7, a8, a9, a10, a11, a12, a13, a14, a15, a16, a17, a18, a19, rfl⟩ :=
    length_eq_20 h hl
  rw [shift_eq _ hl]
  simp [slotAt]

/-! ## The three outcomes of `saveHistory` -/

theorem saveHistory_same (me : State) (t : String)
    (h : (slotAt me.history (saveHistory_goToTop me.history 20 me.historyPointer)).page = some t) :
    saveHistory me (some t)
      = { me with historyPointer := saveHistory_goToTop me.history 20 me.historyPointer } := by
  simp [saveHistory, State.slot, h, str32equ]

theorem saveHistory_back (me : State) (t : String)
    (h0 : (slotAt me.history (saveHistory_goToTop me.history 20 me.historyPointer)).page = none)
    (hpos : 0 < saveHistory_goToTop me.history 20 me.historyPointer)
    (h : (slotAt me.history (saveHistory_goToTop me.history 20 me.historyPointer - 1)).page = some t) :
    saveHistory me (some t)
      = { me with historyPointer := saveHistory_goToTop me.history 20 me.historyPointer - 1 } := by
  simp [saveHistory, State.slot, h, h0, hpos, str32equ]

theorem saveHistory_append (me : State) (t : String)
    (h0 : (slotAt me.history (saveHistory_goToTop me.history 20 me.historyPointer)).page = none)
    (h : 0 < saveHistory_goToTop me.history 20 me.historyPointer →
      (slotAt me.history (saveHistory_goToTop me.history 20 me.historyPointer - 1)).page ≠ some t) :
    saveHistory me (some t)
      = { me with
          historyPointer := saveHistory_goToTop me.history 20 me.historyPointer
          history := me.history.set (saveHistory_goToTop me.history 20 me.historyPointer)
            { slotAt me.history (saveHistory_goToTop me.history 20 me.historyPointer) with
              page := some t } } := by
  by_cases hpos : 0 < saveHistory_goToTop me.history 20 me.historyPointer
  · have := h hpos
    simp [saveHistory, saveHistory_add, State.slot, this, h0, hpos, str32equ]
  · simp [saveHistory, saveHistory_add, State.slot, h0, hpos, str32equ]

theorem saveHistory_evict (me : State) (t : String)
    (h19 : saveHistory_goToTop me.history 20 me.historyPointer = 19)
    (hfill : (slotAt me.history 19).page.isSome)
    (h : (slotAt me.history 19).page ≠ some t) :
    saveHistory me (some t)
      = { me with
          historyPointer := 19
          history := (saveHistory_shift me.history).set 19
            { slotAt (saveHistory_shift me.history) 19 with page := some t } } := by
  simp [saveHistory, saveHistory_add, State.slot, h19, hfill, h, str32equ]

/-- The four outcomes are exhaustive. -/
theorem saveHistory_cases (me : State) (t : String) (hp : me.historyPointer ≤ 19) :
    let r := saveHistory_goToTop me.history 20 me.historyPointer
    (r = 19 ∧ (slotAt me.history r).page = some t) ∨
    ((slotAt me.history r).page = none ∧ 0 < r ∧ (slotAt me.history (r - 1)).page = some t) ∨
    ((slotAt me.history r).page = none ∧ (0 < r → (slotAt me.history (r - 1)).page ≠ some t)) ∨
    (r = 19 ∧ (slotAt me.history 19).page.isSome ∧ (slotAt me.history 19).page ≠ some t) := by
  intro r
  obtain ⟨-, -, -, h4⟩ := goToTop_spec me.history 20 me.historyPointer hp (by omega)
  change r = 19 ∨ ¬ (slotAt me.history r).page.isSome at h4
  by_cases hfill : (slotAt me.history r).page.isSome
  · have hr : r = 19 := by
      rcases h4 with h4 | h4
      · exact h4
      · exact absurd hfill h4
    by_cases heq : (slotAt me.history r).page = some t
    · exact Or.inl ⟨hr, heq⟩
    · right; right; right
      rw [hr] at hfill heq
      exact ⟨hr, hfill, heq⟩
  · have hnone : (slotAt me.history r).page = none := by simpa using hfill
    by_cases hb : 0 < r ∧ (slotAt me.history (r - 1)).page = some t
    · exact Or.inr (Or.inl ⟨hnone, hb.1, hb.2⟩)
    · exact Or.inr (Or.inr (Or.inl ⟨hnone, fun hpos heq => hb ⟨hpos, heq⟩⟩))


/-- After `saveHistory` with a title, the pointer is on the last filled slot and that slot
    holds the title. -/
theorem saveHistory_reaches_top (me : State) (t : String) (n : Nat)
    (hpre : me.filledPrefix n) (hp : me.historyPointer ≤ 19) :
    (saveHistory me (some t)).atTop t := by
  obtain ⟨h1, h2, -, -⟩ := goToTop_spec me.history 20 me.historyPointer hp (by omega)
  obtain ⟨hl, hn, hf⟩ := hpre
  simp only [State.slot] at hf
  have hcases := saveHistory_cases me t hp
  simp only at hcases
  generalize hr : saveHistory_goToTop me.history 20 me.historyPointer = r at h1 h2 hcases
  rcases hcases with ⟨h19, hc⟩ | ⟨h0, hpos, hb⟩ | ⟨h0, hne⟩ | ⟨h19, hfill, hne⟩
  · rw [saveHistory_same me t (by rw [hr]; exact hc), hr]
    exact ⟨hl, h2, hc, Or.inl h19⟩
  · rw [saveHistory_back me t (by rw [hr]; exact h0) (by rw [hr]; exact hpos) (by rw [hr]; exact hb), hr]
    refine ⟨hl, by simp only; omega, hb, Or.inr ?_⟩
    simp only [State.slot]
    have : r - 1 + 1 = r := by omega
    rw [this]
    exact h0
  · rw [saveHistory_append me t (by rw [hr]; exact h0) (by rw [hr]; exact hne), hr]
    refine ⟨by simp [hl], h2, ?_, ?_⟩
    · simp only [State.slot]
      rw [slotAt_set _ _ _ _ (by omega)]
      simp
    · by_cases hr19 : r = 19
      · exact Or.inl hr19
      · right
        simp only [State.slot]
        rw [slotAt_set _ _ _ _ (by omega)]
        have hrn : ¬ r < n := fun hlt => by
          have := (hf r (by omega)).2 hlt
          simp [h0] at this
        have hne : ¬ (slotAt me.history (r + 1)).page.isSome := fun hs => by
          have := (hf (r + 1) (by omega)).1 hs
          omega
        simp only [Nat.succ_ne_self, if_false]
        simpa using hne
  · rw [saveHistory_evict me t (by rw [hr]; exact h19) hfill hne]
    refine ⟨by simp [shift_length _ hl], le_refl _, ?_, Or.inl rfl⟩
    simp only [State.slot]
    rw [slotAt_set _ _ _ _ (by simp [shift_length _ hl])]
    simp

/-! ## The history invariant -/

theorem historyInvariant_pointer (me : State) (n : Nat) (h : me.historyInvariant n) :
    me.historyPointer ≤ 19 := by
  obtain ⟨⟨-, hn, -⟩, hp⟩ := h
  omega

theorem historyInvariant_saveHistory (me : State) (n : Nat) (title : Option String)
    (h : me.historyInvariant n) : ∃ n', (saveHistory me title).historyInvariant n' := by
  cases title with
  | none => exact ⟨n, h⟩
  | some t =>
    have hp := historyInvariant_pointer me n h
    obtain ⟨hpre, hpn⟩ := h
    have hgo := goToTop_filled me n hpre hp
    obtain ⟨hl, hn, hf⟩ := hpre
    simp only [State.slot] at hf
    have hcases := saveHistory_cases me t hp
    simp only at hcases
    generalize hr : saveHistory_goToTop me.history 20 me.historyPointer = r at hgo hcases
    have hr19 : r ≤ 19 := by
      rw [hgo]; split <;> omega
    rcases hcases with ⟨h19, hc⟩ | ⟨h0, hpos, hb⟩ | ⟨h0, hne⟩ | ⟨h19, hfill, hne⟩
    · rw [saveHistory_same me t (by rw [hr]; exact hc), hr]
      refine ⟨n, ⟨hl, hn, hf⟩, Or.inl ?_⟩
      exact (hf r (by omega)).1 (by simp [hc])
    · rw [saveHistory_back me t (by rw [hr]; exact h0) (by rw [hr]; exact hpos) (by rw [hr]; exact hb), hr]
      refine ⟨n, ⟨hl, hn, hf⟩, Or.inl ?_⟩
      exact (hf (r - 1) (by omega)).1 (by simp [hb])
    · rw [saveHistory_append me t (by rw [hr]; exact h0) (by rw [hr]; exact hne), hr]
      have hrn : ¬ r < n := fun hlt => by
        have := (hf r (by omega)).2 hlt
        simp [h0] at this
      have hrn' : r = n := by
        rw [hgo] at hrn ⊢
        split at hrn <;> rename_i hlt
        · simp only [hlt, if_true]; omega
        · simp only [hlt, if_false]; omega
      subst hrn'
      refine ⟨r + 1, ⟨by simp [hl], by omega, ?_⟩, Or.inl (Nat.lt_succ_self _)⟩
      intro i hi
      simp only [State.slot]
      rw [slotAt_set _ _ _ _ (by omega)]
      by_cases hir : i = r
      · subst hir; simp
      · simp only [hir, if_false]
        rw [hf i hi]
        omega
    · rw [saveHistory_evict me t (by rw [hr]; exact h19) hfill hne]
      have hn20 : n = 20 := by
        have := (hf 19 (by omega)).1 hfill
        omega
      subst hn20
      refine ⟨20, ⟨by simp [shift_length _ hl], le_refl _, ?_⟩, Or.inl (by simp)⟩
      intro i hi
      simp only [State.slot]
      rw [slotAt_set _ _ _ _ (by simp [shift_length _ hl])]
      by_cases hir : i = 19
      · subst hir; simp
      · simp only [hir, if_false, hi, iff_true]
        rw [slotAt_shift _ hl i (by omega)]
        exact (hf (i + 1) (by omega)).2 (by omega)

/-- Writing only the stored offset of a slot keeps the filled prefix. -/
theorem filledPrefix_setTop (h : List HistoryEntry) (p n : Nat) (v : Rat) (hl : h.length = 20)
    (hf : ∀ i, i < 20 → ((slotAt h i).page.isSome ↔ i < n)) :
    ∀ i, i < 20 → ((slotAt (h.set p { slotAt h p with top := v }) i).page.isSome ↔ i < n) := by
  intro i hi
  by_cases hp : p < h.length
  · rw [slotAt_set _ _ _ _ hp]
    by_cases hip : i = p
    · subst hip; simpa using hf i hi
    · simpa [hip] using hf i hi
  · have : h.set p { slotAt h p with top := v } = h := by
      apply List.set_eq_of_length_le; omega
    rw [this]; exact hf i hi

/-- What `do_back` does when the pointer is not 0 and the slot below it is filled. -/
theorem do_back_eq (env : Env) (me : State) (t : String) (hp : 0 < me.historyPointer)
    (ht : (me.slot (me.historyPointer - 1)).page = some t) :
    do_back env me = some (
      if env.v_goToPage t ≠ 0 then
        HyperPage_clear (updateVerticalScrollBar
          { me with
            historyPointer := me.historyPointer - 1
            trace := me.trace ++ [Event.goToPage t]
            top := (me.slot (me.historyPointer - 1)).top })
      else
        { me with
          historyPointer := me.historyPointer - 1
          trace := me.trace ++ [Event.goToPage t] }) := by
  have hp0 : ¬ me.historyPointer ≤ 0 := by omega
  unfold do_back
  rw [if_neg hp0]
  simp only [State.slot] at ht ⊢
  simp only [ht]
  by_cases hsrc : env.v_goToPage t ≠ 0
  · rw [if_pos hsrc, if_pos hsrc]
  · rw [if_neg hsrc, if_neg hsrc]

/-- What `do_forth` does when the pointer is below 19 and the slot above it is filled. -/
theorem do_forth_eq (env : Env) (me : State) (t : String) (hp : me.historyPointer < 19)
    (ht : (me.slot (me.historyPointer + 1)).page = some t) :
    do_forth env me = some (
      if env.v_goToPage t ≠ 0 then
        HyperPage_clear (updateVerticalScrollBar
          { me with
            historyPointer := me.historyPointer + 1
            trace := me.trace ++ [Event.goToPage t]
            top := (me.slot (me.historyPointer + 1)).top })
      else
        { me with
          historyPointer := me.historyPointer + 1
          trace := me.trace ++ [Event.goToPage t] }) := by
  have hg : ¬ (me.historyPointer ≥ 19 ∨ ¬ (me.slot (me.historyPointer + 1)).page.isSome) := by
    simp [ht]; omega
  unfold do_forth
  rw [if_neg hg]
  simp only [State.slot] at ht ⊢
  simp only [ht]
  by_cases hsrc : env.v_goToPage t ≠ 0
  · rw [if_pos hsrc, if_pos hsrc]
  · rw [if_neg hsrc, if_neg hsrc]

theorem do_forth_stay (env : Env) (me : State)
    (h : me.historyPointer ≥ 19 ∨ (me.slot (me.historyPointer + 1)).page = none) :
    do_forth env me = some me := by
  have hg : me.historyPointer ≥ 19 ∨ ¬ (me.slot (me.historyPointer + 1)).page.isSome := by
    rcases h with h | h
    · exact Or.inl h
    · right; simp [h]
  simp only [do_forth, hg, if_true]

theorem do_back_stay (env : Env) (me : State) (h : me.historyPointer = 0) :
    do_back env me = some me := by
  simp [do_back, h]

theorem historyInvariant_after_goToPage (me : State) (n p : Nat) (t : String) (v : Rat) (r : Int)
    (h : me.filledPrefix n) (hp : p < n) :
    State.historyInvariant (
      if r ≠ 0 then
        HyperPage_clear (updateVerticalScrollBar
          { me with historyPointer := p, trace := me.trace ++ [Event.goToPage t], top := v })
      else
        { me with historyPointer := p, trace := me.trace ++ [Event.goToPage t] }) n := by
  obtain ⟨hl, hn, hf⟩ := h
  split
  · refine ⟨⟨?_, hn, ?_⟩, Or.inl hp⟩
    · simp [HyperPage_clear, updateVerticalScrollBar, hl]
    · simp only [State.slot] at hf
      simp only [State.slot, HyperPage_clear, updateVerticalScrollBar]
      exact filledPrefix_setTop me.history _ n 0 hl hf
  · exact ⟨⟨hl, hn, hf⟩, Or.inl hp⟩

theorem historyInvariant_do_back (env : Env) (me : State) (n : Nat) (h : me.historyInvariant n) :
    ∃ me', do_back env me = some me' ∧ me'.historyInvariant n := by
  by_cases hp0 : me.historyPointer = 0
  · exact ⟨me, do_back_stay env me hp0, h⟩
  · obtain ⟨⟨hl, hn, hf⟩, hpn⟩ := h
    have hlt : me.historyPointer - 1 < n := by omega
    have hfill := (hf (me.historyPointer - 1) (by omega)).2 hlt
    obtain ⟨t, ht⟩ := Option.isSome_iff_exists.1 hfill
    exact ⟨_, do_back_eq env me t (by omega) ht,
      historyInvariant_after_goToPage me n _ t _ _ ⟨hl, hn, hf⟩ hlt⟩

theorem historyInvariant_do_forth (env : Env) (me : State) (n : Nat) (h : me.historyInvariant n) :
    ∃ me', do_forth env me = some me' ∧ me'.historyInvariant n := by
  by_cases hg : me.historyPointer ≥ 19 ∨ (me.slot (me.historyPointer + 1)).page = none
  · exact ⟨me, do_forth_stay env me hg, h⟩
  · obtain ⟨⟨hl, hn, hf⟩, hpn⟩ := h
    have hp : me.historyPointer < 19 := by
      by_contra hc; exact hg (Or.inl (by omega))
    have hfill : (me.slot (me.historyPointer + 1)).page.isSome := by
      by_contra hc; exact hg (Or.inr (by simpa using hc))
    have hlt : me.historyPointer + 1 < n := (hf _ (by omega)).1 hfill
    obtain ⟨t, ht⟩ := Option.isSome_iff_exists.1 hfill
    exact ⟨_, do_forth_eq env me t hp ht,
      historyInvariant_after_goToPage me n _ t _ _ ⟨hl, hn, hf⟩ hlt⟩

theorem historyInvariant_empty : State.empty.historyInvariant 0 := by
  refine ⟨⟨by simp [State.empty], by omega, ?_⟩, Or.inr ⟨rfl, rfl⟩⟩
  intro i hi
  simp only [State.slot, State.empty, slotAt]
  interval_cases i <;> simp

theorem historyInvariant_run (env : Env) (ops : List HistoryOp) :
    ∀ (me : State) (n : Nat), me.historyInvariant n →
      ∃ me' n', runHistoryOps env ops me = some me' ∧ me'.historyInvariant n' := by
  induction ops with
  | nil => intro me n h; exact ⟨me, n, rfl, h⟩
  | cons op ops ih =>
    intro me n h
    have hstep : ∃ me1 n1, op.run env me = some me1 ∧ me1.historyInvariant n1 := by
      cases op with
      | save title =>
        obtain ⟨n1, h1⟩ := historyInvariant_saveHistory me n title h
        exact ⟨_, n1, rfl, h1⟩
      | back =>
        obtain ⟨me1, e1, h1⟩ := historyInvariant_do_back env me n h
        exact ⟨me1, n, e1, h1⟩
      | forth =>
        obtain ⟨me1, e1, h1⟩ := historyInvariant_do_forth env me n h
        exact ⟨me1, n, e1, h1⟩
    obtain ⟨me1, n1, e1, h1⟩ := hstep
    obtain ⟨me2, n2, e2, h2⟩ := ih me1 n1 h1
    exact ⟨me2, n2, by simp [runHistoryOps, e1, e2], h2⟩

theorem pages_setTop (h : List HistoryEntry) (p : Nat) (v : Rat) :
    (h.set p { slotAt h p with top := v }).map HistoryEntry.page = h.map HistoryEntry.page := by
  apply List.ext_getElem?
  intro i
  simp only [List.getElem?_map, List.getElem?_set]
  by_cases hip : p = i
  · subst hip
    by_cases hp : p < h.length
    · simp [hp, slotAt, List.getD_eq_getElem?_getD, List.getElem?_eq_getElem hp]
    · simp [hp, List.getElem?_eq_none (Nat.le_of_not_lt hp)]
  · simp [hip]

theorem list_length_21 (ts : List String) (h : ts.length = 21) :
    ∃ a1 a2 a3 a4 a5 a6 a7 a8 a9 a10 a11 a12 a13 a14 a15 a16 a17 a18 a19 a20 a21,
      ts = [a1, a2, a3, a4, a5, a6, a7, a8, a9, a10, a11, a12, a13, a14, a15, a16, a17, a18, a19,
        a20, a21] := by
  match ts, h with
  | [a1, a2, a3, a4, a5, a6, a7, a8, a9, a10, a11, a12, a13, a14, a15, a16, a17, a18, a19, a20, a21], _ =>
    exact ⟨a1, a2, a3, a4, a5, a6, a7, a8, a9, a10, a11, a12, a13, a14, a15, a16, a17, a18, a19,
      a20, a21, rfl⟩

/-! ## Ring eviction -/

set_option maxRecDepth 100000 in
set_option maxHeartbeats 4000000 in
/-- C1: starting from the empty history, saving 21 pairwise distinct titles `t1 .. t21` in that
    order leaves the 20 slots holding `t2 .. t21` in order, and the pointer at 19. -/
theorem saveHistory_ring_eviction (ts : List String) (hlen : ts.length = 21) (hnd : ts.Nodup) :
    ((ts.map some).foldl saveHistory State.empty).pages = ts.tail.map some
      ∧ ((ts.map some).foldl saveHistory State.empty).historyPointer = 19 := by
  obtain ⟨a1, a2, a3, a4, a5, a6, a7, a8, a9, a10, a11, a12, a13, a14, a15, a16, a17, a18, a19,
    a20, a21, rfl⟩ := list_length_21 ts hlen
  simp only [List.nodup_cons, List.mem_cons, List.mem_singleton, not_or, List.not_mem_nil,
    not_false_eq_true, and_true, List.nodup_nil] at hnd
  obtain ⟨⟨h12, -⟩, ⟨h23, -⟩, ⟨h34, -⟩, ⟨h45, -⟩, ⟨h56, -⟩, ⟨h67, -⟩, ⟨h78, -⟩, ⟨h89, -⟩, ⟨h910, -⟩,
    ⟨h1011, -⟩, ⟨h1112, -⟩, ⟨h1213, -⟩, ⟨h1314, -⟩, ⟨h1415, -⟩, ⟨h1516, -⟩, ⟨h1617, -⟩, ⟨h1718, -⟩,
    ⟨h1819, -⟩, ⟨h1920, -⟩, h2021⟩ := hnd
  simp [saveHistory, saveHistory_add, saveHistory_goToTop, State.slot, str32equ, State.empty,
    State.pages, List.replicate, saveHistory_shift, saveHistory_move, List.range, List.range.loop,
    slotAt, *]

theorem saveHistory_ring_eviction_witness :
    ((exampleTitles.map some).foldl saveHistory State.empty).pages = exampleTitles.tail.map some
      ∧ ((exampleTitles.map some).foldl saveHistory State.empty).historyPointer = 19 :=
  saveHistory_ring_eviction exampleTitles (by decide) (by decide)

/-! ## De-duplication -/

/-- C2: on a history whose filled slots form a prefix, saving a title twice gives the same state
    (pointer and all slots) as saving it once; from the empty history, saving a title twice
    leaves that title in slot 0 and every other slot empty. -/
theorem saveHistory_idempotent (me : State) (n : Nat) (t : String)
    (hpre : me.filledPrefix n) (hp : me.historyPointer ≤ 19) :
    saveHistory (saveHistory me (some t)) (some t) = saveHistory me (some t)
      ∧ (saveHistory (saveHistory State.empty (some t)) (some t)).pages
          = some t :: List.replicate 19 none
      ∧ (saveHistory (saveHistory State.empty (some t)) (some t)).historyPointer = 0 := by
  refine ⟨?_, ?_, ?_⟩
  · obtain ⟨-, h19, ht, hnext⟩ := saveHistory_reaches_top me t n hpre hp
    apply saveHistory_at_top _ t ht
    rcases hnext with h | h
    · exact Or.inl (by omega)
    · exact Or.inr h
  · simp [saveHistory, saveHistory_add, saveHistory_goToTop, State.slot, str32equ, State.empty,
      State.pages, List.replicate, slotAt]
  · simp [saveHistory, saveHistory_add, saveHistory_goToTop, State.slot, str32equ, State.empty,
      List.replicate, slotAt]

theorem saveHistory_idempotent_witness :
    (State.visited ["A", "B", "C"] 0).filledPrefix 3 ∧ (State.visited ["A", "B", "C"] 0).historyPointer ≤ 19
      ∧ saveHistory (saveHistory (State.visited ["A", "B", "C"] 0) (some "D")) (some "D")
          = saveHistory (State.visited ["A", "B", "C"] 0) (some "D") :=
  ⟨by decide, by decide,
    (saveHistory_idempotent (State.visited ["A", "B", "C"] 0) 3 "D" (by decide) (by decide)).1⟩

/-! ## Back and forth -/

theorem slot_page_eq_pages (me : State) (i : Nat) :
    (me.slot i).page = me.pages.getD i none := by
  simp only [State.slot, slotAt, State.pages, List.getD_eq_getElem?_getD, List.getElem?_map]
  cases me.history[i]? <;> rfl

theorem pages_after_goToPage (me : State) (p : Nat) (t : String) (v : Rat) (r : Int) :
    State.pages (
      if r ≠ 0 then
        HyperPage_clear (updateVerticalScrollBar
          { me with historyPointer := p, trace := me.trace ++ [Event.goToPage t], top := v })
      else
        { me with historyPointer := p, trace := me.trace ++ [Event.goToPage t] }) = me.pages := by
  split
  · simp only [State.pages, HyperPage_clear, updateVerticalScrollBar, State.slot]
    exact pages_setTop me.history p 0
  · rfl

theorem pointer_after_goToPage (me : State) (p : Nat) (t : String) (v : Rat) (r : Int) :
    State.historyPointer (
      if r ≠ 0 then
        HyperPage_clear (updateVerticalScrollBar
          { me with historyPointer := p, trace := me.trace ++ [Event.goToPage t], top := v })
      else
        { me with historyPointer := p, trace := me.trace ++ [Event.goToPage t] }) = p := by
  split <;> rfl

/-- A `do_back` with the pointer above 0 moves the pointer one slot down and keeps all pages. -/
theorem do_back_moves (env : Env) (me : State) (t : String) (hp : 0 < me.historyPointer)
    (ht : (me.slot (me.historyPointer - 1)).page = some t) :
    ∃ me', do_back env me = some me' ∧ me'.historyPointer = me.historyPointer - 1
      ∧ me'.pages = me.pages :=
  ⟨_, do_back_eq env me t hp ht, pointer_after_goToPage me _ t _ _, pages_after_goToPage me _ t _ _⟩

theorem saveHistory_three (a b c : String) (hab : a ≠ b) (hbc : b ≠ c) :
    saveHistory (saveHistory (saveHistory State.empty (some a)) (some b)) (some c)
      = State.visited [a, b, c] 2 := by
  simp [saveHistory, saveHistory_add, saveHistory_goToTop, State.slot, str32equ, State.empty,
    State.visited, List.replicate, slotAt, hab, hbc]

/-- C3: with the pointer at 0, `do_back` changes nothing (pointer, slots, scroll offset, links,
    and no page is requested from the document source); after saving three distinct pages
    `a, b, c` from the empty history, three `do_back` calls leave the pointer at slot 0, which
    holds `a`, and a further `do_back` changes nothing. -/
theorem do_back_at_start (env : Env) (me : State) (a b c : String)
    (hp : me.historyPointer = 0) (hab : a ≠ b) (hbc : b ≠ c) (_hac : a ≠ c) :
    do_back env me = some me ∧
    ∃ me3, runHistoryOps env [HistoryOp.save (some a), HistoryOp.save (some b),
          HistoryOp.save (some c), HistoryOp.back, HistoryOp.back, HistoryOp.back] State.empty
        = some me3
      ∧ me3.historyPointer = 0 ∧ (me3.slot 0).page = some a ∧ do_back env me3 = some me3 := by
  refine ⟨do_back_stay env me hp, ?_⟩
  have hpages : (State.visited [a, b, c] 2).pages
      = [some a, some b, some c] ++ List.replicate 17 none := by
    simp [State.visited, State.pages, State.empty, List.replicate]
  obtain ⟨me1, e1, p1, g1⟩ := do_back_moves env (State.visited [a, b, c] 2) b
    (Nat.zero_lt_succ 1) (by rw [slot_page_eq_pages, hpages]; rfl)
  have p1' : me1.historyPointer = 1 := p1
  obtain ⟨me2, e2, p2, g2⟩ := do_back_moves env me1 a (by omega)
    (by rw [slot_page_eq_pages, g1, hpages, p1']; rfl)
  have p2' : me2.historyPointer = 0 := by rw [p2, p1']
  refine ⟨me2, ?_, p2', ?_, do_back_stay env me2 p2'⟩
  · simp only [runHistoryOps, HistoryOp.run, Option.bind, saveHistory_three a b c hab hbc, e1, e2,
      do_back_stay env me2 p2']
  · rw [slot_page_eq_pages, g2, g1, hpages]; rfl

theorem do_back_at_start_witness :
    State.empty.historyPointer = 0 ∧ "A" ≠ "B" ∧ "B" ≠ "C" ∧ "A" ≠ "C" ∧
    (do_back exampleEnv State.empty = some State.empty ∧
    ∃ me3, runHistoryOps exampleEnv [HistoryOp.save (some "A"), HistoryOp.save (some "B"),
          HistoryOp.save (some "C"), HistoryOp.back, HistoryOp.back, HistoryOp.back] State.empty
        = some me3
      ∧ me3.historyPointer = 0 ∧ (me3.slot 0).page = some "A"
      ∧ do_back exampleEnv me3 = some me3) :=
  ⟨rfl, by decide, by decide, by decide,
    do_back_at_start exampleEnv State.empty "A" "B" "C" rfl (by decide) (by decide) (by decide)⟩

/-- A `do_forth` with a filled slot above the pointer moves the pointer one slot up and keeps
    all pages. -/
theorem do_forth_moves (env : Env) (me : State) (t : String) (hp : me.historyPointer < 19)
    (ht : (me.slot (me.historyPointer + 1)).page = some t) :
    ∃ me', do_forth env me = some me' ∧ me'.historyPointer = me.historyPointer + 1
      ∧ me'.pages = me.pages :=
  ⟨_, do_forth_eq env me t hp ht, pointer_after_goToPage me _ t _ _, pages_after_goToPage me _ t _ _⟩

/-- C4, as stated, fails: with pages `A, B` in the history, the pointer on `B` and the viewer
    scrolled to offset 5 (the stored offsets are 0, as `updateVerticalScrollBar` leaves them),
    `do_back` followed by `do_forth` returns to `B` with the scroll offset 0, not 5. -/
theorem do_back_do_forth_top_counterexample :
    ({ State.visited ["A", "B"] 1 with top := 5 }.slot 1).page = some "B"
      ∧ ∃ me2, (do_back exampleEnv { State.visited ["A", "B"] 1 with top := 5 }).bind
            (do_forth exampleEnv) = some me2
          ∧ me2.historyPointer = 1 ∧ me2.top = 0 ∧ me2.top ≠ 5 := by
  refine ⟨by decide, ?_⟩
  simp [do_back, do_forth, State.visited, State.empty, State.slot, slotAt, exampleEnv,
    HyperPage_clear, updateVerticalScrollBar, List.replicate]

/-- C4, amended: with the pointer above 0, slot `p - 1` holding `a`, slot `p` holding `b` and a
    document source that succeeds, `do_back` followed by `do_forth` leaves the pointer at `p`,
    requests first `a` and then `b` from the source, keeps all pages, and sets the scroll offset
    to the offset stored in slot `p` (not to the offset the viewer had before). -/
theorem do_back_do_forth (env : Env) (me : State) (a b : String)
    (hlen : me.history.length = 20) (hp0 : 0 < me.historyPointer) (hp : me.historyPointer ≤ 19)
    (ha : (me.slot (me.historyPointer - 1)).page = some a)
    (hb : (me.slot me.historyPointer).page = some b)
    (hsrc : ∀ t, env.v_goToPage t ≠ 0) :
    ∃ me2, (do_back env me).bind (do_forth env) = some me2
      ∧ me2.historyPointer = me.historyPointer
      ∧ me2.pages = me.pages
      ∧ me2.trace = me.trace ++ [Event.goToPage a, Event.scrollBarSet (me.slot (me.historyPointer - 1)).top,
          Event.updateWs, Event.goToPage b, Event.scrollBarSet (me.slot me.historyPointer).top,
          Event.updateWs]
      ∧ me2.top = (me.slot me.historyPointer).top := by
  have e1 := do_back_eq env me a hp0 ha
  rw [if_pos (hsrc a)] at e1
  set me1 := HyperPage_clear (updateVerticalScrollBar
    { me with
      historyPointer := me.historyPointer - 1
      trace := me.trace ++ [Event.goToPage a]
      top := (me.slot (me.historyPointer - 1)).top }) with hme1
  have p1 : me1.historyPointer = me.historyPointer - 1 := rfl
  have hsucc : me.historyPointer - 1 + 1 = me.historyPointer := by omega
  have hslot : me1.slot me.historyPointer = me.slot me.historyPointer := by
    simp only [hme1, HyperPage_clear, updateVerticalScrollBar, State.slot]
    rw [slotAt_set _ _ _ _ (by omega)]
    have : ¬ me.historyPointer = me.historyPointer - 1 := by omega
    simp only [this, if_false]
  have hb1 : (me1.slot (me1.historyPointer + 1)).page = some b := by
    rw [p1, hsucc, hslot]; exact hb
  have e2 := do_forth_eq env me1 b (by rw [p1]; omega) hb1
  rw [if_pos (hsrc b)] at e2
  refine ⟨_, by rw [e1]; exact e2, ?_, ?_, ?_, ?_⟩
  · show me1.historyPointer + 1 = me.historyPointer
    rw [p1, hsucc]
  · have h2 := pages_after_goToPage me1 (me1.historyPointer + 1) b
      (me1.slot (me1.historyPointer + 1)).top 1
    have h1 := pages_after_goToPage me (me.historyPointer - 1) a
      (me.slot (me.historyPointer - 1)).top 1
    simp only [ne_eq, one_ne_zero, not_false_eq_true, if_true] at h1 h2
    rw [h2]; exact h1
  · show (me1.trace ++ [Event.goToPage b]) ++ [Event.scrollBarSet _] ++ [Event.updateWs] = _
    rw [p1, hsucc, hslot]
    simp [hme1, HyperPage_clear, updateVerticalScrollBar]
  · show (me1.slot (me1.historyPointer + 1)).top = _
    rw [p1, hsucc, hslot]

theorem do_back_do_forth_witness :
    ∃ me2, (do_back exampleEnv { State.visited ["A", "B"] 1 with top := 5 }).bind
          (do_forth exampleEnv) = some me2
      ∧ me2.historyPointer = 1
      ∧ me2.pages = State.pages { State.visited ["A", "B"] 1 with top := 5 }
      ∧ me2.trace = [] ++ [Event.goToPage "A",
          Event.scrollBarSet ({ State.visited ["A", "B"] 1 with top := 5 }.slot (1 - 1)).top,
          Event.updateWs, Event.goToPage "B",
          Event.scrollBarSet ({ State.visited ["A", "B"] 1 with top := 5 }.slot 1).top,
          Event.updateWs]
      ∧ me2.top = ({ State.visited ["A", "B"] 1 with top := 5 }.slot 1).top :=
  do_back_do_forth exampleEnv { State.visited ["A", "B"] 1 with top := 5 } "A" "B"
    (by decide) (by decide) (by decide) (by decide) (by decide) (fun _ => one_ne_zero)

/-- C5: from the empty history, every finite sequence of `saveHistory` (any title, also null),
    `do_back` and `do_forth` runs to the end without a failed assertion, and afterwards the
    pointer is at most 19, the filled slots are exactly the first `n` of the 20, and if `n > 0`
    the slot at the pointer is filled. -/
theorem history_invariant (env : Env) (ops : List HistoryOp) :
    ∃ me n, runHistoryOps env ops State.empty = some me
      ∧ me.history.length = 20 ∧ me.historyPointer ≤ 19 ∧ n ≤ 20
      ∧ (∀ i, i < 20 → ((me.slot i).page.isSome ↔ i < n))
      ∧ (0 < n → (me.slot me.historyPointer).page.isSome) := by
  obtain ⟨me, n, e, hinv⟩ := historyInvariant_run env ops State.empty 0 historyInvariant_empty
  have hp := historyInvariant_pointer me n hinv
  obtain ⟨⟨hl, hn, hf⟩, hpn⟩ := hinv
  refine ⟨me, n, e, hl, hp, hn, hf, ?_⟩
  intro hpos
  exact (hf _ (by omega)).2 (by omega)

/-- C6: `do_forth` changes nothing (state and trace) when the pointer is at 19 (or beyond) or
    the slot above the pointer is empty; otherwise it succeeds, the pointer goes up by exactly
    1, every slot keeps its page, and the first thing it does is to request the page stored in
    the new current slot from the document source. -/
theorem do_forth_spec (env : Env) (me : State) :
    ((19 ≤ me.historyPointer ∨ (me.slot (me.historyPointer + 1)).page = none) →
      do_forth env me = some me)
    ∧ (¬ (19 ≤ me.historyPointer ∨ (me.slot (me.historyPointer + 1)).page = none) →
      ∃ me' t rest, do_forth env me = some me'
        ∧ me'.historyPointer = me.historyPointer + 1
        ∧ me'.pages = me.pages
        ∧ (me'.slot me'.historyPointer).page = some t
        ∧ me'.trace = me.trace ++ Event.goToPage t :: rest
        ∧ ∀ e, e ∈ rest → ∀ t', e ≠ Event.goToPage t') := by
  refine ⟨do_forth_stay env me, ?_⟩
  intro hg
  have hp : me.historyPointer < 19 := by
    by_contra hc; exact hg (Or.inl (by omega))
  have hfill : (me.slot (me.historyPointer + 1)).page.isSome := by
    by_contra hc; exact hg (Or.inr (by simpa using hc))
  obtain ⟨t, ht⟩ := Option.isSome_iff_exists.1 hfill
  have e := do_forth_eq env me t hp ht
  have hpg := pages_after_goToPage me (me.historyPointer + 1) t
    (me.slot (me.historyPointer + 1)).top (env.v_goToPage t)
  have hpt := pointer_after_goToPage me (me.historyPointer + 1) t
    (me.slot (me.historyPointer + 1)).top (env.v_goToPage t)
  by_cases hsrc : env.v_goToPage t ≠ 0
  · rw [if_pos hsrc] at e hpg hpt
    refine ⟨_, t, [Event.scrollBarSet (me.slot (me.historyPointer + 1)).top, Event.updateWs],
      e, hpt, hpg, ?_, ?_, ?_⟩
    · rw [slot_page_eq_pages, hpg, hpt, ← slot_page_eq_pages]; exact ht
    · simp [HyperPage_clear, updateVerticalScrollBar]
    · intro e he t'
      simp only [List.mem_cons, List.mem_singleton, List.not_mem_nil, or_false] at he
      rcases he with he | he <;> simp [he]
  · rw [if_neg hsrc] at e hpg hpt
    refine ⟨_, t, [], e, hpt, hpg, ?_, rfl, ?_⟩
    · rw [slot_page_eq_pages, hpg, hpt, ← slot_page_eq_pages]; exact ht
    · intro e he; simp at he

theorem do_forth_spec_witness :
    (do_forth exampleEnv (State.visited ["A", "B"] 1) = some (State.visited ["A", "B"] 1))
    ∧ ∃ me' t rest, do_forth exampleEnv (State.visited ["A", "B"] 0) = some me'
        ∧ me'.historyPointer = 0 + 1
        ∧ me'.pages = (State.visited ["A", "B"] 0).pages
        ∧ (me'.slot me'.historyPointer).page = some t
        ∧ me'.trace = [] ++ Event.goToPage t :: rest
        ∧ ∀ e, e ∈ rest → ∀ t', e ≠ Event.goToPage t' :=
  ⟨(do_forth_spec exampleEnv (State.visited ["A", "B"] 1)).1 (by decide),
    (do_forth_spec exampleEnv (State.visited ["A", "B"] 0)).2 (by decide)⟩

/-! ## Saving with forward entries present -/

/-- C7, as stated, fails: with pages `A, B, C` in the history and the pointer back on `A`
    (slot 0), saving `A` again is not a no-op: the pointer goes to slot 3, and slot 3 now
    holds a second `A`. -/
theorem saveHistory_current_title_counterexample :
    ((State.visited ["A", "B", "C"] 0).slot (State.visited ["A", "B", "C"] 0).historyPointer).page
        = some "A"
      ∧ (saveHistory (State.visited ["A", "B", "C"] 0) (some "A")).historyPointer = 3
      ∧ (saveHistory (State.visited ["A", "B", "C"] 0) (some "A")).pages
          = [some "A", some "B", some "C", some "A"] ++ List.replicate 16 none
      ∧ saveHistory (State.visited ["A", "B", "C"] 0) (some "A") ≠ State.visited ["A", "B", "C"] 0 := by
  decide

/-- C7, amended: in a history state with no filled slot above the pointer, saving the title that
    is stored in the slot at the pointer is a no-op (the whole state is unchanged). -/
theorem saveHistory_current_title_noop (me : State) (t : String)
    (hp : me.historyPointer ≤ 19)
    (ht : (me.slot me.historyPointer).page = some t)
    (habove : ∀ i, i < 20 → me.historyPointer < i → (me.slot i).page = none) :
    saveHistory me (some t) = me := by
  apply saveHistory_at_top me t ht
  by_cases h19 : 19 ≤ me.historyPointer
  · exact Or.inl h19
  · exact Or.inr (habove _ (by omega) (by omega))

theorem saveHistory_current_title_noop_witness :
    saveHistory (State.visited ["A", "B", "C"] 2) (some "C") = State.visited ["A", "B", "C"] 2 :=
  saveHistory_current_title_noop (State.visited ["A", "B", "C"] 2) "C" (by decide) (by decide)
    (by decide)

/-- C8, as stated, fails: with pages `A, B, C` in the history and the pointer back on `A`
    (slot 0), saving the new title `D` does not put `D` in slot 1 and does not remove `B` and
    `C`: `D` goes to slot 3, the pointer goes to 3, and `B` and `C` stay in slots 1 and 2. -/
theorem saveHistory_forward_counterexample :
    ((State.visited ["A", "B", "C"] 0).slot 1).page.isSome
      ∧ (∀ i, i < 20 → ((State.visited ["A", "B", "C"] 0).slot i).page ≠ some "D")
      ∧ ((saveHistory (State.visited ["A", "B", "C"] 0) (some "D")).slot 1).page ≠ some "D"
      ∧ (saveHistory (State.visited ["A", "B", "C"] 0) (some "D")).historyPointer = 3
      ∧ (saveHistory (State.visited ["A", "B", "C"] 0) (some "D")).pages
          = [some "A", some "B", some "C", some "D"] ++ List.replicate 16 none := by
  decide

/-- C8, amended: on a history whose filled slots are the first `n`, with at least one filled slot
    above the pointer, saving a title `t` that differs from all stored pages stores `t` in the
    first empty slot (slot `n`; slot 19 after the shift when all 20 slots were filled) and moves
    the pointer there; every page that was stored above the pointer is still stored (in the same
    slot, or one slot lower after the shift). -/
theorem saveHistory_keeps_forward (me : State) (n : Nat) (t : String)
    (hpre : me.filledPrefix n) (hfwd : me.historyPointer + 1 < n)
    (hnew : ∀ i, i < 20 → (me.slot i).page ≠ some t) :
    (saveHistory me (some t)).historyPointer = min n 19
      ∧ ((saveHistory me (some t)).slot (min n 19)).page = some t
      ∧ ∀ i, me.historyPointer < i → i < n →
          ((saveHistory me (some t)).slot (if n < 20 then i else i - 1)).page = (me.slot i).page := by
  have hn20 : n ≤ 20 := hpre.2.1
  have hp : me.historyPointer ≤ 19 := by omega
  have hgo := goToTop_filled me n hpre hp
  rw [if_pos (by omega)] at hgo
  obtain ⟨hl, hn, hf⟩ := hpre
  simp only [State.slot] at hf hnew
  have hcases := saveHistory_cases me t hp
  simp only at hcases
  rw [hgo] at hcases
  rcases hcases with ⟨-, hc⟩ | ⟨-, -, hb⟩ | ⟨h0, hne⟩ | ⟨h19, hfill, hne⟩
  · exact absurd hc (hnew _ (by omega))
  · exact absurd hb (hnew _ (by omega))
  · have hnlt : n < 20 := by
      by_contra hc
      have hmin : min n 19 = 19 := by omega
      have := (hf 19 (by omega)).2 (by omega)
      rw [hmin] at h0
      simp [h0] at this
    have hmin : min n 19 = n := by omega
    rw [saveHistory_append me t (by rw [hgo]; exact h0) (by rw [hgo]; exact hne), hgo, hmin]
    refine ⟨rfl, ?_, ?_⟩
    · simp only [State.slot]
      rw [slotAt_set _ _ _ _ (by omega)]
      simp
    · intro i hpi hin
      simp only [State.slot, hnlt, if_true]
      rw [slotAt_set _ _ _ _ (by omega)]
      have : ¬ i = n := by omega
      simp only [this, if_false]
  · have hn' : n = 20 := by
      have := (hf 19 (by omega)).1 hfill
      omega
    have hmin : min n 19 = 19 := by omega
    rw [saveHistory_evict me t (by rw [hgo]; exact h19) hfill hne, hmin]
    refine ⟨rfl, ?_, ?_⟩
    · simp only [State.slot]
      rw [slotAt_set _ _ _ _ (by simp [shift_length _ hl])]
      simp
    · intro i hpi hin
      have hnot : ¬ n < 20 := by omega
      simp only [State.slot, hnot, if_false]
      rw [slotAt_set _ _ _ _ (by simp [shift_length _ hl])]
      have : ¬ i - 1 = 19 := by omega
      simp only [this, if_false]
      rw [slotAt_shift _ hl (i - 1) (by omega)]
      have : i - 1 + 1 = i := by omega
      rw [this]

theorem saveHistory_keeps_forward_witness :
    (saveHistory (State.visited ["A", "B", "C"] 0) (some "D")).historyPointer = min 3 19
      ∧ ((saveHistory (State.visited ["A", "B", "C"] 0) (some "D")).slot (min 3 19)).page = some "D"
      ∧ ∀ i, (State.visited ["A", "B", "C"] 0).historyPointer < i → i < 3 →
          ((saveHistory (State.visited ["A", "B", "C"] 0) (some "D")).slot
            (if 3 < 20 then i else i - 1)).page = ((State.visited ["A", "B", "C"] 0).slot i).page :=
  saveHistory_keeps_forward (State.visited ["A", "B", "C"] 0) 3 "D" (by decide) (by decide)
    (by decide)

/-! ## Top spacing and the flow on the screen -/

theorem HyperPage_any_screen_frame (env : Env) (me : State) (heightGuess : Rat) (text : String)
    (font : kGraphics_font) (size : Rat) (style : Int) (x secondIndent topSpacing : Rat)
    (method : Nat) :
    (HyperPage_any_screen env me heightGuess text font size style x secondIndent topSpacing
        method).printing = me.printing
      ∧ (HyperPage_any_screen env me heightGuess text font size style x secondIndent topSpacing
        method).rightMargin = me.rightMargin := by
  unfold HyperPage_any_screen
  simp only
  split <;> split <;> (try split) <;> exact ⟨rfl, rfl⟩

theorem HyperPage_initSheetOfPaper_frame (env : Env) (me : State) :
    (HyperPage_initSheetOfPaper env me).printing = me.printing
      ∧ (HyperPage_initSheetOfPaper env me).rightMargin = me.rightMargin := ⟨rfl, rfl⟩

theorem HyperPage_any_paper_frame (env : Env) (me : State) (text : String)
    (font : kGraphics_font) (size : Rat) (style : Int) (minFooterDistance x secondIndent
    topSpacing : Rat) (method : Nat) :
    (HyperPage_any_paper env me text font size style minFooterDistance x secondIndent topSpacing
        method).printing = me.printing
      ∧ (HyperPage_any_paper env me text font size style minFooterDistance x secondIndent
        topSpacing method).rightMargin = me.rightMargin := by
  unfold HyperPage_any_paper
  simp only
  split <;> split <;> (try split) <;> exact ⟨rfl, rfl⟩

/-- A call of `HyperPage_any` that passes the zero-margin guard and returns has stored its
    `bottomSpacing` argument, and has left the mode and the margin as they were. -/
theorem HyperPage_any_frame (env : Env) (me s1 : State) (text : String) (font : kGraphics_font)
    (size : Rat) (style : Int) (minFooterDistance x secondIndent topSpacing bottomSpacing : Rat)
    (method : Nat) (hrm : me.rightMargin ≠ 0)
    (hcall : HyperPage_any env me text font size style minFooterDistance x secondIndent topSpacing
      bottomSpacing method = some s1) :
    s1.previousBottomSpacing = bottomSpacing ∧ s1.printing = me.printing
      ∧ s1.rightMargin = me.rightMargin := by
  unfold HyperPage_any at hcall
  rw [if_neg hrm] at hcall
  by_cases hdiv : truncate (me.rightMargin * 150) = 0
  · rw [if_pos hdiv] at hcall; exact absurd hcall (by simp)
  · rw [if_neg hdiv] at hcall
    simp only [Option.some.injEq] at hcall
    subst hcall
    refine ⟨rfl, ?_, ?_⟩
    · simp only
      split
      · exact (HyperPage_any_screen_frame env me _ text font size style x secondIndent topSpacing
          method).1
      · exact (HyperPage_any_paper_frame env me text font size style minFooterDistance x
          secondIndent topSpacing method).1
    · simp only
      split
      · exact (HyperPage_any_screen_frame env me _ text font size style x secondIndent topSpacing
          method).2
      · exact (HyperPage_any_paper_frame env me text font size style minFooterDistance x
          secondIndent topSpacing method).2

theorem ite_gt_eq_max (a b : Rat) : (if a > b then a else b) = max a b := by
  by_cases h : a > b
  · rw [if_pos h, max_eq_left (le_of_lt h)]
  · rw [if_neg h, max_eq_right (not_lt.1 h)]

theorem HyperPage_any_topSpacing_screen (me : State) (size topSpacing : Rat)
    (h : me.printing = false) :
    HyperPage_any_topSpacing me size topSpacing
      = max me.previousBottomSpacing topSpacing * size / 12 := by
  unfold HyperPage_any_topSpacing
  simp only [h, ite_gt_eq_max]
  norm_num

theorem HyperPage_any_returns (env : Env) (me : State) (text : String) (font : kGraphics_font)
    (size : Rat) (style : Int) (minFooterDistance x secondIndent topSpacing bottomSpacing : Rat)
    (method : Nat) (hdiv : truncate (me.rightMargin * 150) ≠ 0) :
    ∃ s1, HyperPage_any env me text font size style minFooterDistance x secondIndent topSpacing
      bottomSpacing method = some s1 := by
  unfold HyperPage_any
  by_cases hrm : me.rightMargin = 0
  · rw [if_pos hrm]; exact ⟨_, rfl⟩
  · rw [if_neg hrm, if_neg hdiv]; exact ⟨_, rfl⟩

/-! ## The sum of spacings on the screen -/

theorem truncate_zero : truncate 0 = 0 := by
  simp [truncate]

theorem HyperPage_any_screen_y (env : Env) (me : State) (heightGuess : Rat) (text : String)
    (font : kGraphics_font) (size : Rat) (style : Int) (x secondIndent topSpacing : Rat)
    (method : Nat) (hscreen : me.printing = false)
    (htext : ∀ call, env.Graphics_inqTextY call = call.y)
    (hon : PAGE_HEIGHT - SCREEN_HEIGHT
      ≤ me.d_y - max me.previousBottomSpacing topSpacing * size / 12 - size * (1.2 / 72)) :
    (HyperPage_any_screen env me heightGuess text font size style x secondIndent topSpacing
        method).d_y
      = me.d_y - max me.previousBottomSpacing topSpacing * size / 12 - size * (1.2 / 72) := by
  have hts : ∀ m : State, m.printing = false → m.previousBottomSpacing = me.previousBottomSpacing →
      HyperPage_any_topSpacing m size topSpacing
        = max me.previousBottomSpacing topSpacing * size / 12 := by
    intro m h1 h2
    rw [HyperPage_any_topSpacing_screen m size topSpacing h1, h2]
  unfold HyperPage_any_screen
  simp only
  split
  · have h1 := hts { me with entryPosition := me.d_y } hscreen rfl
    simp only [h1, if_neg (not_lt.2 hon)]
    rw [htext]
  · have h1 := hts me hscreen rfl
    simp only [h1, if_neg (not_lt.2 hon)]
    rw [htext]

/-- On the screen, a call whose divisor is not 0 is the screen branch followed by the storing
    of the bottom spacing. -/
theorem HyperPage_any_screen_eq (env : Env) (me : State) (text : String) (font : kGraphics_font)
    (size : Rat) (style : Int) (minFooterDistance x secondIndent topSpacing bottomSpacing : Rat)
    (method : Nat) (hscreen : me.printing = false) (hrm : me.rightMargin ≠ 0)
    (hdiv : truncate (me.rightMargin * 150) ≠ 0) :
    HyperPage_any env me text font size style minFooterDistance x secondIndent topSpacing
        bottomSpacing method
      = some { HyperPage_any_screen env me
            (size * (1.2 / 72)
              * (Int.tdiv (truncate size * (text.length : Int)) (truncate (me.rightMargin * 150)) : Int))
            text font size style x secondIndent topSpacing method with
          previousBottomSpacing := bottomSpacing } := by
  have hnp : ¬ me.printing = true := by simp [hscreen]
  unfold HyperPage_any
  rw [if_neg hrm, if_neg hdiv]
  simp only [if_pos hnp]

/-- One call on the screen that takes the on-screen branch, with a text service that does not
    wrap: `y` goes down by the top spacing and one line height. -/
theorem Fragment.emit_onScreen (env : Env) (me : State) (f : Fragment)
    (hscreen : me.printing = false) (hdiv : truncate (me.rightMargin * 150) ≠ 0)
    (htext : ∀ call, env.Graphics_inqTextY call = call.y)
    (hon : PAGE_HEIGHT - SCREEN_HEIGHT
      ≤ me.d_y - max me.previousBottomSpacing f.topSpacing * f.size / 12 - f.size * (1.2 / 72)) :
    ∃ me', f.emit env me = some me'
      ∧ me'.d_y = me.d_y - max me.previousBottomSpacing f.topSpacing * f.size / 12
          - f.size * (1.2 / 72)
      ∧ me'.previousBottomSpacing = f.bottomSpacing
      ∧ me'.printing = false ∧ me'.rightMargin = me.rightMargin := by
  have hrm : me.rightMargin ≠ 0 := by
    intro h0
    rw [h0, zero_mul] at hdiv
    exact hdiv truncate_zero
  have he := HyperPage_any_screen_eq env me f.text f.font f.size f.style f.minFooterDistance f.x
    f.secondIndent f.topSpacing f.bottomSpacing f.method hscreen hrm hdiv
  obtain ⟨hb, hp, hr⟩ := HyperPage_any_frame env me _ f.text f.font f.size f.style
    f.minFooterDistance f.x f.secondIndent f.topSpacing f.bottomSpacing f.method hrm he
  exact ⟨_, he,
    HyperPage_any_screen_y env me _ f.text f.font f.size f.style f.x f.secondIndent f.topSpacing
      f.method hscreen htext hon,
    hb, by rw [hp, hscreen], hr⟩

/-- The flow on the screen for every margin that the height estimate can divide by: when
    `(int) (rightMargin * 150)` is not 0, every call takes the on-screen branch and the text
    service does not wrap, the sequence of calls returns and `y` has gone down by the sum of
    the top spacings and line heights. -/
theorem emitAll_onScreen (env : Env) (htext : ∀ call, env.Graphics_inqTextY call = call.y)
    (fs : List Fragment) :
    ∀ me : State, me.printing = false → truncate (me.rightMargin * 150) ≠ 0 →
      allOnScreen me.d_y me.previousBottomSpacing fs →
      ∃ me', emitAll env fs me = some me'
        ∧ me'.d_y = me.d_y - spacingSum me.previousBottomSpacing fs := by
  induction fs with
  | nil =>
    intro me _ _ _
    exact ⟨me, rfl, by simp [spacingSum]⟩
  | cons f fs ih =>
    intro me hscreen hdiv hon
    obtain ⟨hon1, hon2⟩ := hon
    obtain ⟨me1, he, hy, hb, hp, hr⟩ := Fragment.emit_onScreen env me f hscreen hdiv htext hon1
    rw [← hy, ← hb] at hon2
    obtain ⟨me2, he2, hy2⟩ := ih me1 hp (by rw [hr]; exact hdiv) hon2
    refine ⟨me2, by simp [emitAll, he, he2], ?_⟩
    rw [hy2, hy, hb]
    simp only [spacingSum]
    ring

/-- C10 fails for a narrow margin: on the screen with `rightMargin = 1/200` (not 0, so the
    guard is passed) and `y = 320`, one paragraph of size 12 would take the on-screen branch
    (`320 - 0.1 - 0.2 >= 302`), but `(int) (rightMargin * 150)` is `(int) 0.75 = 0`, and the call
    divides by it before it lays out the fragment: it returns no `y`. -/
theorem HyperPage_any_narrow_margin :
    exampleNarrowScreen.printing = false ∧ exampleNarrowScreen.rightMargin ≠ 0
      ∧ allOnScreen exampleNarrowScreen.d_y exampleNarrowScreen.previousBottomSpacing
          [exampleParagraph]
      ∧ truncate (exampleNarrowScreen.rightMargin * 150) = 0
      ∧ emitAll exampleEnv [exampleParagraph] exampleNarrowScreen = none := by
  have hdiv : truncate (exampleNarrowScreen.rightMargin * 150) = 0 := by
    norm_num [truncate, exampleNarrowScreen, State.empty]
    rfl
  have hrm : exampleNarrowScreen.rightMargin ≠ 0 := by
    norm_num [exampleNarrowScreen, State.empty]
  refine ⟨rfl, hrm, ?_, hdiv, ?_⟩
  · norm_num [allOnScreen, exampleNarrowScreen, State.empty, exampleParagraph, PAGE_HEIGHT,
      SCREEN_HEIGHT]
  · simp only [emitAll, Fragment.emit, HyperPage_any, if_neg hrm, if_pos hdiv, Option.bind]

/-! ## The zero-margin guard -/

/-- C12: with `rightMargin` exactly 0, `HyperPage_any` returns the viewer unchanged, on the
    screen and on paper, for every text and every layout argument: the cursor, the spacing, the
    entry position, the link registry and the sheet number are as before, and the trace of
    drawing calls and sheet breaks has not grown. -/
theorem HyperPage_any_zero_margin (env : Env) (me : State) (text : String)
    (font : kGraphics_font) (size : Rat) (style : Int)
    (minFooterDistance x secondIndent topSpacing bottomSpacing : Rat) (method : Nat)
    (hrm : me.rightMargin = 0) :
    HyperPage_any env me text font size style minFooterDistance x secondIndent topSpacing
      bottomSpacing method = some me := by
  unfold HyperPage_any
  rw [if_pos hrm]

theorem HyperPage_any_zero_margin_witness :
    HyperPage_any exampleEnv { examplePaperTop with rightMargin := 0 } "Some text." 0 12 0 0.0
        0.03 0.0 0.1 0.1 HyperPage_ADD_BORDER
      = some { examplePaperTop with rightMargin := 0 } :=
  HyperPage_any_zero_margin exampleEnv { examplePaperTop with rightMargin := 0 } "Some text." 0 12
    0 0.0 0.03 0.0 0.1 0.1 HyperPage_ADD_BORDER rfl

/-! ## Going to a page -/

/-- C19: `HyperPage_goToPage` asks the document source once.  If the source returns `-1`, the
    call returns 0 and changes nothing (apart from the trace entry of the request).  If the
    source returns `0`, the call returns 0 and only clears the link registry (and asks for a
    redraw).  Otherwise the call returns 1, the title has been passed to `saveHistory`, the
    current page title is the requested title, `top` is 0 and the link registry is empty.  So
    the call returns 1 exactly when the source returns neither `-1` nor `0`. -/
theorem HyperPage_goToPage_spec (env : Env) (me : State) (pageTitle : String) :
    (env.v_goToPage pageTitle = -1 →
      HyperPage_goToPage env me pageTitle
        = (0, { me with trace := me.trace ++ [Event.goToPage pageTitle] }))
    ∧ (env.v_goToPage pageTitle = 0 →
      HyperPage_goToPage env me pageTitle
        = (0, { me with links := [],
                        trace := me.trace ++ [Event.goToPage pageTitle, Event.updateWs] }))
    ∧ (env.v_goToPage pageTitle ≠ -1 → env.v_goToPage pageTitle ≠ 0 →
      HyperPage_goToPage env me pageTitle
          = (1, HyperPage_clear (updateVerticalScrollBar
              { saveHistory { me with trace := me.trace ++ [Event.goToPage pageTitle] }
                  (some pageTitle) with
                optionalCurrentPageTitle := some pageTitle, top := 0 }))
        ∧ (HyperPage_goToPage env me pageTitle).2.optionalCurrentPageTitle = some pageTitle
        ∧ (HyperPage_goToPage env me pageTitle).2.top = 0
        ∧ (HyperPage_goToPage env me pageTitle).2.links = [])
    ∧ ((HyperPage_goToPage env me pageTitle).1 = 1
        ↔ (env.v_goToPage pageTitle ≠ -1 ∧ env.v_goToPage pageTitle ≠ 0)) := by
  refine ⟨?_, ?_, ?_, ?_⟩
  · intro h
    simp [HyperPage_goToPage, h]
  · intro h
    simp [HyperPage_goToPage, h, HyperPage_clear]
  · intro h1 h0
    have e : HyperPage_goToPage env me pageTitle
          = (1, HyperPage_clear (updateVerticalScrollBar
              { saveHistory { me with trace := me.trace ++ [Event.goToPage pageTitle] }
                  (some pageTitle) with
                optionalCurrentPageTitle := some pageTitle, top := 0 })) := by
      have z : (0.0 : Rat) = 0 := by norm_num
      unfold HyperPage_goToPage
      rw [if_neg h1, if_neg h0]
      simp only [z]
    rw [e]
    exact ⟨rfl, rfl, rfl, rfl⟩
  · by_cases h1 : env.v_goToPage pageTitle = -1
    · simp [HyperPage_goToPage, h1]
    · by_cases h0 : env.v_goToPage pageTitle = 0
      · simp [HyperPage_goToPage, h0]
      · simp [HyperPage_goToPage, h1, h0]

theorem HyperPage_goToPage_spec_witness :
    HyperPage_goToPage { exampleEnv with v_goToPage := fun _ => -1 } State.empty "A"
        = (0, { State.empty with trace := [] ++ [Event.goToPage "A"] })
    ∧ HyperPage_goToPage { exampleEnv with v_goToPage := fun _ => 0 } State.empty "A"
        = (0, { State.empty with links := [],
                                 trace := [] ++ [Event.goToPage "A", Event.updateWs] })
    ∧ (HyperPage_goToPage exampleEnv State.empty "A").2.optionalCurrentPageTitle = some "A" :=
  ⟨(HyperPage_goToPage_spec { exampleEnv with v_goToPage := fun _ => -1 } State.empty "A").1 rfl,
   (HyperPage_goToPage_spec { exampleEnv with v_goToPage := fun _ => 0 } State.empty "A").2.1 rfl,
   ((HyperPage_goToPage_spec exampleEnv State.empty "A").2.2.1 (by decide) (by decide)).2.1⟩

/-! ## Pointer clicks -/

theorem saveHistory_add_trace (me : State) (t : String) :
    (saveHistory_add me t).trace = me.trace := rfl

theorem saveHistory_trace (me : State) (title : Option String) :
    (saveHistory me title).trace = me.trace := by
  cases title with
  | none => rfl
  | some t =>
    unfold saveHistory
    simp only
    split
    · split
      · rfl
      · rfl
    · split
      · rfl
      · rfl

/-- The requests that one `HyperPage_goToPage` makes: one request to the document source, for
    the given title, and after it only scroll bar and redraw requests. -/
theorem HyperPage_goToPage_trace (env : Env) (me : State) (pageTitle : String) :
    ∃ rest, (HyperPage_goToPage env me pageTitle).2.trace
        = me.trace ++ Event.goToPage pageTitle :: rest
      ∧ ∀ e, e ∈ rest → ∀ t, e ≠ Event.goToPage t := by
  unfold HyperPage_goToPage
  simp only
  split
  · exact ⟨[], rfl, by simp⟩
  · split
    · exact ⟨[Event.updateWs], by simp [HyperPage_clear], by simp⟩
    · refine ⟨[Event.scrollBarSet 0.0, Event.updateWs], ?_, by simp⟩
      simp [HyperPage_clear, updateVerticalScrollBar, saveHistory_trace]

theorem gui_drawingarea_cb_mouse_loop_miss (env : Env) (me : State) (event : MouseEvent)
    (links : List HyperLink) (h : ∀ l, l ∈ links → l.hit event = false) :
    gui_drawingarea_cb_mouse_loop env me event links = me := by
  induction links with
  | nil => rfl
  | cons link rest ih =>
    have h1 : link.hit event = false := h link (List.mem_cons_self _ _)
    simp only [gui_drawingarea_cb_mouse_loop, h1, Bool.false_eq_true, if_false]
    exact ih (fun l hl => h l (List.mem_cons_of_mem _ hl))

theorem gui_drawingarea_cb_mouse_loop_hit (env : Env) (me : State) (event : MouseEvent)
    (pre : List HyperLink) (link : HyperLink) (post : List HyperLink)
    (hpre : ∀ l, l ∈ pre → l.hit event = false) (hhit : link.hit event = true) :
    gui_drawingarea_cb_mouse_loop env me event (pre ++ link :: post)
      = (HyperPage_goToPage env (saveHistory me me.optionalCurrentPageTitle) link.name).2 := by
  induction pre with
  | nil =>
    simp only [List.nil_append, gui_drawingarea_cb_mouse_loop, hhit, if_true]
  | cons l rest ih =>
    have h1 : l.hit event = false := hpre l (List.mem_cons_self _ _)
    simp only [List.cons_append, gui_drawingarea_cb_mouse_loop, h1, Bool.false_eq_true, if_false]
    exact ih (fun l' hl => hpre l' (List.mem_cons_of_mem _ hl))

/-- C14: on a viewer whose links were registered by drawing (so its graphics exists whenever the
    link registry is not empty), `gui_drawingarea_cb_mouse` leaves the whole state unchanged for
    an event that is not a click and for a click that no registered link strictly contains; for
    a click, with `link` the first link in registry order whose rectangle strictly contains the
    click point, it saves the current page title in the history and calls `HyperPage_goToPage`
    with the name of `link` once: the document source gets exactly one request, for that name,
    and no later link is visited. -/
theorem gui_drawingarea_cb_mouse_spec (env : Env) (me : State) (event : MouseEvent)
    (hg : me.links ≠ [] → me.graphics = true) :
    (event.isClick = false → gui_drawingarea_cb_mouse env me event = me)
    ∧ ((∀ l, l ∈ me.links → l.hit event = false) → gui_drawingarea_cb_mouse env me event = me)
    ∧ (∀ pre link post, event.isClick = true → me.links = pre ++ link :: post →
        (∀ l, l ∈ pre → l.hit event = false) → link.hit event = true →
        gui_drawingarea_cb_mouse env me event
            = (HyperPage_goToPage env (saveHistory me me.optionalCurrentPageTitle) link.name).2
          ∧ ∃ rest, (gui_drawingarea_cb_mouse env me event).trace
              = me.trace ++ Event.goToPage link.name :: rest
            ∧ ∀ e, e ∈ rest → ∀ t, e ≠ Event.goToPage t) := by
  refine ⟨?_, ?_, ?_⟩
  · intro h
    simp [gui_drawingarea_cb_mouse, h]
  · intro h
    unfold gui_drawingarea_cb_mouse
    split
    · rfl
    · split
      · rfl
      · exact gui_drawingarea_cb_mouse_loop_miss env me event me.links h
  · intro pre link post hclick hlinks hpre hhit
    have hgr : me.graphics = true := hg (by rw [hlinks]; simp)
    have e : gui_drawingarea_cb_mouse env me event
        = (HyperPage_goToPage env (saveHistory me me.optionalCurrentPageTitle) link.name).2 := by
      unfold gui_drawingarea_cb_mouse
      simp only [hclick, hgr, not_true_eq_false, if_false]
      rw [hlinks]
      exact gui_drawingarea_cb_mouse_loop_hit env me event pre link post hpre hhit
    refine ⟨e, ?_⟩
    rw [e]
    obtain ⟨rest, hr, hn⟩ := HyperPage_goToPage_trace env
      (saveHistory me me.optionalCurrentPageTitle) link.name
    exact ⟨rest, by rw [hr, saveHistory_trace], hn⟩

theorem gui_drawingarea_cb_mouse_spec_witness :
    (exampleLinked.links ≠ [] → exampleLinked.graphics = true)
    ∧ gui_drawingarea_cb_mouse exampleEnv exampleLinked ⟨true, 9, 9⟩ = exampleLinked
    ∧ gui_drawingarea_cb_mouse exampleEnv exampleLinked ⟨true, 2, 2⟩
        = (HyperPage_goToPage exampleEnv
            (saveHistory exampleLinked exampleLinked.optionalCurrentPageTitle) "B").2 :=
  ⟨fun _ => rfl,
   (gui_drawingarea_cb_mouse_spec exampleEnv exampleLinked ⟨true, 9, 9⟩ (fun _ => rfl)).2.1
     (by decide),
   ((gui_drawingarea_cb_mouse_spec exampleEnv exampleLinked ⟨true, 2, 2⟩ (fun _ => rfl)).2.2
     [⟨"far", 5, 6, 6, 5⟩] ⟨"B", 1, 3, 3, 1⟩ [⟨"C", 0, 4, 4, 0⟩] rfl rfl
     (by decide) (by decide)).1⟩

/-! ## Title and paragraphs on the screen -/

theorem HyperPage_any_screen_prefs (env : Env) (me : State) (heightGuess : Rat) (text : String)
    (font : kGraphics_font) (size : Rat) (style : Int) (x secondIndent topSpacing : Rat)
    (method : Nat) :
    (HyperPage_any_screen env me heightGuess text font size style x secondIndent topSpacing
        method).instancePref_fontSize = me.instancePref_fontSize := by
  unfold HyperPage_any_screen
  simp only
  split <;> split <;> (try split) <;> rfl

theorem HyperPage_any_paper_prefs (env : Env) (me : State) (text : String)
    (font : kGraphics_font) (size : Rat) (style : Int) (minFooterDistance x secondIndent
    topSpacing : Rat) (method : Nat) :
    (HyperPage_any_paper env me text font size style minFooterDistance x secondIndent topSpacing
        method).instancePref_fontSize = me.instancePref_fontSize := by
  unfold HyperPage_any_paper
  simp only
  split <;> split <;> (try split) <;> rfl

/-- A call of `HyperPage_any` that returns leaves the font size preference as it was. -/
theorem HyperPage_any_prefs (env : Env) (me s1 : State) (text : String) (font : kGraphics_font)
    (size : Rat) (style : Int) (minFooterDistance x secondIndent topSpacing bottomSpacing : Rat)
    (method : Nat)
    (hcall : HyperPage_any env me text font size style minFooterDistance x secondIndent topSpacing
      bottomSpacing method = some s1) :
    s1.instancePref_fontSize = me.instancePref_fontSize := by
  unfold HyperPage_any at hcall
  by_cases hrm : me.rightMargin = 0
  · rw [if_pos hrm] at hcall
    simp only [Option.some.injEq] at hcall
    rw [← hcall]
  · rw [if_neg hrm] at hcall
    by_cases hdiv : truncate (me.rightMargin * 150) = 0
    · rw [if_pos hdiv] at hcall; exact absurd hcall (by simp)
    · rw [if_neg hdiv] at hcall
      simp only [Option.some.injEq] at hcall
      subst hcall
      simp only
      split
      · exact HyperPage_any_screen_prefs env me _ text font size style x secondIndent topSpacing
          method
      · exact HyperPage_any_paper_prefs env me text font size style minFooterDistance x
          secondIndent topSpacing method

/-- The positions of a title and two paragraphs on the screen at font size 12, for every margin
    that the height estimate can divide by: from `y = 320` with no previous bottom spacing and
    a text service that does not wrap, `y` is 319.4 after the title, 319.05 after the first
    paragraph and 318.75 after the second, and the bottom spacing 0.1 is stored. -/
theorem pageTitle_paragraphs_onScreen (env : Env) (me : State) (title text1 text2 : String)
    (hscreen : me.printing = false) (hsize : me.instancePref_fontSize = 12)
    (hy : me.d_y = 320) (hprev : me.previousBottomSpacing = 0)
    (hdiv : truncate (me.rightMargin * 150) ≠ 0)
    (htext : ∀ call, env.Graphics_inqTextY call = call.y) :
    ∃ a b c, HyperPage_pageTitle env me title = some a
      ∧ HyperPage_paragraph env a text1 = some b
      ∧ HyperPage_paragraph env b text2 = some c
      ∧ a.d_y = 319.4 ∧ b.d_y = 319.05 ∧ c.d_y = 318.75 ∧ c.previousBottomSpacing = 0.1 := by
  have m1 : max (0 : Rat) (0.2 / 2) = 0.2 / 2 := max_eq_right (by norm_num)
  have m2 : max (0.3 / 2 : Rat) 0.1 = 0.3 / 2 := max_eq_left (by norm_num)
  have m3 : max (0.1 : Rat) 0.1 = 0.1 := max_self _
  -- the title
  obtain ⟨a, ea, ya, ba, pa, ra⟩ := Fragment.emit_onScreen env me
    { text := title, font := me.instancePref_font, size := me.instancePref_fontSize * 2.0,
      style := 0, minFooterDistance := 2.0, x := 0.0, secondIndent := 0.0, topSpacing := 0.2 / 2,
      bottomSpacing := 0.3 / 2, method := HyperPage_ADD_BORDER }
    hscreen hdiv htext
    (by simp only [hy, hprev, hsize, m1]; norm_num [PAGE_HEIGHT, SCREEN_HEIGHT])
  simp only [hy, hprev, hsize, m1] at ya
  have ea' : HyperPage_pageTitle env me title = some a := by
    rw [← ea]
    simp [HyperPage_pageTitle, Fragment.emit, hscreen]
  have sa : a.instancePref_fontSize = 12 := by
    rw [HyperPage_any_prefs env me a _ _ _ _ _ _ _ _ _ _ ea, hsize]
  -- the first paragraph
  obtain ⟨b, eb, yb, bb, pb, rb⟩ := Fragment.emit_onScreen env a
    { text := text1, font := a.instancePref_font, size := a.instancePref_fontSize,
      style := 0, minFooterDistance := 0.0, x := 0.03, secondIndent := 0.0, topSpacing := 0.1,
      bottomSpacing := 0.1, method := 0 }
    pa (by rw [ra]; exact hdiv) htext
    (by simp only [ya, ba, sa, m2]; norm_num [PAGE_HEIGHT, SCREEN_HEIGHT])
  simp only [ya, ba, sa, m2] at yb
  have sb : b.instancePref_fontSize = 12 := by
    rw [HyperPage_any_prefs env a b _ _ _ _ _ _ _ _ _ _ eb, sa]
  -- the second paragraph
  obtain ⟨c, ec, yc, bc, -, -⟩ := Fragment.emit_onScreen env b
    { text := text2, font := b.instancePref_font, size := b.instancePref_fontSize,
      style := 0, minFooterDistance := 0.0, x := 0.03, secondIndent := 0.0, topSpacing := 0.1,
      bottomSpacing := 0.1, method := 0 }
    pb (by rw [rb, ra]; exact hdiv) htext
    (by simp only [yb, bb, sb, m3]; norm_num [PAGE_HEIGHT, SCREEN_HEIGHT])
  simp only [yb, bb, sb, m3] at yc
  refine ⟨a, b, c, ea', eb, ec, ?_, ?_, ?_, bc⟩
  · rw [ya]; norm_num
  · rw [yb]; norm_num
  · rw [yc]; norm_num

/-- C11 fails for a narrow margin: on the screen at font size 12 with `y = 320`, no previous
    bottom spacing and `rightMargin = 1/200` (not 0), `HyperPage_pageTitle` divides by
    `(int) (rightMargin * 150) = 0` and leaves no `y`; the claim says `y = 319.4`. -/
theorem HyperPage_pageTitle_narrow_margin :
    exampleNarrowScreen.printing = false ∧ exampleNarrowScreen.instancePref_fontSize = 12
      ∧ exampleNarrowScreen.d_y = 320 ∧ exampleNarrowScreen.previousBottomSpacing = 0
      ∧ exampleNarrowScreen.rightMargin ≠ 0
      ∧ HyperPage_pageTitle exampleEnv exampleNarrowScreen "Intro" = none := by
  have hdiv : truncate (exampleNarrowScreen.rightMargin * 150) = 0 := by
    norm_num [truncate, exampleNarrowScreen, State.empty]
    rfl
  have hrm : exampleNarrowScreen.rightMargin ≠ 0 := by
    norm_num [exampleNarrowScreen, State.empty]
  refine ⟨rfl, rfl, ?_, rfl, hrm, ?_⟩
  · norm_num [exampleNarrowScreen, State.empty, PAGE_HEIGHT]
  · simp only [HyperPage_pageTitle, HyperPage_any, if_neg hrm, if_pos hdiv]

/-! ## New sheets on paper -/

theorem sheetTextEvents_count (x y : Rat) (s : Option String) :
    (sheetTextEvents x y s).count Event.nextSheetOfPaper = 0 := by
  cases s <;> simp [sheetTextEvents]

/-- The function `HyperPage_initSheetOfPaper` draws headers, footers and the sheet number; it
    requests no sheet. -/
theorem HyperPage_initSheetOfPaper_trace (env : Env) (me : State) :
    ∃ evs, (HyperPage_initSheetOfPaper env me).trace = me.trace ++ evs
      ∧ evs.count Event.nextSheetOfPaper = 0 := by
  unfold HyperPage_initSheetOfPaper
  simp only [List.append_assoc]
  refine ⟨_, rfl, ?_⟩
  simp only [List.count_append, sheetTextEvents_count]
  split <;> simp

/-- The start of a new sheet requests exactly one sheet, as its first trace entry. -/
theorem nextSheetOfPaper_trace (env : Env) (me : State) :
    ∃ evs, (nextSheetOfPaper env me).trace = me.trace ++ Event.nextSheetOfPaper :: evs
      ∧ evs.count Event.nextSheetOfPaper = 0 := by
  unfold nextSheetOfPaper
  simp only
  split
  · obtain ⟨evs, he, hc⟩ := HyperPage_initSheetOfPaper_trace env
      { me with trace := me.trace ++ [Event.nextSheetOfPaper],
                d_printingPageNumber := wrapInteger (me.d_printingPageNumber + 1) }
    exact ⟨evs, by rw [he]; simp, hc⟩
  · obtain ⟨evs, he, hc⟩ := HyperPage_initSheetOfPaper_trace env
      { me with trace := me.trace ++ [Event.nextSheetOfPaper] }
    exact ⟨evs, by rw [he]; simp, hc⟩

/-- The paper branch of `HyperPage_any` is the same with the new sheet written as
    `nextSheetOfPaper`. -/
theorem HyperPage_any_paper_eq (env : Env) (me : State) (text : String)
    (font : kGraphics_font) (size : Rat) (style : Int) (minFooterDistance x secondIndent
    topSpacing : Rat) (method : Nat) :
    HyperPage_any_paper env me text font size style minFooterDistance x secondIndent topSpacing
        method
      = (let me1 := { me with d_y := me.d_y - HyperPage_any_topSpacing me size topSpacing
                                      - size * (1.2 / 72) }
         let me2 :=
           if me1.d_y < env.PAPER_BOTTOM + BOTTOM_MARGIN + minFooterDistance
               + size * (1.2 / 72) * (text.length / (6.0 * 10)) then
             { nextSheetOfPaper env me1 with
               d_y := (nextSheetOfPaper env me1).d_y - size * (1.2 / 72) }
           else me1
         let call : TextCall :=
           { onPaper := true, text := text, font := font, size := size, style := style,
             wrapWidth := 6.0 - x, secondIndent := secondIndent, x := 0.7 + x, y := me2.d_y }
         { me2 with
           d_x := 0.7 + x
           trace := me2.trace ++ Event.text call ::
             (if method &&& HyperPage_ADD_BORDER ≠ 0 then
                [Event.line true 3.0 0.7 (me2.d_y + size * (1.2 / 72) + 0.07) 6.7
                  (me2.d_y + size * (1.2 / 72) + 0.07)]
              else [])
           d_y := env.Graphics_inqTextY call }) := by
  unfold HyperPage_any_paper nextSheetOfPaper
  simp only
  split <;> split <;> (try split) <;> simp

/-- On paper, a call whose divisor is not 0 is the paper branch followed by the storing of the
    bottom spacing. -/
theorem HyperPage_any_paper_call (env : Env) (me : State) (text : String) (font : kGraphics_font)
    (size : Rat) (style : Int) (minFooterDistance x secondIndent topSpacing bottomSpacing : Rat)
    (method : Nat) (hprint : me.printing = true)
    (hdiv : truncate (me.rightMargin * 150) ≠ 0) :
    HyperPage_any env me text font size style minFooterDistance x secondIndent topSpacing
        bottomSpacing method
      = some { HyperPage_any_paper env me text font size style minFooterDistance x secondIndent
            topSpacing method with
          previousBottomSpacing := bottomSpacing } := by
  have hrm : me.rightMargin ≠ 0 := by
    intro h0
    rw [h0, zero_mul] at hdiv
    exact hdiv truncate_zero
  have hp : ¬ ¬ me.printing = true := by simp [hprint]
  unfold HyperPage_any
  rw [if_neg hrm, if_neg hdiv]
  simp only [if_neg hp]

/-- The sheet breaks of one `HyperPage_any` call on paper, for every margin that the height
    estimate can divide by: the call returns; if `y`, after the top spacing and one line height
    are subtracted, is below the threshold, it requests exactly one new sheet, and does so
    before it draws the text; otherwise it requests none. -/
theorem HyperPage_any_paper_sheets (env : Env) (me : State) (text : String)
    (font : kGraphics_font) (size : Rat) (style : Int)
    (minFooterDistance x secondIndent topSpacing bottomSpacing : Rat) (method : Nat)
    (hprint : me.printing = true) (hdiv : truncate (me.rightMargin * 150) ≠ 0) :
    ∃ s1, HyperPage_any env me text font size style minFooterDistance x secondIndent topSpacing
        bottomSpacing method = some s1
      ∧ (me.d_y - HyperPage_any_topSpacing me size topSpacing - size * (1.2 / 72)
            < env.PAPER_BOTTOM + BOTTOM_MARGIN + minFooterDistance
              + size * (1.2 / 72) * (text.length / (6.0 * 10)) →
          ∃ pre call post, s1.trace
              = me.trace ++ Event.nextSheetOfPaper :: (pre ++ Event.text call :: post)
            ∧ pre.count Event.nextSheetOfPaper = 0 ∧ post.count Event.nextSheetOfPaper = 0)
      ∧ (¬ me.d_y - HyperPage_any_topSpacing me size topSpacing - size * (1.2 / 72)
            < env.PAPER_BOTTOM + BOTTOM_MARGIN + minFooterDistance
              + size * (1.2 / 72) * (text.length / (6.0 * 10)) →
          ∃ call post, s1.trace = me.trace ++ Event.text call :: post
            ∧ post.count Event.nextSheetOfPaper = 0) := by
  refine ⟨_, HyperPage_any_paper_call env me text font size style minFooterDistance x secondIndent
    topSpacing bottomSpacing method hprint hdiv, ?_, ?_⟩
  · intro hlow
    obtain ⟨evs, he, hc⟩ := nextSheetOfPaper_trace env
      { me with d_y := me.d_y - HyperPage_any_topSpacing me size topSpacing - size * (1.2 / 72) }
    simp only [HyperPage_any_paper_eq, if_pos hlow, he]
    refine ⟨evs, _, _, List.append_assoc _ _ _, hc, ?_⟩
    split <;> simp
  · intro hhigh
    simp only [HyperPage_any_paper_eq, if_neg hhigh]
    refine ⟨_, _, rfl, ?_⟩
    split <;> simp

/-- C13 fails for a narrow margin: on paper with `rightMargin = 1/200` (not 0) and `y = 2.7`, a
    paragraph of size 12 comes to `y = 2.4`, below the threshold `2 + 0.5 + 0 + 0.2 * (10 / 60)`,
    so the claim has it request one new sheet; the call divides by
    `(int) (rightMargin * 150) = 0` first and requests nothing. -/
theorem HyperPage_any_paper_narrow_margin :
    exampleNarrowPaper.printing = true ∧ exampleNarrowPaper.rightMargin ≠ 0
      ∧ exampleNarrowPaper.d_y - HyperPage_any_topSpacing exampleNarrowPaper 12 0.1
            - 12 * (1.2 / 72)
          < exampleEnv.PAPER_BOTTOM + BOTTOM_MARGIN + 0.0
            + 12 * (1.2 / 72) * (("Some text.".length : Rat) / (6.0 * 10))
      ∧ HyperPage_any exampleEnv exampleNarrowPaper "Some text." 0 12 0 0.0 0.03 0.0 0.1 0.1 0
          = none := by
  have hdiv : truncate (exampleNarrowPaper.rightMargin * 150) = 0 := by
    norm_num [truncate, exampleNarrowPaper, State.empty]
    rfl
  have hrm : exampleNarrowPaper.rightMargin ≠ 0 := by
    norm_num [exampleNarrowPaper, State.empty]
  refine ⟨rfl, hrm, ?_, ?_⟩
  · have hl : "Some text.".length = 10 := by decide
    rw [hl]
    norm_num [HyperPage_any_topSpacing, exampleNarrowPaper, State.empty, exampleEnv,
      BOTTOM_MARGIN, PAPER_TOP, TOP_MARGIN]
  · simp only [HyperPage_any, if_neg hrm, if_pos hdiv]

/-! ## Pictures -/

theorem trueInches_neg (inches size : Rat) (h : inches < 0) : trueInches inches size = |inches| := by
  have h' : inches < 0.0 := by norm_num; exact h
  unfold trueInches
  rw [if_pos h', abs_of_neg h]
  ring

theorem trueInches_nonneg (inches size : Rat) (h : 0 ≤ inches) :
    trueInches inches size = inches * size / 12 := by
  have h' : ¬ inches < 0.0 := by norm_num; exact h
  unfold trueInches
  rw [if_neg h']
  norm_num
  ring

/-- The function `HyperPage_picture` on the screen when the picture is outside the visibility
    test: nothing is drawn, the graphics handle is untouched. -/
theorem HyperPage_picture_offScreen (env : Env) (me : State) (g : Graphics)
    (width_inches height_inches : Rat) (draw : Graphics → Drawn)
    (hscreen : me.printing = false)
    (hoff : me.d_y - HyperPage_any_topSpacing me (truncate me.instancePref_fontSize : Int) 0.1
          > PAGE_HEIGHT + trueInches height_inches (truncate me.instancePref_fontSize : Int)
        ∨ me.d_y - HyperPage_any_topSpacing me (truncate me.instancePref_fontSize : Int) 0.1
          < PAGE_HEIGHT - SCREEN_HEIGHT) :
    HyperPage_picture env me g width_inches height_inches draw
      = ⟨{ me with
            d_y := me.d_y - HyperPage_any_topSpacing me (truncate me.instancePref_fontSize : Int) 0.1
              - trueInches height_inches (truncate me.instancePref_fontSize : Int)
            previousBottomSpacing := 0.1 }, g, false⟩ := by
  have hnp : ¬ me.printing = true := by simp [hscreen]
  unfold HyperPage_picture
  simp only [if_pos hnp, if_pos hoff]

/-- The function `HyperPage_picture` on the screen when the picture passes the visibility test. -/
theorem HyperPage_picture_onScreen (env : Env) (me : State) (g : Graphics)
    (width_inches height_inches : Rat) (draw : Graphics → Drawn)
    (hscreen : me.printing = false)
    (hon : ¬ (me.d_y - HyperPage_any_topSpacing me (truncate me.instancePref_fontSize : Int) 0.1
          > PAGE_HEIGHT + trueInches height_inches (truncate me.instancePref_fontSize : Int)
        ∨ me.d_y - HyperPage_any_topSpacing me (truncate me.instancePref_fontSize : Int) 0.1
          < PAGE_HEIGHT - SCREEN_HEIGHT)) :
    HyperPage_picture env me g width_inches height_inches draw
      = (let size : Rat := (truncate me.instancePref_fontSize : Int)
         let w := trueInches width_inches size
         let h := trueInches height_inches size
         let y := me.d_y - HyperPage_any_topSpacing me size 0.1 - h
         let x := if w > me.rightMargin then 0.0 else 0.5 * (me.rightMargin - w)
         let me1 := { me with d_y := y, d_x := x,
                              trace := me.trace ++ [Event.draw false x (x + w) y (y + h)] }
         let drawn := draw (Graphics_setViewport g x (x + w) y (y + h))
         if drawn.error then ⟨me1, drawn.g, true⟩
         else ⟨{ me1 with previousBottomSpacing := 0.1 },
               Graphics_setWindow (Graphics_setViewport drawn.g 0.0 1.0 0.0 1.0) 0.0 1.0 0.0 1.0,
               false⟩) := by
  have hnp : ¬ me.printing = true := by simp [hscreen]
  unfold HyperPage_picture
  simp only [if_pos hnp, if_neg hon]

/-- The function `HyperPage_picture` on paper. -/
theorem HyperPage_picture_onPaper (env : Env) (me : State) (g : Graphics)
    (width_inches height_inches : Rat) (draw : Graphics → Drawn)
    (hprint : me.printing = true) :
    HyperPage_picture env me g width_inches height_inches draw
      = (let size : Rat := (truncate me.instancePref_fontSize : Int)
         let w := trueInches width_inches size
         let h := trueInches height_inches size
         let me1 := { me with d_y := me.d_y - HyperPage_any_topSpacing me size 0.1 - h }
         let me2 :=
           if me1.d_y < env.PAPER_BOTTOM + BOTTOM_MARGIN + 0.0 then
             { nextSheetOfPaper env me1 with d_y := (nextSheetOfPaper env me1).d_y - h }
           else me1
         let x := Melder_clippedLeft 0.0 (3.7 - 0.5 * w)
         let me3 := { me2 with d_x := x,
                               trace := me2.trace
                                 ++ [Event.draw true x (x + w) me2.d_y (me2.d_y + h)] }
         let drawn := draw (Graphics_setViewport g x (x + w) me2.d_y (me2.d_y + h))
         if drawn.error then ⟨me3, drawn.g, true⟩
         else ⟨{ me3 with previousBottomSpacing := 0.1 },
               Graphics_setWindow (Graphics_setViewport drawn.g 0.0 1.0 0.0 1.0) 0.0 1.0 0.0 1.0,
               false⟩) := by
  have hp : ¬ ¬ me.printing = true := by simp [hprint]
  unfold HyperPage_picture
  simp only [if_neg hp]

theorem Melder_clippedLeft_eq_max (minimum value : Rat) :
    Melder_clippedLeft minimum value = max minimum value := by
  unfold Melder_clippedLeft
  by_cases h : value < minimum
  · rw [if_pos h, max_eq_left (le_of_lt h)]
  · rw [if_neg h, max_eq_right (not_lt.1 h)]

theorem truncate_twelve : truncate 12 = 12 := by
  norm_num [truncate]

/-- What a nested drawing leaves behind: if it raised an error, the viewer and the graphics
    handle as they were at that moment; otherwise the bottom spacing is stored and the viewport
    and window are reset. -/
theorem nestedDrawing_facts (me1 : State) (drawn : Drawn) (bottomSpacing : Rat) :
    (if drawn.error then (⟨me1, drawn.g, true⟩ : Emitted)
      else ⟨{ me1 with previousBottomSpacing := bottomSpacing },
            Graphics_setWindow (Graphics_setViewport drawn.g 0.0 1.0 0.0 1.0) 0.0 1.0 0.0 1.0,
            false⟩)
      = ⟨{ me1 with previousBottomSpacing :=
              if drawn.error then me1.previousBottomSpacing else bottomSpacing },
         if drawn.error then drawn.g
           else Graphics_setWindow (Graphics_setViewport drawn.g 0.0 1.0 0.0 1.0) 0.0 1.0 0.0 1.0,
         drawn.error⟩ := by
  cases drawn with
  | mk dg de => cases de <;> rfl

/-- The function `HyperPage_picture` on the screen when the picture passes the visibility
    test, field by field. -/
theorem HyperPage_picture_onScreen_facts (env : Env) (me : State) (g : Graphics)
    (width_inches height_inches size w h x y : Rat) (draw : Graphics → Drawn)
    (hscreen : me.printing = false)
    (hsize : size = (truncate me.instancePref_fontSize : Int))
    (hw : w = trueInches width_inches size) (hh : h = trueInches height_inches size)
    (hy : y = me.d_y - HyperPage_any_topSpacing me size 0.1 - h)
    (hx : x = if w > me.rightMargin then 0.0 else 0.5 * (me.rightMargin - w))
    (hon : ¬ (me.d_y - HyperPage_any_topSpacing me size 0.1 > PAGE_HEIGHT + h
        ∨ me.d_y - HyperPage_any_topSpacing me size 0.1 < PAGE_HEIGHT - SCREEN_HEIGHT)) :
    HyperPage_picture env me g width_inches height_inches draw
      = ⟨{ me with
            d_y := y, d_x := x, trace := me.trace ++ [Event.draw false x (x + w) y (y + h)]
            previousBottomSpacing :=
              if (draw (Graphics_setViewport g x (x + w) y (y + h))).error
              then me.previousBottomSpacing else 0.1 },
         if (draw (Graphics_setViewport g x (x + w) y (y + h))).error
           then (draw (Graphics_setViewport g x (x + w) y (y + h))).g
           else Graphics_setWindow (Graphics_setViewport
             (draw (Graphics_setViewport g x (x + w) y (y + h))).g 0.0 1.0 0.0 1.0) 0.0 1.0 0.0 1.0,
         (draw (Graphics_setViewport g x (x + w) y (y + h))).error⟩ := by
  subst hsize hw hh hy hx
  rw [HyperPage_picture_onScreen env me g width_inches height_inches draw hscreen hon]
  exact nestedDrawing_facts _ _ _

/-- The function `HyperPage_picture` on paper, field by field. -/
theorem HyperPage_picture_onPaper_facts (env : Env) (me : State) (g : Graphics)
    (width_inches height_inches size w h x : Rat) (me2 : State) (draw : Graphics → Drawn)
    (hprint : me.printing = true)
    (hsize : size = (truncate me.instancePref_fontSize : Int))
    (hw : w = trueInches width_inches size) (hh : h = trueInches height_inches size)
    (hme2 : me2 = HyperPage_picture_paperCursor env me size h)
    (hx : x = Melder_clippedLeft 0.0 (3.7 - 0.5 * w)) :
    HyperPage_picture env me g width_inches height_inches draw
      = ⟨{ me2 with
            d_x := x, trace := me2.trace ++ [Event.draw true x (x + w) me2.d_y (me2.d_y + h)]
            previousBottomSpacing :=
              if (draw (Graphics_setViewport g x (x + w) me2.d_y (me2.d_y + h))).error
              then me2.previousBottomSpacing else 0.1 },
         if (draw (Graphics_setViewport g x (x + w) me2.d_y (me2.d_y + h))).error
           then (draw (Graphics_setViewport g x (x + w) me2.d_y (me2.d_y + h))).g
           else Graphics_setWindow (Graphics_setViewport
             (draw (Graphics_setViewport g x (x + w) me2.d_y (me2.d_y + h))).g
               0.0 1.0 0.0 1.0) 0.0 1.0 0.0 1.0,
         (draw (Graphics_setViewport g x (x + w) me2.d_y (me2.d_y + h))).error⟩ := by
  subst hsize hw hh hme2 hx
  rw [HyperPage_picture_onPaper env me g width_inches height_inches draw hprint]
  exact nestedDrawing_facts _ _ _

/-- C20, as stated, fails on paper: at font size 12 a picture of width 7 has true width 7, more
    than the column width 6, and the claim puts its left edge at 0; the code puts it at
    `3.7 - 0.5 * 7 = 0.2`. -/
theorem HyperPage_picture_placement_counterexample :
    examplePaperTop.printing = true
      ∧ trueInches 7 (truncate examplePaperTop.instancePref_fontSize : Int) = 7
      ∧ (HyperPage_picture exampleEnv examplePaperTop exampleGraphics 7 2 exampleDraw).me.d_x = 0.2
      ∧ (HyperPage_picture exampleEnv examplePaperTop exampleGraphics 7 2 exampleDraw).me.d_x ≠ 0 := by
  have hs : truncate examplePaperTop.instancePref_fontSize = 12 := truncate_twelve
  have hw : trueInches 7 (truncate examplePaperTop.instancePref_fontSize : Int) = 7 := by
    rw [hs]; norm_num [trueInches]
  have hx : (HyperPage_picture exampleEnv examplePaperTop exampleGraphics 7 2 exampleDraw).me.d_x
      = 0.2 := by
    rw [HyperPage_picture_onPaper_facts exampleEnv examplePaperTop exampleGraphics 7 2 _ _ _ _ _
      exampleDraw rfl rfl rfl rfl rfl rfl]
    simp only [hw]
    norm_num [Melder_clippedLeft]
  refine ⟨rfl, hw, hx, ?_⟩
  rw [hx]; norm_num

/-- C20, amended: `HyperPage_picture` uses the true width `|w|` for a negative width argument
    `w` and `w * size / 12` otherwise (the same for the height), where `size` is the font size
    truncated to an integer.  On the screen, when the picture is drawn, the left edge of the
    sub-region is 0 if the true width exceeds `rightMargin` and `0.5 * (rightMargin - width)`
    otherwise.  On paper the left edge is `max (0, 3.7 - 0.5 * width)`: the sub-region is centred
    on the middle 3.7 of the text column, and its left edge is 0 only from true width 7.4 on.
    In both modes the sub-region drawn into is `[x, x + width]` by `[y, y + height]`. -/
theorem HyperPage_picture_placement (env : Env) (me : State) (g : Graphics)
    (width_inches height_inches size : Rat) (draw : Graphics → Drawn)
    (hsize : size = (truncate me.instancePref_fontSize : Int)) :
    (width_inches < 0 → trueInches width_inches size = |width_inches|)
    ∧ (0 ≤ width_inches → trueInches width_inches size = width_inches * size / 12)
    ∧ (height_inches < 0 → trueInches height_inches size = |height_inches|)
    ∧ (0 ≤ height_inches → trueInches height_inches size = height_inches * size / 12)
    ∧ (me.printing = false →
        ¬ (me.d_y - HyperPage_any_topSpacing me size 0.1 > PAGE_HEIGHT + trueInches height_inches size
          ∨ me.d_y - HyperPage_any_topSpacing me size 0.1 < PAGE_HEIGHT - SCREEN_HEIGHT) →
        (HyperPage_picture env me g width_inches height_inches draw).me.d_x
            = (if trueInches width_inches size > me.rightMargin then 0
               else 0.5 * (me.rightMargin - trueInches width_inches size))
          ∧ (HyperPage_picture env me g width_inches height_inches draw).me.trace
            = me.trace ++ [Event.draw false
                (HyperPage_picture env me g width_inches height_inches draw).me.d_x
                ((HyperPage_picture env me g width_inches height_inches draw).me.d_x
                  + trueInches width_inches size)
                (HyperPage_picture env me g width_inches height_inches draw).me.d_y
                ((HyperPage_picture env me g width_inches height_inches draw).me.d_y
                  + trueInches height_inches size)])
    ∧ (me.printing = true →
        (HyperPage_picture env me g width_inches height_inches draw).me.d_x
            = max 0 (3.7 - 0.5 * trueInches width_inches size)
          ∧ Event.draw true
              (HyperPage_picture env me g width_inches height_inches draw).me.d_x
              ((HyperPage_picture env me g width_inches height_inches draw).me.d_x
                + trueInches width_inches size)
              (HyperPage_picture env me g width_inches height_inches draw).me.d_y
              ((HyperPage_picture env me g width_inches height_inches draw).me.d_y
                + trueInches height_inches size)
            ∈ (HyperPage_picture env me g width_inches height_inches draw).me.trace) := by
  have z : (0.0 : Rat) = 0 := by norm_num
  refine ⟨trueInches_neg _ _, trueInches_nonneg _ _, trueInches_neg _ _, trueInches_nonneg _ _,
    ?_, ?_⟩
  · intro hscreen hon
    rw [HyperPage_picture_onScreen_facts env me g width_inches height_inches size _ _ _ _ draw
      hscreen hsize rfl rfl rfl rfl hon]
    simp only [z]
    exact ⟨trivial, trivial⟩
  · intro hprint
    rw [HyperPage_picture_onPaper_facts env me g width_inches height_inches size _ _ _ _ draw
      hprint hsize rfl rfl rfl rfl]
    simp only [Melder_clippedLeft_eq_max, z]
    exact ⟨trivial, by simp⟩

theorem HyperPage_picture_placement_witness :
    (HyperPage_picture exampleEnv examplePaperTop exampleGraphics 7 2 exampleDraw).me.d_x
      = max 0 (3.7 - 0.5 * trueInches 7 12) :=
  ((HyperPage_picture_placement exampleEnv examplePaperTop exampleGraphics 7 2 12 exampleDraw
    (by rw [show examplePaperTop.instancePref_fontSize = 12 from rfl, truncate_twelve]; rfl)).2.2.2.2.2
      rfl).1

/-! ## The direction of the flow -/

theorem truncate_nonneg (q : Rat) (h : 0 ≤ q) : 0 ≤ truncate q :=
  Int.tdiv_nonneg (Rat.num_nonneg.2 h) (Int.ofNat_nonneg _)

theorem truncate_pos (q : Rat) (h : 1 ≤ q) : 0 < truncate q := by
  have hd : (0 : Rat) < q.den := by exact_mod_cast q.den_pos
  have h1 : (q.den : Rat) ≤ q.num := by
    have h2 := Rat.num_div_den q
    rw [← h2] at h
    rwa [le_div_iff₀ hd, one_mul] at h
  have h3 : (q.den : Int) ≤ q.num := by exact_mod_cast h1
  have h4 : (0 : Int) < q.den := by exact_mod_cast q.den_pos
  have h5 : (0 : Int) ≤ q.num := le_trans (le_of_lt h4) h3
  unfold truncate
  rw [Int.tdiv_eq_ediv h5 (le_of_lt h4)]
  exact Int.le_ediv_of_mul_le h4 (by simpa using h3)

theorem truncate_margin_pos (rightMargin : Rat) (h : 1 / 150 ≤ rightMargin) :
    0 < truncate (rightMargin * 150) :=
  truncate_pos _ (by linarith)

/-- The guessed height of a wrapped text is not negative. -/
theorem heightGuess_nonneg (size rightMargin : Rat) (n : Nat) (hsize : 0 ≤ size)
    (hrm : 1 / 150 ≤ rightMargin) :
    0 ≤ size * (1.2 / 72)
      * (Int.tdiv (truncate size * (n : Int)) (truncate (rightMargin * 150)) : Int) := by
  have h1 : (0 : Int) ≤ Int.tdiv (truncate size * (n : Int)) (truncate (rightMargin * 150)) :=
    Int.tdiv_nonneg (mul_nonneg (truncate_nonneg size hsize) (Int.ofNat_nonneg n))
      (le_of_lt (truncate_margin_pos rightMargin hrm))
  have h2 : (0 : Rat)
      ≤ (Int.tdiv (truncate size * (n : Int)) (truncate (rightMargin * 150)) : Int) := by
    exact_mod_cast h1
  have h3 : (0 : Rat) ≤ size * (1.2 / 72) := by
    have : (0 : Rat) ≤ 1.2 / 72 := by norm_num
    exact mul_nonneg hsize this
  exact mul_nonneg h3 h2

/-- The top spacing that is subtracted is not negative. -/
theorem HyperPage_any_topSpacing_nonneg (me : State) (size topSpacing : Rat) (hsize : 0 ≤ size)
    (htop : 0 ≤ topSpacing) : 0 ≤ HyperPage_any_topSpacing me size topSpacing := by
  have h1 : 0 ≤ (if me.previousBottomSpacing > topSpacing then me.previousBottomSpacing
      else topSpacing) * size / 12.0 := by
    have h2 : 0 ≤ (if me.previousBottomSpacing > topSpacing then me.previousBottomSpacing
        else topSpacing) := by
      split
      · exact le_trans htop (le_of_lt (by assumption))
      · exact htop
    have h3 : (0 : Rat) ≤ 12.0 := by norm_num
    exact div_nonneg (mul_nonneg h2 hsize) h3
  unfold HyperPage_any_topSpacing
  simp only
  split
  · exact h1
  · split
    · exact le_refl 0
    · exact h1

theorem lineHeight_nonneg (size : Rat) (hsize : 0 ≤ size) : 0 ≤ size * (1.2 / 72) := by
  have : (0 : Rat) ≤ 1.2 / 72 := by norm_num
  exact mul_nonneg hsize this

theorem flowStep_refl (me : State) : flowStep me me :=
  ⟨rfl, rfl, rfl, le_refl _, Or.inl (le_refl _)⟩

theorem flowStep_trans (a b c : State) (hab : flowStep a b) (hbc : flowStep b c) :
    flowStep a c := by
  obtain ⟨hp1, hr1, hf1, hs1, hd1⟩ := hab
  obtain ⟨hp2, hr2, hf2, hs2, hd2⟩ := hbc
  refine ⟨hp2.trans hp1, hr2.trans hr1, hf2.trans hf1, le_trans hs1 hs2, ?_⟩
  rcases hd1 with h1 | ⟨hpa, hlt1, hy1⟩
  · rcases hd2 with h2 | ⟨hpb, hlt2, hy2⟩
    · exact Or.inl (le_trans h2 h1)
    · exact Or.inr ⟨by rw [← hp1]; exact hpb, lt_of_le_of_lt hs1 hlt2, hy2⟩
  · rcases hd2 with h2 | ⟨_, _, hy2⟩
    · exact Or.inr ⟨hpa, lt_of_lt_of_le hlt1 hs2, le_trans h2 hy1⟩
    · exact Or.inr ⟨hpa, lt_of_lt_of_le hlt1 hs2, hy2⟩

theorem count_text_line (l : List Event) (call : TextCall) (post : List Event)
    (hpost : post.count Event.nextSheetOfPaper = 0) :
    (l ++ Event.text call :: post).count Event.nextSheetOfPaper
      = l.count Event.nextSheetOfPaper := by
  simp [List.count_append, List.count_cons, hpost]

/-- The screen branch of `HyperPage_any` does not move the cursor up and requests no sheet. -/
theorem HyperPage_any_screen_flow (env : Env) (me : State) (heightGuess : Rat) (text : String)
    (font : kGraphics_font) (size : Rat) (style : Int) (x secondIndent topSpacing : Rat)
    (method : Nat) (hsize : 0 ≤ size) (htop : 0 ≤ topSpacing) (hguess : 0 ≤ heightGuess)
    (htext : ∀ call, env.Graphics_inqTextY call ≤ call.y) :
    (HyperPage_any_screen env me heightGuess text font size style x secondIndent topSpacing
        method).d_y ≤ me.d_y
      ∧ (HyperPage_any_screen env me heightGuess text font size style x secondIndent topSpacing
        method).sheetsStarted = me.sheetsStarted := by
  have hl := lineHeight_nonneg size hsize
  have h1 := HyperPage_any_topSpacing_nonneg me size topSpacing hsize htop
  have h2 := HyperPage_any_topSpacing_nonneg { me with entryPosition := me.d_y } size topSpacing
    hsize htop
  unfold HyperPage_any_screen State.sheetsStarted
  simp only
  split <;> split <;> (try split) <;> refine ⟨?_, ?_⟩ <;>
    first
      | (simp only []; linarith)
      | (refine le_trans (htext _) ?_; simp only []; linarith)
      | simp [List.count_append, List.count_cons]

/-- The start of a new sheet puts the cursor at the sheet top, clears the previous bottom
    spacing, and requests one sheet. -/
theorem nextSheetOfPaper_facts (env : Env) (me : State) :
    (nextSheetOfPaper env me).d_y = PAPER_TOP - TOP_MARGIN
      ∧ (nextSheetOfPaper env me).previousBottomSpacing = 0
      ∧ (nextSheetOfPaper env me).printing = me.printing
      ∧ (nextSheetOfPaper env me).rightMargin = me.rightMargin
      ∧ (nextSheetOfPaper env me).instancePref_fontSize = me.instancePref_fontSize
      ∧ (nextSheetOfPaper env me).sheetsStarted = me.sheetsStarted + 1 := by
  refine ⟨rfl, rfl, ?_, ?_, ?_, ?_⟩
  · unfold nextSheetOfPaper; simp only; split <;> rfl
  · unfold nextSheetOfPaper; simp only; split <;> rfl
  · unfold nextSheetOfPaper; simp only; split <;> rfl
  · obtain ⟨evs, he, hc⟩ := nextSheetOfPaper_trace env me
    unfold State.sheetsStarted
    rw [he]
    simp [List.count_append, List.count_cons, hc]

/-- The paper branch of `HyperPage_any` does not move the cursor up, unless it requests a new
    sheet; then the cursor is not above the sheet top. -/
theorem HyperPage_any_paper_flow (env : Env) (me : State) (text : String)
    (font : kGraphics_font) (size : Rat) (style : Int) (minFooterDistance x secondIndent
    topSpacing : Rat) (method : Nat) (hprint : me.printing = true) (hsize : 0 ≤ size)
    (htop : 0 ≤ topSpacing) (htext : ∀ call, env.Graphics_inqTextY call ≤ call.y) :
    me.sheetsStarted ≤ (HyperPage_any_paper env me text font size style minFooterDistance x
        secondIndent topSpacing method).sheetsStarted
      ∧ flowsDown me (HyperPage_any_paper env me text font size style minFooterDistance x
        secondIndent topSpacing method) := by
  have hl := lineHeight_nonneg size hsize
  have h1 := HyperPage_any_topSpacing_nonneg me size topSpacing hsize htop
  have hpost2 : ∀ y : Rat, (if method &&& HyperPage_ADD_BORDER ≠ 0 then
      [Event.line true 3.0 0.7 y 6.7 y] else []).count Event.nextSheetOfPaper = 0 := by
    intro y
    split <;> simp
  rw [HyperPage_any_paper_eq]
  unfold flowsDown State.sheetsStarted
  simp only
  by_cases hlow : me.d_y - HyperPage_any_topSpacing me size topSpacing - size * (1.2 / 72)
      < env.PAPER_BOTTOM + BOTTOM_MARGIN + minFooterDistance
        + size * (1.2 / 72) * (text.length / (6.0 * 10))
  · obtain ⟨hy, -, -, -, -, hs⟩ := nextSheetOfPaper_facts env
      { me with d_y := me.d_y - HyperPage_any_topSpacing me size topSpacing - size * (1.2 / 72) }
    unfold State.sheetsStarted at hs
    simp only [if_pos hlow, count_text_line _ _ _ (hpost2 _), hs]
    refine ⟨Nat.le_succ _, Or.inr ⟨hprint, Nat.lt_succ_self _, ?_⟩⟩
    refine le_trans (htext _) ?_
    simp only [hy]
    linarith
  · simp only [if_neg hlow, count_text_line _ _ _ (hpost2 _)]
    refine ⟨le_refl _, Or.inl ?_⟩
    refine le_trans (htext _) ?_
    simp only []
    linarith

/-- One call of `HyperPage_any`, for a margin of at least 1/150, a size and a top spacing that
    are not negative, and a text service that reports no `y` above the one it was given: the
    call returns, and the cursor has not moved up unless a new sheet was requested. -/
theorem HyperPage_any_flow (env : Env) (me : State) (text : String) (font : kGraphics_font)
    (size : Rat) (style : Int) (minFooterDistance x secondIndent topSpacing bottomSpacing : Rat)
    (method : Nat) (hsize : 0 ≤ size) (htop : 0 ≤ topSpacing) (hrm : 1 / 150 ≤ me.rightMargin)
    (htext : ∀ call, env.Graphics_inqTextY call ≤ call.y) :
    ∃ s1, HyperPage_any env me text font size style minFooterDistance x secondIndent topSpacing
        bottomSpacing method = some s1 ∧ flowStep me s1 := by
  have hdiv : truncate (me.rightMargin * 150) ≠ 0 := ne_of_gt (truncate_margin_pos _ hrm)
  have hrm0 : me.rightMargin ≠ 0 := by
    intro h0
    rw [h0] at hrm
    norm_num at hrm
  cases hp : me.printing with
  | false =>
    have he := HyperPage_any_screen_eq env me text font size style minFooterDistance x
      secondIndent topSpacing bottomSpacing method hp hrm0 hdiv
    obtain ⟨hb, hpr, hr⟩ := HyperPage_any_frame env me _ text font size style minFooterDistance x
      secondIndent topSpacing bottomSpacing method hrm0 he
    have hf := HyperPage_any_prefs env me _ text font size style minFooterDistance x secondIndent
      topSpacing bottomSpacing method he
    obtain ⟨hy, hs⟩ := HyperPage_any_screen_flow env me
      (size * (1.2 / 72)
        * (Int.tdiv (truncate size * (text.length : Int)) (truncate (me.rightMargin * 150)) : Int))
      text font size style x secondIndent topSpacing method hsize htop
      (heightGuess_nonneg size me.rightMargin text.length hsize hrm) htext
    refine ⟨_, he, ?_, hr, hf, ?_, Or.inl hy⟩
    · rw [hpr, hp]
    · exact le_of_eq hs.symm
  | true =>
    have he := HyperPage_any_paper_call env me text font size style minFooterDistance x
      secondIndent topSpacing bottomSpacing method hp hdiv
    obtain ⟨hb, hpr, hr⟩ := HyperPage_any_frame env me _ text font size style minFooterDistance x
      secondIndent topSpacing bottomSpacing method hrm0 he
    have hf := HyperPage_any_prefs env me _ text font size style minFooterDistance x secondIndent
      topSpacing bottomSpacing method he
    obtain ⟨hs, hd⟩ := HyperPage_any_paper_flow env me text font size style minFooterDistance x
      secondIndent topSpacing method hp hsize htop htext
    refine ⟨_, he, ?_, hr, hf, hs, hd⟩
    rw [hpr, hp]

theorem trueInches_ge (inches size : Rat) (hsize : 0 ≤ size) : 0 ≤ trueInches inches size := by
  rcases lt_or_le inches 0 with h | h
  · rw [trueInches_neg inches size h]
    exact abs_nonneg _
  · rw [trueInches_nonneg inches size h]
    exact div_nonneg (mul_nonneg h hsize) (by norm_num)

theorem count_draw (l : List Event) (onPaper : Bool) (x1 x2 y1 y2 : Rat) :
    (l ++ [Event.draw onPaper x1 x2 y1 y2]).count Event.nextSheetOfPaper
      = l.count Event.nextSheetOfPaper := by
  simp [List.count_append, List.count_cons]

theorem count_centredText (l : List Event) (onPaper : Bool) (font : kGraphics_font)
    (size x y : Rat) (text : String) :
    (l ++ [Event.centredText onPaper font size x y text]).count Event.nextSheetOfPaper
      = l.count Event.nextSheetOfPaper := by
  simp [List.count_append, List.count_cons]

/-- The cursor of a picture or script on paper: down by the top spacing and the height, or on a
    new sheet, below the sheet top by the height. -/
theorem HyperPage_picture_paperCursor_flow (env : Env) (me : State) (size h : Rat)
    (hprint : me.printing = true) (hsize : 0 ≤ size) (hh : 0 ≤ h) :
    flowStep me (HyperPage_picture_paperCursor env me size h) := by
  have h1 := HyperPage_any_topSpacing_nonneg me size 0.1 hsize (by norm_num)
  unfold HyperPage_picture_paperCursor
  split
  · obtain ⟨hy, -, hp, hr, hf, hs⟩ := nextSheetOfPaper_facts env
      { me with d_y := me.d_y - HyperPage_any_topSpacing me size 0.1 - h }
    refine ⟨hp, hr, hf, ?_, Or.inr ⟨hprint, ?_, ?_⟩⟩
    · exact le_trans (Nat.le_succ _) (le_of_eq hs.symm)
    · exact lt_of_lt_of_le (Nat.lt_succ_self _) (le_of_eq hs.symm)
    · simp only [hy]
      linarith
  · refine ⟨rfl, rfl, rfl, le_refl _, Or.inl ?_⟩
    simp only []
    linarith

/-- The function `HyperPage_formula` does not move the cursor up, unless it requests a new
    sheet; then the cursor is not above the sheet top. -/
theorem HyperPage_formula_flow (env : Env) (me : State) (formula : String)
    (hfont : 0 ≤ me.instancePref_fontSize) :
    flowStep me (HyperPage_formula env me formula) := by
  have hl := lineHeight_nonneg me.instancePref_fontSize hfont
  have h1 := HyperPage_any_topSpacing_nonneg me me.instancePref_fontSize 0.2 hfont (by norm_num)
  unfold HyperPage_formula
  simp only
  by_cases hp : me.printing = true
  · have hp2 : ¬ ¬ me.printing = true := not_not.2 hp
    simp only [if_neg hp2]
    split
    · obtain ⟨hy, -, hpr, hr, hf, hs⟩ := nextSheetOfPaper_facts env
        { me with d_y := me.d_y - HyperPage_any_topSpacing me me.instancePref_fontSize 0.2
                    - me.instancePref_fontSize * (1.2 / 72) }
      have hc := count_centredText (nextSheetOfPaper env
        { me with d_y := me.d_y - HyperPage_any_topSpacing me me.instancePref_fontSize 0.2
                    - me.instancePref_fontSize * (1.2 / 72) }).trace
      unfold State.sheetsStarted at hs
      refine ⟨hpr, hr, hf, ?_, Or.inr ⟨hp, ?_, ?_⟩⟩
      · unfold State.sheetsStarted
        simp only [hc, hs]
        exact Nat.le_succ _
      · unfold State.sheetsStarted
        simp only [hc, hs]
        exact Nat.lt_succ_self _
      · simp only [hy]
        linarith
    · refine ⟨rfl, rfl, rfl, ?_, Or.inl ?_⟩
      · exact le_of_eq (count_centredText _ _ _ _ _ _ _).symm
      · simp only []
        linarith
  · simp only [if_pos hp]
    split
    · refine ⟨rfl, rfl, rfl, le_refl _, Or.inl ?_⟩
      simp only []
      linarith
    · refine ⟨rfl, rfl, rfl, ?_, Or.inl ?_⟩
      · exact le_of_eq (count_centredText _ _ _ _ _ _ _).symm
      · simp only []
        linarith

theorem flowStep_of_le (a b : State) (hp : b.printing = a.printing)
    (hr : b.rightMargin = a.rightMargin)
    (hf : b.instancePref_fontSize = a.instancePref_fontSize)
    (hs : b.sheetsStarted = a.sheetsStarted) (hy : b.d_y ≤ a.d_y) : flowStep a b :=
  ⟨hp, hr, hf, le_of_eq hs.symm, Or.inl hy⟩

/-- The function `HyperPage_picture` does not move the cursor up, unless it requests a new
    sheet; then the cursor is not above the sheet top.  This holds whether or not the nested
    drawing raises an error. -/
theorem HyperPage_picture_flow (env : Env) (me : State) (g : Graphics)
    (width_inches height_inches : Rat) (draw : Graphics → Drawn)
    (hfont : 0 ≤ me.instancePref_fontSize) :
    flowStep me (HyperPage_picture env me g width_inches height_inches draw).me := by
  have hsize : (0 : Rat) ≤ (truncate me.instancePref_fontSize : Int) := by
    exact_mod_cast truncate_nonneg _ hfont
  have hh := trueInches_ge height_inches _ hsize
  have h1 := HyperPage_any_topSpacing_nonneg me _ 0.1 hsize (by norm_num)
  by_cases hp : me.printing = true
  · rw [HyperPage_picture_onPaper_facts env me g width_inches height_inches _ _ _ _ _ draw
      hp rfl rfl rfl rfl rfl]
    refine flowStep_trans _ _ _ (HyperPage_picture_paperCursor_flow env me _ _ hp hsize hh) ?_
    exact flowStep_of_le _ _ rfl rfl rfl (count_draw _ _ _ _ _ _) (le_refl _)
  · have hs : me.printing = false := by simpa using hp
    by_cases hoff : me.d_y - HyperPage_any_topSpacing me (truncate me.instancePref_fontSize : Int) 0.1
          > PAGE_HEIGHT + trueInches height_inches (truncate me.instancePref_fontSize : Int)
        ∨ me.d_y - HyperPage_any_topSpacing me (truncate me.instancePref_fontSize : Int) 0.1
          < PAGE_HEIGHT - SCREEN_HEIGHT
    · rw [HyperPage_picture_offScreen env me g width_inches height_inches draw hs hoff]
      refine flowStep_of_le _ _ rfl rfl rfl rfl ?_
      simp only []
      linarith
    · rw [HyperPage_picture_onScreen_facts env me g width_inches height_inches _ _ _ _ _ draw
        hs rfl rfl rfl rfl rfl hoff]
      refine flowStep_of_le _ _ rfl rfl rfl (count_draw _ _ _ _ _ _) ?_
      simp only []
      linarith

/-! ## Scripts -/

/-- What the played drawing of a script leaves behind: if it raised an error, the viewer and the
    graphics handle as they were at that moment; otherwise the bottom spacing is stored and the
    handle is the restored one. -/
theorem nestedDrawing_script (me1 : State) (drawn : Drawn) (bottomSpacing : Rat)
    (outer : Graphics) :
    (if drawn.error then some (⟨me1, drawn.g, true⟩ : Emitted)
      else some ⟨{ me1 with previousBottomSpacing := bottomSpacing }, outer, false⟩)
      = some ⟨{ me1 with previousBottomSpacing :=
              if drawn.error then me1.previousBottomSpacing else bottomSpacing },
         if drawn.error then drawn.g else outer, drawn.error⟩ := by
  cases drawn with
  | mk dg de => cases de <;> rfl

/-- The function `HyperPage_script` on the screen when the picture is outside the visibility
    test: nothing is played, the graphics handle is untouched. -/
theorem HyperPage_script_offScreen (env : Env) (dev : Device) (me me1 : State) (g : Graphics)
    (width_inches height_inches : Rat) (script : String)
    (cacheGraphics : Option (Graphics → Drawn)) (cacheInfo : Option String)
    (hinfo : HyperPage_script_cacheInfo env dev me cacheInfo = some me1)
    (hscreen : me1.printing = false)
    (hoff : me1.d_y - HyperPage_any_topSpacing me1 me1.instancePref_fontSize 0.1
          > PAGE_HEIGHT + trueInches height_inches me1.instancePref_fontSize
        ∨ me1.d_y - HyperPage_any_topSpacing me1 me1.instancePref_fontSize 0.1
          < PAGE_HEIGHT - SCREEN_HEIGHT) :
    HyperPage_script env dev me g width_inches height_inches script cacheGraphics cacheInfo
      = some ⟨{ me1 with
            d_y := me1.d_y - HyperPage_any_topSpacing me1 me1.instancePref_fontSize 0.1
              - trueInches height_inches me1.instancePref_fontSize
            previousBottomSpacing := 0.1 }, g, false⟩ := by
  have hnp : ¬ me1.printing = true := by simp [hscreen]
  unfold HyperPage_script
  rw [hinfo]
  simp only [if_pos hnp, if_pos hoff]

/-- The function `HyperPage_script` on the screen when the picture passes the visibility test:
    the cached drawing is played on a handle `inner`; if that raises an error, the viewer and the
    handle are left as they were at that moment; otherwise the bottom spacing is stored and the
    handle is `outer`, with unit viewport and window and the workstation viewport and window of
    before the call. -/
theorem HyperPage_script_onScreen (env : Env) (dev : Device) (me me1 : State) (g : Graphics)
    (width_inches height_inches : Rat) (script : String) (play : Graphics → Drawn)
    (cacheInfo : Option String) (w h x y : Rat)
    (hinfo : HyperPage_script_cacheInfo env dev me cacheInfo = some me1)
    (hscreen : me1.printing = false)
    (hw : w = trueInches width_inches me1.instancePref_fontSize)
    (hh : h = trueInches height_inches me1.instancePref_fontSize)
    (hy : y = me1.d_y - HyperPage_any_topSpacing me1 me1.instancePref_fontSize 0.1 - h)
    (hx : x = if w > me1.rightMargin then 0.0 else 0.5 * (me1.rightMargin - w))
    (hon : ¬ (me1.d_y - HyperPage_any_topSpacing me1 me1.instancePref_fontSize 0.1
          > PAGE_HEIGHT + h
        ∨ me1.d_y - HyperPage_any_topSpacing me1 me1.instancePref_fontSize 0.1
          < PAGE_HEIGHT - SCREEN_HEIGHT)) :
    ∃ inner outer : Graphics,
      HyperPage_script env dev me g width_inches height_inches script (some play) cacheInfo
        = some ⟨{ me1 with
              d_y := y, d_x := x, trace := me1.trace ++ [Event.draw false x (x + w) y (y + h)]
              previousBottomSpacing :=
                if (play inner).error then me1.previousBottomSpacing else 0.1 },
            if (play inner).error then (play inner).g else outer,
            (play inner).error⟩
      ∧ inner.viewport = ⟨0.0, width_inches, 0.0, height_inches⟩
      ∧ inner.window = ⟨0.0, 1.0, 0.0, 1.0⟩
      ∧ inner.wsWindow = ⟨0, width_inches, 0, height_inches⟩
      ∧ outer.viewport = ⟨0.0, 1.0, 0.0, 1.0⟩ ∧ outer.window = ⟨0.0, 1.0, 0.0, 1.0⟩
      ∧ outer.wsViewport = g.wsViewport ∧ outer.wsWindow = g.wsWindow := by
  have hnp : ¬ me1.printing = true := by simp [hscreen]
  subst hw hh hy hx
  unfold HyperPage_script
  rw [hinfo]
  simp only [if_pos hnp, if_neg hon]
  refine ⟨_, _, nestedDrawing_script _ _ _ _, rfl, rfl, rfl, rfl, rfl, rfl, rfl⟩

/-- The function `HyperPage_script` on paper: nothing is played; the cursor moves as for a
    picture, the bottom spacing is stored, and the handle is `outer`, with unit viewport and
    window and the workstation viewport and window of before the call. -/
theorem HyperPage_script_onPaper (env : Env) (dev : Device) (me me1 : State) (g : Graphics)
    (width_inches height_inches : Rat) (script : String)
    (cacheGraphics : Option (Graphics → Drawn)) (cacheInfo : Option String) (w h x : Rat)
    (me2 : State)
    (hinfo : HyperPage_script_cacheInfo env dev me cacheInfo = some me1)
    (hprint : me1.printing = true)
    (hw : w = trueInches width_inches me1.instancePref_fontSize)
    (hh : h = trueInches height_inches me1.instancePref_fontSize)
    (hme2 : me2 = HyperPage_picture_paperCursor env me1 me1.instancePref_fontSize h)
    (hx : x = Melder_clippedLeft 0.0 (3.7 - 0.5 * w)) :
    ∃ outer : Graphics,
      HyperPage_script env dev me g width_inches height_inches script cacheGraphics cacheInfo
        = some ⟨{ me2 with d_x := x, previousBottomSpacing := 0.1 }, outer, false⟩
      ∧ outer.viewport = ⟨0.0, 1.0, 0.0, 1.0⟩ ∧ outer.window = ⟨0.0, 1.0, 0.0, 1.0⟩
      ∧ outer.wsViewport = g.wsViewport ∧ outer.wsWindow = g.wsWindow := by
  have hp : ¬ ¬ me1.printing = true := by simp [hprint]
  subst hw hh hme2 hx
  unfold HyperPage_script HyperPage_picture_paperCursor
  rw [hinfo]
  simp only [if_neg hp]
  split <;> exact ⟨_, rfl, rfl, rfl, rfl, rfl⟩

/-- The lines of the cache info are emitted one after the other: the loop returns, and the
    cursor has not moved up unless a new sheet was requested. -/
theorem HyperPage_script_cacheLines_flow (env : Env) (dev : Device)
    (htext : ∀ call, env.Graphics_inqTextY call ≤ call.y) (chars : List Char) :
    ∀ (buffer : String) (me : State), 0 ≤ me.instancePref_fontSize → 1 / 150 ≤ me.rightMargin →
      ∃ s1, HyperPage_script_cacheLines env dev chars buffer me = some s1 ∧ flowStep me s1 := by
  induction chars with
  | nil =>
    intro buffer me _ _
    exact ⟨me, rfl, flowStep_refl me⟩
  | cons p rest ih =>
    intro buffer me hfont hrm
    by_cases hend : dev.Melder_isEndOfLine p = true
    · have hsize : 0 ≤ me.instancePref_fontSize * 0.86 := mul_nonneg hfont (by norm_num)
      obtain ⟨s1, h1, hf1⟩ := HyperPage_any_flow env me
        (if buffer.contains '\t' then "\t" ++ buffer else buffer) kGraphics_font_COURIER
        (me.instancePref_fontSize * 0.86) 0 0.0 0.3 0.5 0.0 0.0 HyperPage_EXECUTABLE hsize
        (by norm_num) hrm htext
      obtain ⟨s2, h2, hf2⟩ := ih "" s1 (by rw [hf1.2.2.1]; exact hfont) (by rw [hf1.2.1]; exact hrm)
      refine ⟨s2, ?_, flowStep_trans _ _ _ hf1 hf2⟩
      unfold HyperPage_script_cacheLines
      rw [if_pos hend]
      unfold HyperPage_code
      rw [h1]
      exact h2
    · obtain ⟨s2, h2, hf2⟩ := ih (buffer.push p) me hfont hrm
      refine ⟨s2, ?_, hf2⟩
      unfold HyperPage_script_cacheLines
      rw [if_neg hend]
      exact h2

/-- The first part of `HyperPage_script` returns, and the cursor has not moved up unless a new
    sheet was requested. -/
theorem HyperPage_script_cacheInfo_flow (env : Env) (dev : Device) (me : State)
    (cacheInfo : Option String) (htext : ∀ call, env.Graphics_inqTextY call ≤ call.y)
    (hfont : 0 ≤ me.instancePref_fontSize) (hrm : 1 / 150 ≤ me.rightMargin) :
    ∃ me1, HyperPage_script_cacheInfo env dev me cacheInfo = some me1 ∧ flowStep me me1 := by
  unfold HyperPage_script_cacheInfo
  cases cacheInfo with
  | none => exact ⟨me, rfl, flowStep_refl me⟩
  | some info =>
    simp only
    by_cases hempty : info = ""
    · rw [if_pos hempty]
      exact ⟨me, rfl, flowStep_refl me⟩
    · rw [if_neg hempty]
      have hsize : 0 ≤ me.instancePref_fontSize * 0.86 := mul_nonneg hfont (by norm_num)
      obtain ⟨s1, h1, hf1⟩ := HyperPage_any_flow env me "\\#\x7b=>\x7d" kGraphics_font_COURIER
        (me.instancePref_fontSize * 0.86) 0 0.0 0.0 0.5 0.0 0.0 0 hsize (by norm_num) hrm htext
      obtain ⟨s2, h2, hf2⟩ := HyperPage_script_cacheLines_flow env dev htext info.toList "" s1
        (by rw [hf1.2.2.1]; exact hfont) (by rw [hf1.2.1]; exact hrm)
      refine ⟨s2, ?_, flowStep_trans _ _ _ hf1 hf2⟩
      unfold HyperPage_code0
      rw [h1]
      exact h2

/-- The function `HyperPage_script`, given a cached drawing: it returns, and the cursor has not
    moved up unless a new sheet was requested.  This holds whether or not the played drawing
    raises an error. -/
theorem HyperPage_script_flow (env : Env) (dev : Device) (me : State) (g : Graphics)
    (width_inches height_inches : Rat) (script : String) (play : Graphics → Drawn)
    (cacheInfo : Option String) (htext : ∀ call, env.Graphics_inqTextY call ≤ call.y)
    (hfont : 0 ≤ me.instancePref_fontSize) (hrm : 1 / 150 ≤ me.rightMargin) :
    ∃ r, HyperPage_script env dev me g width_inches height_inches script (some play) cacheInfo
        = some r ∧ flowStep me r.me := by
  obtain ⟨me1, hinfo, hf1⟩ := HyperPage_script_cacheInfo_flow env dev me cacheInfo htext hfont hrm
  have hfont1 : 0 ≤ me1.instancePref_fontSize := by rw [hf1.2.2.1]; exact hfont
  have hh := trueInches_ge height_inches _ hfont1
  have h1 := HyperPage_any_topSpacing_nonneg me1 _ 0.1 hfont1 (by norm_num)
  by_cases hp : me1.printing = true
  · obtain ⟨outer, he, -⟩ := HyperPage_script_onPaper env dev me me1 g width_inches height_inches
      script (some play) cacheInfo _ _ _ _ hinfo hp rfl rfl rfl rfl
    refine ⟨_, he, flowStep_trans _ _ _ hf1 ?_⟩
    refine flowStep_trans _ _ _
      (HyperPage_picture_paperCursor_flow env me1 _ _ hp hfont1 hh) ?_
    exact flowStep_of_le _ _ rfl rfl rfl rfl (le_refl _)
  · have hs : me1.printing = false := by simpa using hp
    by_cases hoff : me1.d_y - HyperPage_any_topSpacing me1 me1.instancePref_fontSize 0.1
          > PAGE_HEIGHT + trueInches height_inches me1.instancePref_fontSize
        ∨ me1.d_y - HyperPage_any_topSpacing me1 me1.instancePref_fontSize 0.1
          < PAGE_HEIGHT - SCREEN_HEIGHT
    · refine ⟨_, HyperPage_script_offScreen env dev me me1 g width_inches height_inches script
        (some play) cacheInfo hinfo hs hoff, flowStep_trans _ _ _ hf1 ?_⟩
      refine flowStep_of_le _ _ rfl rfl rfl rfl ?_
      simp only []
      linarith
    · obtain ⟨inner, outer, he, -⟩ := HyperPage_script_onScreen env dev me me1 g width_inches
        height_inches script play cacheInfo _ _ _ _ hinfo hs rfl rfl rfl rfl hoff
      refine ⟨_, he, flowStep_trans _ _ _ hf1 ?_⟩
      refine flowStep_of_le _ _ rfl rfl rfl (count_draw _ _ _ _ _ _) ?_
      simp only []
      linarith

/-! ## The cursor never moves up -/

/-- C17: for every content-emitting call (`HyperPage_any`, `HyperPage_formula`,
    `HyperPage_picture`, `HyperPage_script`) with positive font size, non-negative top spacing,
    `rightMargin >= 1/150` and a text service that never reports a `y` above the one it was
    given, the call returns and `y` after the call is at most `y` before the call, except in a
    print-mode call that starts a new sheet, where `y` is at most the sheet top
    `PAPER_TOP - TOP_MARGIN = 11.2`.  The bottom spacing plays no part. -/
theorem d_y_never_increases (env : Env) (dev : Device) (me : State) (g : Graphics)
    (text : String) (font : kGraphics_font) (size : Rat) (style : Int)
    (minFooterDistance x secondIndent topSpacing bottomSpacing : Rat) (method : Nat)
    (formula : String) (width_inches height_inches : Rat) (draw : Graphics → Drawn)
    (script : String) (play : Graphics → Drawn) (cacheInfo : Option String)
    (hsize : 0 < size) (hfont : 0 < me.instancePref_fontSize) (htop : 0 ≤ topSpacing)
    (hrm : 1 / 150 ≤ me.rightMargin)
    (htext : ∀ call, env.Graphics_inqTextY call ≤ call.y) :
    (∃ s1, HyperPage_any env me text font size style minFooterDistance x secondIndent topSpacing
        bottomSpacing method = some s1 ∧ flowsDown me s1)
      ∧ flowsDown me (HyperPage_formula env me formula)
      ∧ flowsDown me (HyperPage_picture env me g width_inches height_inches draw).me
      ∧ (∃ r, HyperPage_script env dev me g width_inches height_inches script (some play)
          cacheInfo = some r ∧ flowsDown me r.me)
      ∧ PAPER_TOP - TOP_MARGIN = 11.2 := by
  obtain ⟨s1, h1, hf1⟩ := HyperPage_any_flow env me text font size style minFooterDistance x
    secondIndent topSpacing bottomSpacing method (le_of_lt hsize) htop hrm htext
  obtain ⟨r, h2, hf2⟩ := HyperPage_script_flow env dev me g width_inches height_inches script
    play cacheInfo htext (le_of_lt hfont) hrm
  refine ⟨⟨s1, h1, hf1.2.2.2.2⟩, (HyperPage_formula_flow env me formula (le_of_lt hfont)).2.2.2.2,
    (HyperPage_picture_flow env me g width_inches height_inches draw (le_of_lt hfont)).2.2.2.2,
    ⟨r, h2, hf2.2.2.2.2⟩, ?_⟩
  norm_num [PAPER_TOP, TOP_MARGIN]

theorem d_y_never_increases_witness :
    flowsDown examplePaperTop
      (HyperPage_picture exampleEnv examplePaperTop exampleGraphics 7 2 exampleFailingDraw).me :=
  (d_y_never_increases exampleEnv exampleDevice examplePaperTop exampleGraphics "Some text." 0 12
    0 0.0 0.03 0.0 0.1 0.1 0 "x = 1" 7 2 exampleFailingDraw "Draw line: 0, 0, 1, 1" exampleDraw
    (some "line 1\n") (by norm_num) (by norm_num [examplePaperTop, State.empty]) (by norm_num)
    (by norm_num [examplePaperTop, State.empty]) (fun _ => le_refl _)).2.2.1

/-! ## The range of the scroll offset -/

theorem Melder_clippedLeft_range (value : Rat) (h : value ≤ PAGE_HEIGHT * 5 - 25) :
    0 ≤ Melder_clippedLeft 0.0 value ∧ Melder_clippedLeft 0.0 value ≤ PAGE_HEIGHT * 5 - 25 := by
  have z : (0.0 : Rat) = 0 := by norm_num
  have hmax : (0 : Rat) ≤ PAGE_HEIGHT * 5 - 25 := by norm_num [PAGE_HEIGHT]
  rw [Melder_clippedLeft_eq_max, z]
  exact ⟨le_max_left _ _, max_le hmax h⟩

theorem Melder_clippedRight_range (value : Rat) (h : 0 ≤ value) :
    0 ≤ Melder_clippedRight value (PAGE_HEIGHT * 5.0 - 25.0)
      ∧ Melder_clippedRight value (PAGE_HEIGHT * 5.0 - 25.0) ≤ PAGE_HEIGHT * 5 - 25 := by
  have hmax : (0 : Rat) ≤ PAGE_HEIGHT * 5 - 25 := by norm_num [PAGE_HEIGHT]
  have he : PAGE_HEIGHT * 5.0 - 25.0 = PAGE_HEIGHT * 5 - 25 := by norm_num
  unfold Melder_clippedRight
  rw [he]
  split
  · exact ⟨hmax, le_refl _⟩
  · exact ⟨h, not_lt.1 (by assumption)⟩

/-- The scroll offset after every operation that assigns it, other than the jump to an entry:
    given a scroll bar that reports values in `[0, PAGE_HEIGHT * 5 - 25]`, a scroll offset in
    that range and stored offsets in that range, the scroll offset stays in that range. -/
theorem top_in_range_without_entry_jump (env : Env) (me : State) (value : Rat)
    (verticalScrollBar : Option Rat) (pageTitle : String)
    (v_goToPage_number : Int → Option String) (optionalPageNumber : Int)
    (htop : me.topInRange)
    (hvalue : 0 ≤ value ∧ value ≤ PAGE_HEIGHT * 5 - 25)
    (hbar : ∀ v, verticalScrollBar = some v → 0 ≤ v ∧ v ≤ PAGE_HEIGHT * 5 - 25)
    (hhist : ∀ i, 0 ≤ (me.slot i).top ∧ (me.slot i).top ≤ PAGE_HEIGHT * 5 - 25) :
    (gui_cb_verticalScroll me value).topInRange
      ∧ (menu_cb_pageUp me verticalScrollBar).topInRange
      ∧ (menu_cb_pageDown me verticalScrollBar).topInRange
      ∧ (HyperPage_goToPage env me pageTitle).2.topInRange
      ∧ (∀ s, HyperPage_goToPage_number v_goToPage_number me optionalPageNumber = some s →
          s.topInRange)
      ∧ (∀ s, do_back env me = some s → s.topInRange)
      ∧ (∀ s, do_forth env me = some s → s.topInRange) := by
  have hzero : (0 : Rat) ≤ (0.0 : Rat) ∧ (0.0 : Rat) ≤ PAGE_HEIGHT * 5 - 25 := by
    norm_num [PAGE_HEIGHT]
  refine ⟨?_, ?_, ?_, ?_, ?_, ?_, ?_⟩
  · unfold gui_cb_verticalScroll
    split
    · exact hvalue
    · exact htop
  · unfold menu_cb_pageUp
    cases verticalScrollBar with
    | none => exact htop
    | some v =>
      simp only
      split
      · exact Melder_clippedLeft_range _ (by linarith [(hbar v rfl).2])
      · exact htop
  · unfold menu_cb_pageDown
    cases verticalScrollBar with
    | none => exact htop
    | some v =>
      simp only
      split
      · exact Melder_clippedRight_range _ (by linarith [(hbar v rfl).1])
      · exact htop
  · unfold HyperPage_goToPage
    simp only
    split
    · exact htop
    · split
      · exact htop
      · exact hzero
  · intro s hs
    unfold HyperPage_goToPage_number at hs
    simp only at hs
    split at hs
    · exact absurd hs (by simp)
    · simp only [Option.some.injEq] at hs
      rw [← hs]
      exact hzero
  · intro s hs
    unfold do_back at hs
    split at hs
    · simp only [Option.some.injEq] at hs
      rw [← hs]
      exact htop
    · simp only at hs
      split at hs
      · exact absurd hs (by simp)
      · split at hs
        · simp only [Option.some.injEq] at hs
          rw [← hs]
          exact hhist _
        · simp only [Option.some.injEq] at hs
          rw [← hs]
          exact htop
  · intro s hs
    unfold do_forth at hs
    split at hs
    · simp only [Option.some.injEq] at hs
      rw [← hs]
      exact htop
    · simp only at hs
      split at hs
      · exact absurd hs (by simp)
      · split at hs
        · simp only [Option.some.injEq] at hs
          rw [← hs]
          exact hhist _
        · simp only [Option.some.injEq] at hs
          rw [← hs]
          exact htop

/-- The screen branch of `HyperPage_any` records the position of the entry that is looked for,
    also when the entry is below the visible part of the page. -/
theorem HyperPage_any_screen_entry (env : Env) (me : State) (heightGuess : Rat) (text : String)
    (font : kGraphics_font) (size : Rat) (style : Int) (x secondIndent topSpacing : Rat)
    (method : Nat) (hhint : me.entryHint = some text)
    (hmethod : method &&& HyperPage_USE_ENTRY_HINT ≠ 0) :
    (HyperPage_any_screen env me heightGuess text font size style x secondIndent topSpacing
        method).entryPosition = me.d_y
      ∧ (HyperPage_any_screen env me heightGuess text font size style x secondIndent topSpacing
        method).entryHint = some text
      ∧ (HyperPage_any_screen env me heightGuess text font size style x secondIndent topSpacing
        method).graphics = me.graphics := by
  have hc : me.entryHint.isSome ∧ method &&& HyperPage_USE_ENTRY_HINT ≠ 0
      ∧ me.entryHint = some text := ⟨by rw [hhint]; rfl, hmethod, hhint⟩
  unfold HyperPage_any_screen
  simp only [if_pos hc]
  split <;> (try split) <;> exact ⟨rfl, hhint, rfl⟩

/-- The jump of `gui_drawingarea_cb_expose` to a recorded entry position: the scroll offset
    becomes `5 * (PAGE_HEIGHT - entryPosition)`, clipped at 0 only. -/
theorem gui_drawingarea_cb_expose_begin_jump (me : State) (hg : me.graphics = true)
    (hhint : me.entryHint.isSome) (hpos : me.entryPosition ≠ 0) :
    ∃ s, gui_drawingarea_cb_expose_begin me = some s
      ∧ s.top = max 0 (5 * (PAGE_HEIGHT - me.entryPosition)) := by
  have z : (0.0 : Rat) = 0 := by norm_num
  have h5 : (5.0 : Rat) = 5 := by norm_num
  have hng : ¬ ¬ me.graphics = true := not_not.2 hg
  have hc : me.entryHint.isSome = true ∧ me.entryPosition ≠ 0.0 := ⟨hhint, by rw [z]; exact hpos⟩
  unfold gui_drawingarea_cb_expose_begin
  rw [if_neg hng]
  simp only [if_pos hc]
  exact ⟨_, rfl, by simp only [Melder_clippedLeft_eq_max, z, h5]⟩

/-- C18 fails for an entry near the bottom of the page: in a render pass that started with
    `top = 0`, `HyperPage_any` records the entry position `y = 2` (318 inches below the top of
    the page); the next `gui_drawingarea_cb_expose` jumps to `top = 5 * (320 - 2) = 1590`, which
    is above `PAGE_HEIGHT * 5 - 25 = 1575`. -/
theorem gui_drawingarea_cb_expose_entry_jump :
    exampleEntryCursor.topInRange
      ∧ ∃ s1 s2, HyperPage_any exampleEnv exampleEntryCursor "entry" 0 12 0 0.0 0.03 0.0 0.1 0.1
            HyperPage_USE_ENTRY_HINT = some s1
          ∧ s1.entryPosition = 2
          ∧ gui_drawingarea_cb_expose_begin s1 = some s2
          ∧ s2.top = 1590 ∧ ¬ s2.topInRange := by
  have hdiv : truncate (exampleEntryCursor.rightMargin * 150) ≠ 0 := by
    norm_num [truncate, exampleEntryCursor, State.empty]
  have hrm : exampleEntryCursor.rightMargin ≠ 0 := by
    norm_num [exampleEntryCursor, State.empty]
  have he := HyperPage_any_screen_eq exampleEnv exampleEntryCursor "entry" 0 12 0 0.0 0.03 0.0
    0.1 0.1 HyperPage_USE_ENTRY_HINT rfl hrm hdiv
  obtain ⟨hpos, hhint, hg⟩ := HyperPage_any_screen_entry exampleEnv exampleEntryCursor
    (12 * (1.2 / 72) * (Int.tdiv (truncate 12 * ("entry".length : Int))
      (truncate (exampleEntryCursor.rightMargin * 150)) : Int))
    "entry" 0 12 0 0.03 0.0 0.1 HyperPage_USE_ENTRY_HINT rfl (by decide)
  obtain ⟨s1, hs1⟩ : ∃ s1 : State, s1 = { HyperPage_any_screen exampleEnv exampleEntryCursor
      (12 * (1.2 / 72) * (Int.tdiv (truncate 12 * ("entry".length : Int))
        (truncate (exampleEntryCursor.rightMargin * 150)) : Int))
      "entry" 0 12 0 0.03 0.0 0.1 HyperPage_USE_ENTRY_HINT with
      previousBottomSpacing := 0.1 } := ⟨_, rfl⟩
  rw [← hs1] at he
  have hpos1 : s1.entryPosition = 2 := by rw [hs1]; exact hpos
  have hhint1 : s1.entryHint = some "entry" := by rw [hs1]; exact hhint
  have hg1 : s1.graphics = true := by rw [hs1]; exact hg
  obtain ⟨s2, hs2, ht⟩ := gui_drawingarea_cb_expose_begin_jump s1 hg1 (by rw [hhint1]; rfl)
    (by rw [hpos1]; norm_num)
  have ht2 : s2.top = 1590 := by
    rw [ht, hpos1]
    norm_num [PAGE_HEIGHT]
  refine ⟨by norm_num [State.topInRange, exampleEntryCursor, State.empty, PAGE_HEIGHT],
    s1, s2, he, hpos1, hs2, ht2, ?_⟩
  unfold State.topInRange
  rw [ht2]
  norm_num [PAGE_HEIGHT]

/-! ## The transform after a picture or a script -/

theorem HyperPage_any_returns_frame (env : Env) (me : State) (text : String)
    (font : kGraphics_font) (size : Rat) (style : Int)
    (minFooterDistance x secondIndent topSpacing bottomSpacing : Rat) (method : Nat)
    (hm : me.rightMargin = 0 ∨ truncate (me.rightMargin * 150) ≠ 0) :
    ∃ s1, HyperPage_any env me text font size style minFooterDistance x secondIndent topSpacing
        bottomSpacing method = some s1
      ∧ s1.printing = me.printing ∧ s1.rightMargin = me.rightMargin := by
  by_cases hrm : me.rightMargin = 0
  · refine ⟨me, ?_, rfl, rfl⟩
    unfold HyperPage_any
    rw [if_pos hrm]
  · have hdiv : truncate (me.rightMargin * 150) ≠ 0 := hm.resolve_left hrm
    obtain ⟨s1, h1⟩ := HyperPage_any_returns env me text font size style minFooterDistance x
      secondIndent topSpacing bottomSpacing method hdiv
    obtain ⟨-, hp, hr⟩ := HyperPage_any_frame env me s1 text font size style minFooterDistance x
      secondIndent topSpacing bottomSpacing method hrm h1
    exact ⟨s1, h1, hp, hr⟩

theorem HyperPage_script_cacheLines_returns (env : Env) (dev : Device) (chars : List Char) :
    ∀ (buffer : String) (me : State),
      me.rightMargin = 0 ∨ truncate (me.rightMargin * 150) ≠ 0 →
      ∃ s1, HyperPage_script_cacheLines env dev chars buffer me = some s1
        ∧ s1.printing = me.printing ∧ s1.rightMargin = me.rightMargin := by
  induction chars with
  | nil =>
    intro buffer me _
    exact ⟨me, rfl, rfl, rfl⟩
  | cons p rest ih =>
    intro buffer me hm
    by_cases hend : dev.Melder_isEndOfLine p = true
    · obtain ⟨s1, h1, hp1, hr1⟩ := HyperPage_any_returns_frame env me
        (if buffer.contains '\t' then "\t" ++ buffer else buffer) kGraphics_font_COURIER
        (me.instancePref_fontSize * 0.86) 0 0.0 0.3 0.5 0.0 0.0 HyperPage_EXECUTABLE hm
      obtain ⟨s2, h2, hp2, hr2⟩ := ih "" s1 (by rw [hr1]; exact hm)
      refine ⟨s2, ?_, hp2.trans hp1, hr2.trans hr1⟩
      unfold HyperPage_script_cacheLines
      rw [if_pos hend]
      unfold HyperPage_code
      rw [h1]
      exact h2
    · obtain ⟨s2, h2, hp2, hr2⟩ := ih (buffer.push p) me hm
      refine ⟨s2, ?_, hp2, hr2⟩
      unfold HyperPage_script_cacheLines
      rw [if_neg hend]
      exact h2

/-- The first part of `HyperPage_script` returns for every margin that is 0 or that the height
    estimate can divide by, and leaves the mode as it was. -/
theorem HyperPage_script_cacheInfo_returns (env : Env) (dev : Device) (me : State)
    (cacheInfo : Option String)
    (hm : me.rightMargin = 0 ∨ truncate (me.rightMargin * 150) ≠ 0) :
    ∃ me1, HyperPage_script_cacheInfo env dev me cacheInfo = some me1
      ∧ me1.printing = me.printing := by
  unfold HyperPage_script_cacheInfo
  cases cacheInfo with
  | none => exact ⟨me, rfl, rfl⟩
  | some info =>
    simp only
    by_cases hempty : info = ""
    · rw [if_pos hempty]
      exact ⟨me, rfl, rfl⟩
    · rw [if_neg hempty]
      obtain ⟨s1, h1, hp1, hr1⟩ := HyperPage_any_returns_frame env me "\\#\x7b=>\x7d"
        kGraphics_font_COURIER (me.instancePref_fontSize * 0.86) 0 0.0 0.0 0.5 0.0 0.0 0 hm
      obtain ⟨s2, h2, hp2, -⟩ := HyperPage_script_cacheLines_returns env dev info.toList "" s1
        (by rw [hr1]; exact hm)
      refine ⟨s2, ?_, hp2.trans hp1⟩
      unfold HyperPage_code0
      rw [h1]
      exact h2

theorem unitRect : (⟨0.0, 1.0, 0.0, 1.0⟩ : Rect) = ⟨0, 1, 0, 1⟩ := by
  norm_num

/-- C15, as stated, fails.  On the screen, a picture whose draw callback sets the workstation
    window returns with that workstation window, not the one of before the call; and a picture
    or a script drawn on a handle whose viewport is `(1, 2, 1, 2)` returns with the viewport
    `(0, 1, 0, 1)`. -/
theorem transform_restored_counterexample :
    (HyperPage_picture exampleEnv exampleScreenTop exampleGraphics 2 2 exampleZoomingDraw).error
        = false
      ∧ (HyperPage_picture exampleEnv exampleScreenTop exampleGraphics 2 2
          exampleZoomingDraw).g.wsWindow ≠ exampleGraphics.wsWindow
      ∧ (HyperPage_picture exampleEnv exampleScreenTop exampleShiftedGraphics 2 2
          exampleDraw).error = false
      ∧ (HyperPage_picture exampleEnv exampleScreenTop exampleShiftedGraphics 2 2
          exampleDraw).g.viewport ≠ exampleShiftedGraphics.viewport
      ∧ ∃ r, HyperPage_script exampleEnv exampleDevice exampleScreenTop exampleShiftedGraphics
            2 2 "Draw line: 0, 0, 1, 1" (some exampleDraw) none = some r
          ∧ r.error = false ∧ r.g.viewport ≠ exampleShiftedGraphics.viewport := by
  have hs : truncate exampleScreenTop.instancePref_fontSize = 12 := truncate_twelve
  have hon : ¬ (exampleScreenTop.d_y - HyperPage_any_topSpacing exampleScreenTop
          (truncate exampleScreenTop.instancePref_fontSize : Int) 0.1
        > PAGE_HEIGHT + trueInches 2 (truncate exampleScreenTop.instancePref_fontSize : Int)
      ∨ exampleScreenTop.d_y - HyperPage_any_topSpacing exampleScreenTop
          (truncate exampleScreenTop.instancePref_fontSize : Int) 0.1
        < PAGE_HEIGHT - SCREEN_HEIGHT) := by
    rw [hs]
    norm_num [HyperPage_any_topSpacing, exampleScreenTop, State.empty, trueInches, PAGE_HEIGHT,
      SCREEN_HEIGHT]
  have hon2 : ¬ (exampleScreenTop.d_y - HyperPage_any_topSpacing exampleScreenTop
          exampleScreenTop.instancePref_fontSize 0.1
        > PAGE_HEIGHT + trueInches 2 exampleScreenTop.instancePref_fontSize
      ∨ exampleScreenTop.d_y - HyperPage_any_topSpacing exampleScreenTop
          exampleScreenTop.instancePref_fontSize 0.1
        < PAGE_HEIGHT - SCREEN_HEIGHT) := by
    norm_num [HyperPage_any_topSpacing, exampleScreenTop, State.empty, trueInches, PAGE_HEIGHT,
      SCREEN_HEIGHT]
  have hv : (⟨0.0, 1.0, 0.0, 1.0⟩ : Rect) ≠ ⟨1, 2, 1, 2⟩ := by
    intro h
    have h1 := congrArg Rect.x1 h
    norm_num at h1
  have hw : (⟨0, 1, 0, 1⟩ : Rect) ≠ ⟨0, 7.6, 314, 320⟩ := by
    intro h
    have h1 := congrArg Rect.y1 h
    norm_num at h1
  obtain ⟨inner, outer, he, -, -, -, hov, -⟩ := HyperPage_script_onScreen exampleEnv exampleDevice
    exampleScreenTop exampleScreenTop exampleShiftedGraphics 2 2 "Draw line: 0, 0, 1, 1"
    exampleDraw none _ _ _ _ rfl rfl rfl rfl rfl rfl hon2
  refine ⟨?_, ?_, ?_, ?_, _, he, rfl, ?_⟩
  · rw [HyperPage_picture_onScreen_facts exampleEnv exampleScreenTop exampleGraphics 2 2 _ _ _ _ _
      exampleZoomingDraw rfl rfl rfl rfl rfl rfl hon]
    rfl
  · rw [HyperPage_picture_onScreen_facts exampleEnv exampleScreenTop exampleGraphics 2 2 _ _ _ _ _
      exampleZoomingDraw rfl rfl rfl rfl rfl rfl hon]
    exact hw
  · rw [HyperPage_picture_onScreen_facts exampleEnv exampleScreenTop exampleShiftedGraphics 2 2
      _ _ _ _ _ exampleDraw rfl rfl rfl rfl rfl rfl hon]
    rfl
  · rw [HyperPage_picture_onScreen_facts exampleEnv exampleScreenTop exampleShiftedGraphics 2 2
      _ _ _ _ _ exampleDraw rfl rfl rfl rfl rfl rfl hon]
    exact hv
  · show outer.viewport ≠ _
    rw [hov]
    exact hv

/-- C15, amended: after `HyperPage_picture` or `HyperPage_script` has drawn (in print mode, and
    in screen mode when the fragment passes the visibility test) and returns without an error,
    the viewport and the window of the graphics handle are the unit square `(0, 1, 0, 1)`,
    whatever they were before the call; `HyperPage_script` has put the workstation viewport and
    the workstation window back to their values of before the call, and `HyperPage_picture`
    leaves them as the draw callback left them.  In screen mode when the fragment fails the
    visibility test, the handle is untouched.  The script is given a cached drawing, and returns
    for every margin that is 0 or that the height estimate can divide by. -/
theorem transform_after_picture_and_script (env : Env) (dev : Device) (me : State)
    (g : Graphics) (width_inches height_inches : Rat) (draw : Graphics → Drawn)
    (script : String) (play : Graphics → Drawn) (cacheInfo : Option String)
    (hm : me.rightMargin = 0 ∨ truncate (me.rightMargin * 150) ≠ 0) :
    (me.printing = false →
        me.skipsPicture (truncate me.instancePref_fontSize : Int)
          (trueInches height_inches (truncate me.instancePref_fontSize : Int)) →
        (HyperPage_picture env me g width_inches height_inches draw).g = g
          ∧ (HyperPage_picture env me g width_inches height_inches draw).error = false)
      ∧ (me.printing = true
          ∨ ¬ me.skipsPicture (truncate me.instancePref_fontSize : Int)
              (trueInches height_inches (truncate me.instancePref_fontSize : Int)) →
        ∃ inner,
          (HyperPage_picture env me g width_inches height_inches draw).error = (draw inner).error
          ∧ ((draw inner).error = false →
            (HyperPage_picture env me g width_inches height_inches draw).g.unitTransform
            ∧ (HyperPage_picture env me g width_inches height_inches draw).g.wsViewport
                = (draw inner).g.wsViewport
            ∧ (HyperPage_picture env me g width_inches height_inches draw).g.wsWindow
                = (draw inner).g.wsWindow))
      ∧ ∃ me1 r, HyperPage_script_cacheInfo env dev me cacheInfo = some me1
          ∧ HyperPage_script env dev me g width_inches height_inches script (some play) cacheInfo
              = some r
          ∧ (me.printing = false →
              me1.skipsPicture me1.instancePref_fontSize
                (trueInches height_inches me1.instancePref_fontSize) →
              r.g = g ∧ r.error = false)
          ∧ (me.printing = true ∨
              ¬ me1.skipsPicture me1.instancePref_fontSize
                (trueInches height_inches me1.instancePref_fontSize) →
              r.error = false →
              r.g.unitTransform ∧ r.g.wsViewport = g.wsViewport ∧ r.g.wsWindow = g.wsWindow)
          ∧ (me.printing = true → r.error = false) := by
  refine ⟨?_, ?_, ?_⟩
  · intro hscreen hskip
    rw [HyperPage_picture_offScreen env me g width_inches height_inches draw hscreen hskip]
    exact ⟨rfl, rfl⟩
  · intro hdrawn
    by_cases hp : me.printing = true
    · rw [HyperPage_picture_onPaper_facts env me g width_inches height_inches _ _ _ _ _ draw
        hp rfl rfl rfl rfl rfl]
      refine ⟨_, rfl, ?_⟩
      intro herr
      simp only [herr]
      exact ⟨⟨unitRect, unitRect⟩, rfl, rfl⟩
    · have hs : me.printing = false := by simpa using hp
      have hon := hdrawn.resolve_left hp
      rw [HyperPage_picture_onScreen_facts env me g width_inches height_inches _ _ _ _ _ draw
        hs rfl rfl rfl rfl rfl hon]
      refine ⟨_, rfl, ?_⟩
      intro herr
      simp only [herr]
      exact ⟨⟨unitRect, unitRect⟩, rfl, rfl⟩
  · obtain ⟨me1, hinfo, hp1⟩ := HyperPage_script_cacheInfo_returns env dev me cacheInfo hm
    by_cases hp : me.printing = true
    · obtain ⟨outer, he, hv, hw, hwv, hww⟩ := HyperPage_script_onPaper env dev me me1 g
        width_inches height_inches script (some play) cacheInfo _ _ _ _ hinfo (hp1.trans hp)
        rfl rfl rfl rfl
      refine ⟨me1, _, hinfo, he, ?_, ?_, ?_⟩
      · intro hscreen
        rw [hp] at hscreen
        exact absurd hscreen (by simp)
      · intro _ _
        exact ⟨⟨hv.trans unitRect, hw.trans unitRect⟩, hwv, hww⟩
      · intro _
        rfl
    · have hs : me.printing = false := by simpa using hp
      by_cases hskip : me1.skipsPicture me1.instancePref_fontSize
          (trueInches height_inches me1.instancePref_fontSize)
      · refine ⟨me1, _, hinfo, HyperPage_script_offScreen env dev me me1 g width_inches
          height_inches script (some play) cacheInfo hinfo (hp1.trans hs) hskip, ?_, ?_, ?_⟩
        · intro _ _
          exact ⟨rfl, rfl⟩
        · intro hdrawn
          exact absurd hskip (hdrawn.resolve_left hp)
        · intro hprint
          exact absurd hprint hp
      · obtain ⟨inner, outer, he, -, -, -, hv, hw, hwv, hww⟩ := HyperPage_script_onScreen env dev
          me me1 g width_inches height_inches script play cacheInfo _ _ _ _ hinfo
          (hp1.trans hs) rfl rfl rfl rfl hskip
        refine ⟨me1, _, hinfo, he, ?_, ?_, ?_⟩
        · intro _ hskip2
          exact absurd hskip2 hskip
        · intro _ herr
          have herr2 : (play inner).error = false := herr
          simp only [herr2]
          exact ⟨⟨hv.trans unitRect, hw.trans unitRect⟩, hwv, hww⟩
        · intro hprint
          exact absurd hprint hp

theorem transform_after_picture_and_script_witness :
    (exampleScreenTop.rightMargin = 0 ∨ truncate (exampleScreenTop.rightMargin * 150) ≠ 0)
      ∧ ∃ me1 r, HyperPage_script_cacheInfo exampleEnv exampleDevice exampleScreenTop none
            = some me1
          ∧ HyperPage_script exampleEnv exampleDevice exampleScreenTop exampleShiftedGraphics 2 2
              "Draw line: 0, 0, 1, 1" (some exampleZoomingDraw) none = some r
          ∧ (exampleScreenTop.printing = false →
              me1.skipsPicture me1.instancePref_fontSize
                (trueInches 2 me1.instancePref_fontSize) →
              r.g = exampleShiftedGraphics ∧ r.error = false)
          ∧ (exampleScreenTop.printing = true ∨
              ¬ me1.skipsPicture me1.instancePref_fontSize
                (trueInches 2 me1.instancePref_fontSize) →
              r.error = false →
              r.g.unitTransform ∧ r.g.wsViewport = exampleShiftedGraphics.wsViewport
                ∧ r.g.wsWindow = exampleShiftedGraphics.wsWindow)
          ∧ (exampleScreenTop.printing = true → r.error = false) :=
  ⟨Or.inr (by norm_num [truncate, exampleScreenTop, State.empty]),
    (transform_after_picture_and_script exampleEnv exampleDevice exampleScreenTop
      exampleShiftedGraphics 2 2 exampleDraw "Draw line: 0, 0, 1, 1" exampleZoomingDraw none
      (Or.inr (by norm_num [truncate, exampleScreenTop, State.empty]))).2.2⟩

/-! ## A nested drawing that raises an error -/

theorem HyperPage_picture_paperCursor_bottomSpacing (env : Env) (me : State) (size h : Rat) :
    (HyperPage_picture_paperCursor env me size h).previousBottomSpacing
      = if me.d_y - HyperPage_any_topSpacing me size 0.1 - h
            < env.PAPER_BOTTOM + BOTTOM_MARGIN + 0.0 then 0
        else me.previousBottomSpacing := by
  unfold HyperPage_picture_paperCursor
  split <;> rfl

/-- C16, as stated, fails: on the screen at the top of the page, a picture whose draw callback
    raises an error does not return normally, and the previous bottom spacing is still 0, not
    0.1; the same holds for a script whose cached drawing raises an error. -/
theorem nested_drawing_failure_counterexample :
    (HyperPage_picture exampleEnv exampleScreenTop exampleGraphics 2 2 exampleFailingDraw).error
        = true
      ∧ (HyperPage_picture exampleEnv exampleScreenTop exampleGraphics 2 2
          exampleFailingDraw).me.previousBottomSpacing = 0
      ∧ (HyperPage_picture exampleEnv exampleScreenTop exampleGraphics 2 2
          exampleFailingDraw).me.previousBottomSpacing ≠ 0.1
      ∧ ∃ r, HyperPage_script exampleEnv exampleDevice exampleScreenTop exampleGraphics
            2 2 "Draw line: 0, 0, 1, 1" (some exampleFailingDraw) none = some r
          ∧ r.error = true ∧ r.me.previousBottomSpacing ≠ 0.1 := by
  have hs : truncate exampleScreenTop.instancePref_fontSize = 12 := truncate_twelve
  have hon : ¬ (exampleScreenTop.d_y - HyperPage_any_topSpacing exampleScreenTop
          (truncate exampleScreenTop.instancePref_fontSize : Int) 0.1
        > PAGE_HEIGHT + trueInches 2 (truncate exampleScreenTop.instancePref_fontSize : Int)
      ∨ exampleScreenTop.d_y - HyperPage_any_topSpacing exampleScreenTop
          (truncate exampleScreenTop.instancePref_fontSize : Int) 0.1
        < PAGE_HEIGHT - SCREEN_HEIGHT) := by
    rw [hs]
    norm_num [HyperPage_any_topSpacing, exampleScreenTop, State.empty, trueInches, PAGE_HEIGHT,
      SCREEN_HEIGHT]
  have hon2 : ¬ (exampleScreenTop.d_y - HyperPage_any_topSpacing exampleScreenTop
          exampleScreenTop.instancePref_fontSize 0.1
        > PAGE_HEIGHT + trueInches 2 exampleScreenTop.instancePref_fontSize
      ∨ exampleScreenTop.d_y - HyperPage_any_topSpacing exampleScreenTop
          exampleScreenTop.instancePref_fontSize 0.1
        < PAGE_HEIGHT - SCREEN_HEIGHT) := by
    norm_num [HyperPage_any_topSpacing, exampleScreenTop, State.empty, trueInches, PAGE_HEIGHT,
      SCREEN_HEIGHT]
  have hne : (0 : Rat) ≠ 0.1 := by norm_num
  obtain ⟨inner, outer, he, -⟩ := HyperPage_script_onScreen exampleEnv exampleDevice
    exampleScreenTop exampleScreenTop exampleGraphics 2 2 "Draw line: 0, 0, 1, 1"
    exampleFailingDraw none _ _ _ _ rfl rfl rfl rfl rfl rfl hon2
  refine ⟨?_, ?_, ?_, _, he, rfl, hne⟩
  · rw [HyperPage_picture_onScreen_facts exampleEnv exampleScreenTop exampleGraphics 2 2 _ _ _ _ _
      exampleFailingDraw rfl rfl rfl rfl rfl rfl hon]
    rfl
  · rw [HyperPage_picture_onScreen_facts exampleEnv exampleScreenTop exampleGraphics 2 2 _ _ _ _ _
      exampleFailingDraw rfl rfl rfl rfl rfl rfl hon]
    rfl
  · rw [HyperPage_picture_onScreen_facts exampleEnv exampleScreenTop exampleGraphics 2 2 _ _ _ _ _
      exampleFailingDraw rfl rfl rfl rfl rfl rfl hon]
    exact hne

/-- C16, amended: a failure raised by the nested drawing of an embedded picture or script is
    not caught inside `HyperPage_picture` / `HyperPage_script`.  For every draw callback (or
    cached drawing) that raises an error, the error propagates to the caller wherever the
    drawing is run: for a picture in print mode and in screen mode when it passes the
    visibility test, for a script in screen mode when it passes the visibility test.  Then `y`
    has been advanced, and `previousBottomSpacing` is not set to 0.1: it is what it was before
    the call, or 0 if the call started a new sheet.  Where the drawing is not run (in screen
    mode when the fragment fails the visibility test; for a script in print mode, which plays
    nothing), the call returns normally and `previousBottomSpacing` is set to 0.1. -/
theorem nested_drawing_failure_propagates (env : Env) (dev : Device) (me : State)
    (g : Graphics) (width_inches height_inches size h : Rat) (draw : Graphics → Drawn)
    (script : String) (play : Graphics → Drawn) (cacheInfo : Option String)
    (hdraw : ∀ inner, (draw inner).error = true) (hplay : ∀ inner, (play inner).error = true)
    (hsize : size = (truncate me.instancePref_fontSize : Int))
    (hh : h = trueInches height_inches size)
    (hm : me.rightMargin = 0 ∨ truncate (me.rightMargin * 150) ≠ 0) :
    (me.printing = false → me.skipsPicture size h →
        (HyperPage_picture env me g width_inches height_inches draw).error = false
          ∧ (HyperPage_picture env me g width_inches height_inches draw).me.previousBottomSpacing
              = 0.1
          ∧ (HyperPage_picture env me g width_inches height_inches draw).me.d_y
              = me.d_y - HyperPage_any_topSpacing me size 0.1 - h)
      ∧ (me.printing = false → ¬ me.skipsPicture size h →
        (HyperPage_picture env me g width_inches height_inches draw).error = true
          ∧ (HyperPage_picture env me g width_inches height_inches draw).me.previousBottomSpacing
              = me.previousBottomSpacing
          ∧ (HyperPage_picture env me g width_inches height_inches draw).me.d_y
              = me.d_y - HyperPage_any_topSpacing me size 0.1 - h)
      ∧ (me.printing = true →
        (HyperPage_picture env me g width_inches height_inches draw).error = true
          ∧ (HyperPage_picture env me g width_inches height_inches draw).me.previousBottomSpacing
              = (if me.d_y - HyperPage_any_topSpacing me size 0.1 - h
                    < env.PAPER_BOTTOM + BOTTOM_MARGIN + 0.0 then 0
                 else me.previousBottomSpacing)
          ∧ (HyperPage_picture env me g width_inches height_inches draw).me.d_y
              = (HyperPage_picture_paperCursor env me size h).d_y)
      ∧ ∃ me1 r, HyperPage_script_cacheInfo env dev me cacheInfo = some me1
          ∧ HyperPage_script env dev me g width_inches height_inches script (some play) cacheInfo
              = some r
          ∧ (me.printing = false →
              me1.skipsPicture me1.instancePref_fontSize
                (trueInches height_inches me1.instancePref_fontSize) →
              r.error = false ∧ r.me.previousBottomSpacing = 0.1)
          ∧ (me.printing = false →
              ¬ me1.skipsPicture me1.instancePref_fontSize
                (trueInches height_inches me1.instancePref_fontSize) →
              r.error = true ∧ r.me.previousBottomSpacing = me1.previousBottomSpacing
                ∧ r.me.d_y = me1.d_y
                    - HyperPage_any_topSpacing me1 me1.instancePref_fontSize 0.1
                    - trueInches height_inches me1.instancePref_fontSize)
          ∧ (me.printing = true → r.error = false ∧ r.me.previousBottomSpacing = 0.1) := by
  subst hsize hh
  refine ⟨?_, ?_, ?_, ?_⟩
  · intro hscreen hskip
    rw [HyperPage_picture_offScreen env me g width_inches height_inches draw hscreen hskip]
    exact ⟨rfl, rfl, rfl⟩
  · intro hscreen hon
    rw [HyperPage_picture_onScreen_facts env me g width_inches height_inches _ _ _ _ _ draw
      hscreen rfl rfl rfl rfl rfl hon]
    simp only [hdraw, if_true]
    exact ⟨trivial, trivial, trivial⟩
  · intro hprint
    rw [HyperPage_picture_onPaper_facts env me g width_inches height_inches _ _ _ _ _ draw
      hprint rfl rfl rfl rfl rfl]
    simp only [hdraw, if_true, HyperPage_picture_paperCursor_bottomSpacing]
    exact ⟨trivial, trivial, trivial⟩
  · obtain ⟨me1, hinfo, hp1⟩ := HyperPage_script_cacheInfo_returns env dev me cacheInfo hm
    by_cases hp : me.printing = true
    · obtain ⟨outer, he, -⟩ := HyperPage_script_onPaper env dev me me1 g
        width_inches height_inches script (some play) cacheInfo _ _ _ _ hinfo (hp1.trans hp)
        rfl rfl rfl rfl
      refine ⟨me1, _, hinfo, he, ?_, ?_, ?_⟩
      · intro hscreen
        rw [hp] at hscreen
        exact absurd hscreen (by simp)
      · intro hscreen
        rw [hp] at hscreen
        exact absurd hscreen (by simp)
      · intro _
        exact ⟨rfl, rfl⟩
    · have hs : me.printing = false := by simpa using hp
      by_cases hskip : me1.skipsPicture me1.instancePref_fontSize
          (trueInches height_inches me1.instancePref_fontSize)
      · refine ⟨me1, _, hinfo, HyperPage_script_offScreen env dev me me1 g width_inches
          height_inches script (some play) cacheInfo hinfo (hp1.trans hs) hskip, ?_, ?_, ?_⟩
        · intro _ _
          exact ⟨rfl, rfl⟩
        · intro _ hon
          exact absurd hskip hon
        · intro hprint
          exact absurd hprint hp
      · obtain ⟨inner, outer, he, -⟩ := HyperPage_script_onScreen env dev
          me me1 g width_inches height_inches script play cacheInfo _ _ _ _ hinfo
          (hp1.trans hs) rfl rfl rfl rfl hskip
        refine ⟨me1, _, hinfo, he, ?_, ?_, ?_⟩
        · intro _ hskip2
          exact absurd hskip2 hskip
        · intro _ _
          simp only [hplay, if_true]
          exact ⟨trivial, trivial, trivial⟩
        · intro hprint
          exact absurd hprint hp

theorem nested_drawing_failure_propagates_witness :
    (HyperPage_picture exampleEnv examplePaperTop exampleGraphics 7 2 exampleFailingDraw).error
        = true
      ∧ (HyperPage_picture exampleEnv examplePaperTop exampleGraphics 7 2
          exampleFailingDraw).me.previousBottomSpacing
          = (if examplePaperTop.d_y - HyperPage_any_topSpacing examplePaperTop 12 0.1
                  - trueInches 2 12
                < exampleEnv.PAPER_BOTTOM + BOTTOM_MARGIN + 0.0 then 0
             else examplePaperTop.previousBottomSpacing)
      ∧ (HyperPage_picture exampleEnv examplePaperTop exampleGraphics 7 2
          exampleFailingDraw).me.d_y
          = (HyperPage_picture_paperCursor exampleEnv examplePaperTop 12 (trueInches 2 12)).d_y :=
  (nested_drawing_failure_propagates exampleEnv exampleDevice examplePaperTop exampleGraphics 7 2
    12 (trueInches 2 12) exampleFailingDraw "Draw line: 0, 0, 1, 1" exampleFailingDraw none
    (fun _ => rfl) (fun _ => rfl)
    (by rw [show examplePaperTop.instancePref_fontSize = 12 from rfl, truncate_twelve]; rfl)
    rfl (Or.inr (by norm_num [truncate, examplePaperTop, State.empty]))).2.2.1 rfl

/-! ## Headers and footers -/

/-- The text of one header or footer is drawn at the given place if it is not null, and
    nothing is drawn for a null text. -/
theorem sheetTextEvents_eq (x y : Rat) (s : Option String) :
    sheetTextEvents x y s = (s.map (Event.sheetText x y)).toList := by
  cases s <;> rfl

/-- C21: in `HyperPage_initSheetOfPaper`, when the mirror option is set and the sheet number is
    even, the left header and footer are the outside ones and the right header and footer are
    the inside ones; when the sheet number is odd or the mirror option is unset, left is inside
    and right is outside; the middle header and footer are the same in both cases; and the call
    sets `y` to `PAPER_TOP - TOP_MARGIN = 11.2`, `x` to 0 and `previousBottomSpacing` to 0.
    Left texts are drawn at `x = 0.7`, middle texts at `0.7 + 3`, right texts at `0.7 + 6`,
    headers at `PAPER_TOP` and footers at `PAPER_BOTTOM`, each if it is not null. -/
theorem HyperPage_initSheetOfPaper_spec (env : Env) (me : State) :
    (me.mirror = true ∧ me.d_printingPageNumber % 2 = 0 →
        (HyperPage_initSheetOfPaper env me).trace
          = me.trace
            ++ (me.outsideHeader.map (Event.sheetText 0.7 PAPER_TOP)).toList
            ++ (me.middleHeader.map (Event.sheetText (0.7 + 3) PAPER_TOP)).toList
            ++ (me.insideHeader.map (Event.sheetText (0.7 + 6) PAPER_TOP)).toList
            ++ (me.outsideFooter.map (Event.sheetText 0.7 env.PAPER_BOTTOM)).toList
            ++ (me.middleFooter.map (Event.sheetText (0.7 + 3) env.PAPER_BOTTOM)).toList
            ++ (me.insideFooter.map (Event.sheetText (0.7 + 6) env.PAPER_BOTTOM)).toList
            ++ (if me.d_printingPageNumber ≠ 0 then
                  [Event.sheetNumber (0.7 + 0) env.PAPER_BOTTOM me.d_printingPageNumber]
                else []))
      ∧ (me.mirror = false ∨ me.d_printingPageNumber % 2 = 1 →
        (HyperPage_initSheetOfPaper env me).trace
          = me.trace
            ++ (me.insideHeader.map (Event.sheetText 0.7 PAPER_TOP)).toList
            ++ (me.middleHeader.map (Event.sheetText (0.7 + 3) PAPER_TOP)).toList
            ++ (me.outsideHeader.map (Event.sheetText (0.7 + 6) PAPER_TOP)).toList
            ++ (me.insideFooter.map (Event.sheetText 0.7 env.PAPER_BOTTOM)).toList
            ++ (me.middleFooter.map (Event.sheetText (0.7 + 3) env.PAPER_BOTTOM)).toList
            ++ (me.outsideFooter.map (Event.sheetText (0.7 + 6) env.PAPER_BOTTOM)).toList
            ++ (if me.d_printingPageNumber ≠ 0 then
                  [Event.sheetNumber (0.7 + 6) env.PAPER_BOTTOM me.d_printingPageNumber]
                else []))
      ∧ (HyperPage_initSheetOfPaper env me).d_y = PAPER_TOP - TOP_MARGIN
      ∧ PAPER_TOP - TOP_MARGIN = 11.2
      ∧ (HyperPage_initSheetOfPaper env me).d_x = 0
      ∧ (HyperPage_initSheetOfPaper env me).previousBottomSpacing = 0 := by
  refine ⟨?_, ?_, rfl, by norm_num [PAPER_TOP, TOP_MARGIN], rfl, rfl⟩
  · intro h
    have hr : (me.mirror && decide (me.d_printingPageNumber % 2 = 0)) = true := by
      simp [h.1, h.2]
    unfold HyperPage_initSheetOfPaper
    simp only [hr, if_true, sheetTextEvents_eq]
  · intro h
    have hr : (me.mirror && decide (me.d_printingPageNumber % 2 = 0)) = false := by
      rcases h with h | h
      · simp [h]
      · simp [h]
    unfold HyperPage_initSheetOfPaper
    simp only [hr, Bool.false_eq_true, if_false, sheetTextEvents_eq]

theorem HyperPage_initSheetOfPaper_spec_witness :
    (examplePaperHeaders.mirror = true ∧ examplePaperHeaders.d_printingPageNumber % 2 = 0)
      ∧ (HyperPage_initSheetOfPaper exampleEnv examplePaperHeaders).trace
        = [Event.sheetText 0.7 PAPER_TOP "outside header",
            Event.sheetText (0.7 + 3) PAPER_TOP "middle header",
            Event.sheetText (0.7 + 6) PAPER_TOP "inside header",
            Event.sheetText 0.7 exampleEnv.PAPER_BOTTOM "outside footer",
            Event.sheetText (0.7 + 3) exampleEnv.PAPER_BOTTOM "middle footer",
            Event.sheetText (0.7 + 6) exampleEnv.PAPER_BOTTOM "inside footer",
            Event.sheetNumber (0.7 + 0) exampleEnv.PAPER_BOTTOM 2] :=
  ⟨⟨rfl, by decide⟩,
    (HyperPage_initSheetOfPaper_spec exampleEnv examplePaperHeaders).1 ⟨rfl, by decide⟩⟩

/-! ## Scroll synchronisation -/

/-- C23: after `gui_cb_verticalScroll` has handled an event, `top` equals the value that the
    scroll bar reported; if that value already equalled `top`, the viewer is unchanged, so no
    scroll bar update and no redraw is requested; if it differed, `top` is set to it and the
    requests made are one scroll bar update and exactly one redraw. -/
theorem gui_cb_verticalScroll_spec (me : State) (value : Rat) :
    (gui_cb_verticalScroll me value).top = value
      ∧ (value = me.top → gui_cb_verticalScroll me value = me)
      ∧ (value ≠ me.top →
          (gui_cb_verticalScroll me value).trace
              = me.trace ++ [Event.scrollBarSet value, Event.updateWs]
            ∧ (gui_cb_verticalScroll me value).trace.count Event.updateWs
              = me.trace.count Event.updateWs + 1) := by
  unfold gui_cb_verticalScroll updateVerticalScrollBar
  refine ⟨?_, ?_, ?_⟩
  · by_cases h : value = me.top
    · have hn : ¬ value ≠ me.top := not_not.2 h
      rw [if_neg hn]
      exact h.symm
    · rw [if_pos h]
  · intro h
    have hn : ¬ value ≠ me.top := not_not.2 h
    rw [if_neg hn]
  · intro h
    rw [if_pos h]
    refine ⟨by simp, ?_⟩
    simp [List.count_append, List.count_cons]

theorem gui_cb_verticalScroll_spec_witness :
    (5 : Rat) ≠ exampleScreenTop.top
      ∧ (gui_cb_verticalScroll exampleScreenTop 5).trace
          = exampleScreenTop.trace ++ [Event.scrollBarSet 5, Event.updateWs] :=
  ⟨by norm_num [exampleScreenTop, State.empty],
    ((gui_cb_verticalScroll_spec exampleScreenTop 5).2.2
      (by norm_num [exampleScreenTop, State.empty])).1⟩

/-! ## Sheet numbering -/

theorem nextSheetOfPaper_number (env : Env) (me : State) :
    (nextSheetOfPaper env me).d_printingPageNumber = nextSheetNumber me.d_printingPageNumber := by
  unfold nextSheetOfPaper nextSheetNumber
  simp only
  split <;> rfl

theorem HyperPage_any_screen_number (env : Env) (me : State) (heightGuess : Rat) (text : String)
    (font : kGraphics_font) (size : Rat) (style : Int) (x secondIndent topSpacing : Rat)
    (method : Nat) :
    (HyperPage_any_screen env me heightGuess text font size style x secondIndent topSpacing
        method).d_printingPageNumber = me.d_printingPageNumber
      ∧ (HyperPage_any_screen env me heightGuess text font size style x secondIndent topSpacing
        method).sheetsStarted = me.sheetsStarted := by
  unfold HyperPage_any_screen State.sheetsStarted
  simp only
  split <;> split <;> (try split) <;> refine ⟨rfl, ?_⟩ <;>
    first
      | rfl
      | simp [List.count_append, List.count_cons]

theorem HyperPage_any_paper_number (env : Env) (me : State) (text : String)
    (font : kGraphics_font) (size : Rat) (style : Int) (minFooterDistance x secondIndent
    topSpacing : Rat) (method : Nat) (hprint : me.printing = true) :
    sheetNumbering me (HyperPage_any_paper env me text font size style minFooterDistance x
      secondIndent topSpacing method) := by
  have hpost2 : ∀ y : Rat, (if method &&& HyperPage_ADD_BORDER ≠ 0 then
      [Event.line true 3.0 0.7 y 6.7 y] else []).count Event.nextSheetOfPaper = 0 := by
    intro y
    split <;> simp
  rw [HyperPage_any_paper_eq]
  unfold sheetNumbering State.sheetsStarted
  simp only
  by_cases hlow : me.d_y - HyperPage_any_topSpacing me size topSpacing - size * (1.2 / 72)
      < env.PAPER_BOTTOM + BOTTOM_MARGIN + minFooterDistance
        + size * (1.2 / 72) * (text.length / (6.0 * 10))
  · obtain ⟨-, -, -, -, -, hs⟩ := nextSheetOfPaper_facts env
      { me with d_y := me.d_y - HyperPage_any_topSpacing me size topSpacing - size * (1.2 / 72) }
    have hn := nextSheetOfPaper_number env
      { me with d_y := me.d_y - HyperPage_any_topSpacing me size topSpacing - size * (1.2 / 72) }
    unfold State.sheetsStarted at hs
    simp only [if_pos hlow, count_text_line _ _ _ (hpost2 _), hs, hn]
    exact Or.inr ⟨hprint, trivial, trivial⟩
  · simp only [if_neg hlow, count_text_line _ _ _ (hpost2 _)]
    exact Or.inl ⟨trivial, trivial⟩

/-- One call of `HyperPage_any` that returns requests at most one sheet, in print mode only,
    and steps the sheet number exactly then. -/
theorem HyperPage_any_number (env : Env) (me s1 : State) (text : String) (font : kGraphics_font)
    (size : Rat) (style : Int) (minFooterDistance x secondIndent topSpacing bottomSpacing : Rat)
    (method : Nat)
    (hcall : HyperPage_any env me text font size style minFooterDistance x secondIndent topSpacing
      bottomSpacing method = some s1) :
    sheetNumbering me s1 ∧ s1.printing = me.printing := by
  unfold HyperPage_any at hcall
  by_cases hrm : me.rightMargin = 0
  · rw [if_pos hrm] at hcall
    simp only [Option.some.injEq] at hcall
    rw [← hcall]
    exact ⟨Or.inl ⟨rfl, rfl⟩, rfl⟩
  · rw [if_neg hrm] at hcall
    by_cases hdiv : truncate (me.rightMargin * 150) = 0
    · rw [if_pos hdiv] at hcall; exact absurd hcall (by simp)
    · rw [if_neg hdiv] at hcall
      simp only [Option.some.injEq] at hcall
      subst hcall
      by_cases hp : me.printing = true
      · have hp2 : ¬ ¬ me.printing = true := not_not.2 hp
        simp only [if_neg hp2]
        exact ⟨HyperPage_any_paper_number env me text font size style minFooterDistance x
          secondIndent topSpacing method hp,
          (HyperPage_any_paper_frame env me text font size style minFooterDistance x
            secondIndent topSpacing method).1⟩
      · simp only [if_pos hp]
        obtain ⟨hn, hs⟩ := HyperPage_any_screen_number env me
          (size * (1.2 / 72)
            * (Int.tdiv (truncate size * (text.length : Int)) (truncate (me.rightMargin * 150)) : Int))
          text font size style x secondIndent topSpacing method
        exact ⟨Or.inl ⟨hs, hn⟩,
          (HyperPage_any_screen_frame env me _ text font size style x secondIndent topSpacing
            method).1⟩

theorem sheetNumberingMany_refl (me : State) : sheetNumberingMany me me :=
  ⟨rfl, le_refl _, by simp, fun h => absurd h (lt_irrefl _)⟩

theorem sheetNumberingMany_of_one (me s1 : State) (hp : s1.printing = me.printing)
    (h : sheetNumbering me s1) : sheetNumberingMany me s1 := by
  rcases h with ⟨hs, hn⟩ | ⟨hpr, hs, hn⟩
  · refine ⟨hp, le_of_eq hs.symm, ?_, fun hlt => ?_⟩
    · rw [hs, hn]; simp
    · rw [hs] at hlt; exact absurd hlt (lt_irrefl _)
  · refine ⟨hp, by omega, ?_, fun _ => hpr⟩
    rw [hs, hn]
    simp

theorem sheetNumberingMany_trans (a b c : State) (hab : sheetNumberingMany a b)
    (hbc : sheetNumberingMany b c) : sheetNumberingMany a c := by
  obtain ⟨hp1, hs1, hn1, hi1⟩ := hab
  obtain ⟨hp2, hs2, hn2, hi2⟩ := hbc
  refine ⟨hp2.trans hp1, le_trans hs1 hs2, ?_, fun hlt => ?_⟩
  · have hsum : c.sheetsStarted - a.sheetsStarted
        = (c.sheetsStarted - b.sheetsStarted) + (b.sheetsStarted - a.sheetsStarted) := by omega
    rw [hn2, hn1, hsum, Function.iterate_add_apply]
  · by_cases h1 : a.sheetsStarted < b.sheetsStarted
    · exact hi1 h1
    · have h2 : b.sheetsStarted < c.sheetsStarted := by omega
      rw [← hp1]
      exact hi2 h2

theorem HyperPage_picture_paperCursor_number (env : Env) (me : State) (size h : Rat)
    (hprint : me.printing = true) :
    sheetNumbering me (HyperPage_picture_paperCursor env me size h) := by
  unfold HyperPage_picture_paperCursor
  split
  · obtain ⟨-, -, -, -, -, hs⟩ := nextSheetOfPaper_facts env
      { me with d_y := me.d_y - HyperPage_any_topSpacing me size 0.1 - h }
    have hn := nextSheetOfPaper_number env
      { me with d_y := me.d_y - HyperPage_any_topSpacing me size 0.1 - h }
    exact Or.inr ⟨hprint, hs, hn⟩
  · exact Or.inl ⟨rfl, rfl⟩

/-- The function `HyperPage_formula` requests at most one sheet, in print mode only, and steps
    the sheet number exactly then. -/
theorem HyperPage_formula_number (env : Env) (me : State) (formula : String) :
    sheetNumbering me (HyperPage_formula env me formula) := by
  unfold HyperPage_formula
  simp only
  by_cases hp : me.printing = true
  · have hp2 : ¬ ¬ me.printing = true := not_not.2 hp
    simp only [if_neg hp2]
    split
    · obtain ⟨-, -, -, -, -, hs⟩ := nextSheetOfPaper_facts env
        { me with d_y := me.d_y - HyperPage_any_topSpacing me me.instancePref_fontSize 0.2
                    - me.instancePref_fontSize * (1.2 / 72) }
      have hn := nextSheetOfPaper_number env
        { me with d_y := me.d_y - HyperPage_any_topSpacing me me.instancePref_fontSize 0.2
                    - me.instancePref_fontSize * (1.2 / 72) }
      have hc := count_centredText (nextSheetOfPaper env
        { me with d_y := me.d_y - HyperPage_any_topSpacing me me.instancePref_fontSize 0.2
                    - me.instancePref_fontSize * (1.2 / 72) }).trace
      unfold State.sheetsStarted at hs
      refine Or.inr ⟨hp, ?_, hn⟩
      unfold State.sheetsStarted
      simp only [hc, hs]
    · exact Or.inl ⟨count_centredText _ _ _ _ _ _ _, rfl⟩
  · simp only [if_pos hp]
    split
    · exact Or.inl ⟨rfl, rfl⟩
    · exact Or.inl ⟨count_centredText _ _ _ _ _ _ _, rfl⟩

theorem sheetNumbering_of_eq (a b c : State) (h : sheetNumbering a b)
    (hs : c.sheetsStarted = b.sheetsStarted)
    (hn : c.d_printingPageNumber = b.d_printingPageNumber) : sheetNumbering a c := by
  rcases h with ⟨h1, h2⟩ | ⟨hp, h1, h2⟩
  · exact Or.inl ⟨hs.trans h1, hn.trans h2⟩
  · exact Or.inr ⟨hp, hs.trans h1, hn.trans h2⟩

/-- The function `HyperPage_picture` requests at most one sheet, in print mode only, and steps
    the sheet number exactly then; this holds whether or not the nested drawing raises an
    error. -/
theorem HyperPage_picture_number (env : Env) (me : State) (g : Graphics)
    (width_inches height_inches : Rat) (draw : Graphics → Drawn) :
    sheetNumbering me (HyperPage_picture env me g width_inches height_inches draw).me := by
  by_cases hp : me.printing = true
  · rw [HyperPage_picture_onPaper_facts env me g width_inches height_inches _ _ _ _ _ draw
      hp rfl rfl rfl rfl rfl]
    exact sheetNumbering_of_eq _ _ _ (HyperPage_picture_paperCursor_number env me _ _ hp)
      (count_draw _ _ _ _ _ _) rfl
  · have hs : me.printing = false := by simpa using hp
    by_cases hoff : me.d_y - HyperPage_any_topSpacing me (truncate me.instancePref_fontSize : Int) 0.1
          > PAGE_HEIGHT + trueInches height_inches (truncate me.instancePref_fontSize : Int)
        ∨ me.d_y - HyperPage_any_topSpacing me (truncate me.instancePref_fontSize : Int) 0.1
          < PAGE_HEIGHT - SCREEN_HEIGHT
    · rw [HyperPage_picture_offScreen env me g width_inches height_inches draw hs hoff]
      exact Or.inl ⟨rfl, rfl⟩
    · rw [HyperPage_picture_onScreen_facts env me g width_inches height_inches _ _ _ _ _ draw
        hs rfl rfl rfl rfl rfl hoff]
      exact Or.inl ⟨count_draw _ _ _ _ _ _, rfl⟩

theorem HyperPage_script_cacheLines_number (env : Env) (dev : Device) (chars : List Char) :
    ∀ (buffer : String) (me s : State),
      HyperPage_script_cacheLines env dev chars buffer me = some s → sheetNumberingMany me s := by
  induction chars with
  | nil =>
    intro buffer me s h
    simp only [HyperPage_script_cacheLines, Option.some.injEq] at h
    rw [← h]
    exact sheetNumberingMany_refl me
  | cons p rest ih =>
    intro buffer me s h
    unfold HyperPage_script_cacheLines at h
    by_cases hend : dev.Melder_isEndOfLine p = true
    · rw [if_pos hend] at h
      cases h1 : HyperPage_code env me (if buffer.contains '\t' then "\t" ++ buffer else buffer) with
      | none => rw [h1] at h; exact absurd h (by simp)
      | some s1 =>
        rw [h1] at h
        obtain ⟨hn, hp⟩ := HyperPage_any_number env me s1 _ _ _ _ _ _ _ _ _ _ h1
        exact sheetNumberingMany_trans _ _ _ (sheetNumberingMany_of_one me s1 hp hn)
          (ih "" s1 s h)
    · rw [if_neg hend] at h
      exact ih (buffer.push p) me s h

theorem HyperPage_script_cacheInfo_number (env : Env) (dev : Device) (me s : State)
    (cacheInfo : Option String)
    (h : HyperPage_script_cacheInfo env dev me cacheInfo = some s) :
    sheetNumberingMany me s := by
  unfold HyperPage_script_cacheInfo at h
  cases cacheInfo with
  | none =>
    simp only [Option.some.injEq] at h
    rw [← h]
    exact sheetNumberingMany_refl me
  | some info =>
    simp only at h
    by_cases hempty : info = ""
    · rw [if_pos hempty] at h
      simp only [Option.some.injEq] at h
      rw [← h]
      exact sheetNumberingMany_refl me
    · rw [if_neg hempty] at h
      cases h1 : HyperPage_code0 env me "\\#\x7b=>\x7d" with
      | none => rw [h1] at h; exact absurd h (by simp)
      | some s1 =>
        rw [h1] at h
        obtain ⟨hn, hp⟩ := HyperPage_any_number env me s1 _ _ _ _ _ _ _ _ _ _ h1
        exact sheetNumberingMany_trans _ _ _ (sheetNumberingMany_of_one me s1 hp hn)
          (HyperPage_script_cacheLines_number env dev info.toList "" s1 s h)

/-- The function `HyperPage_script`, when it returns, has stepped the sheet number once for
    every sheet that its code lines and its picture requested. -/
theorem HyperPage_script_number (env : Env) (dev : Device) (me : State) (g : Graphics)
    (width_inches height_inches : Rat) (script : String)
    (cacheGraphics : Option (Graphics → Drawn)) (cacheInfo : Option String) (r : Emitted)
    (h : HyperPage_script env dev me g width_inches height_inches script cacheGraphics cacheInfo
      = some r) :
    sheetNumberingMany me r.me := by
  cases hinfo : HyperPage_script_cacheInfo env dev me cacheInfo with
  | none =>
    unfold HyperPage_script at h
    rw [hinfo] at h
    exact absurd h (by simp)
  | some me1 =>
    refine sheetNumberingMany_trans _ _ _
      (HyperPage_script_cacheInfo_number env dev me me1 cacheInfo hinfo) ?_
    by_cases hp : me1.printing = true
    · obtain ⟨outer, he, -⟩ := HyperPage_script_onPaper env dev me me1 g width_inches
        height_inches script cacheGraphics cacheInfo _ _ _ _ hinfo hp rfl rfl rfl rfl
      rw [he] at h
      simp only [Option.some.injEq] at h
      rw [← h]
      exact sheetNumberingMany_of_one _ _
        (by
          show (HyperPage_picture_paperCursor env me1 me1.instancePref_fontSize _).printing
            = me1.printing
          unfold HyperPage_picture_paperCursor
          split
          · exact (nextSheetOfPaper_facts env _).2.2.1
          · rfl)
        (sheetNumbering_of_eq _ _ _ (HyperPage_picture_paperCursor_number env me1 _ _ hp) rfl rfl)
    · have hs : me1.printing = false := by simpa using hp
      by_cases hoff : me1.d_y - HyperPage_any_topSpacing me1 me1.instancePref_fontSize 0.1
            > PAGE_HEIGHT + trueInches height_inches me1.instancePref_fontSize
          ∨ me1.d_y - HyperPage_any_topSpacing me1 me1.instancePref_fontSize 0.1
            < PAGE_HEIGHT - SCREEN_HEIGHT
      · rw [HyperPage_script_offScreen env dev me me1 g width_inches height_inches script
          cacheGraphics cacheInfo hinfo hs hoff] at h
        simp only [Option.some.injEq] at h
        rw [← h]
        exact sheetNumberingMany_of_one _ _ rfl (Or.inl ⟨rfl, rfl⟩)
      · cases cacheGraphics with
        | none =>
          unfold HyperPage_script at h
          rw [hinfo] at h
          simp only [if_pos hp, if_neg hoff] at h
          exact absurd h (by simp)
        | some play =>
          obtain ⟨inner, outer, he, -⟩ := HyperPage_script_onScreen env dev me me1 g width_inches
            height_inches script play cacheInfo _ _ _ _ hinfo hs rfl rfl rfl rfl hoff
          rw [he] at h
          simp only [Option.some.injEq] at h
          rw [← h]
          exact sheetNumberingMany_of_one _ _ rfl (Or.inl ⟨count_draw _ _ _ _ _ _, rfl⟩)

/-- The function `HyperPage_script`, given a cached drawing, returns for every margin that is 0
    or that the height estimate can divide by. -/
theorem HyperPage_script_returns (env : Env) (dev : Device) (me : State) (g : Graphics)
    (width_inches height_inches : Rat) (script : String) (play : Graphics → Drawn)
    (cacheInfo : Option String)
    (hm : me.rightMargin = 0 ∨ truncate (me.rightMargin * 150) ≠ 0) :
    ∃ r, HyperPage_script env dev me g width_inches height_inches script (some play) cacheInfo
      = some r := by
  obtain ⟨me1, hinfo, -⟩ := HyperPage_script_cacheInfo_returns env dev me cacheInfo hm
  by_cases hp : me1.printing = true
  · obtain ⟨outer, he, -⟩ := HyperPage_script_onPaper env dev me me1 g width_inches
      height_inches script (some play) cacheInfo _ _ _ _ hinfo hp rfl rfl rfl rfl
    exact ⟨_, he⟩
  · have hs : me1.printing = false := by simpa using hp
    by_cases hoff : me1.d_y - HyperPage_any_topSpacing me1 me1.instancePref_fontSize 0.1
          > PAGE_HEIGHT + trueInches height_inches me1.instancePref_fontSize
        ∨ me1.d_y - HyperPage_any_topSpacing me1 me1.instancePref_fontSize 0.1
          < PAGE_HEIGHT - SCREEN_HEIGHT
    · exact ⟨_, HyperPage_script_offScreen env dev me me1 g width_inches height_inches script
        (some play) cacheInfo hinfo hs hoff⟩
    · obtain ⟨inner, outer, he, -⟩ := HyperPage_script_onScreen env dev me me1 g width_inches
        height_inches script play cacheInfo _ _ _ _ hinfo hs rfl rfl rfl rfl hoff
      exact ⟨_, he⟩

/-- The function `HyperPage_formula` on paper when the formula does not fit on the sheet: one
    sheet is requested and the sheet number is stepped. -/
theorem HyperPage_formula_newSheet (env : Env) (me : State) (formula : String)
    (hprint : me.printing = true)
    (hlow : me.d_y - HyperPage_any_topSpacing me me.instancePref_fontSize 0.2
        - me.instancePref_fontSize * (1.2 / 72) < env.PAPER_BOTTOM + BOTTOM_MARGIN + 0.0) :
    (HyperPage_formula env me formula).sheetsStarted = me.sheetsStarted + 1
      ∧ (HyperPage_formula env me formula).d_printingPageNumber
          = nextSheetNumber me.d_printingPageNumber := by
  have hp2 : ¬ ¬ me.printing = true := not_not.2 hprint
  obtain ⟨-, -, -, -, -, hs⟩ := nextSheetOfPaper_facts env
    { me with d_y := me.d_y - HyperPage_any_topSpacing me me.instancePref_fontSize 0.2
                - me.instancePref_fontSize * (1.2 / 72) }
  have hn := nextSheetOfPaper_number env
    { me with d_y := me.d_y - HyperPage_any_topSpacing me me.instancePref_fontSize 0.2
                - me.instancePref_fontSize * (1.2 / 72) }
  have hc := count_centredText (nextSheetOfPaper env
    { me with d_y := me.d_y - HyperPage_any_topSpacing me me.instancePref_fontSize 0.2
                - me.instancePref_fontSize * (1.2 / 72) }).trace
  unfold State.sheetsStarted at hs
  unfold HyperPage_formula State.sheetsStarted
  simp only [if_neg hp2, if_pos hlow, hc, hs, hn]
  exact ⟨trivial, trivial⟩

theorem wrapInteger_inRange (n : Int) (hlow : -2 ^ 63 ≤ n) (hhigh : n < 2 ^ 63) :
    wrapInteger n = n := by
  unfold wrapInteger
  rw [Int.emod_eq_of_lt (by omega) (by omega)]
  omega

/-- C22, as stated, fails at the largest sheet number: on paper at `y = 2.7` with the sheet
    number `2 ^ 63 - 1`, a formula does not fit on the sheet (`2.7 - 0.2 - 0.2 < 2.5`), the call
    starts a new sheet, and the 64-bit sheet number wraps around to `-2 ^ 63`: it is not
    incremented by 1. -/
theorem sheet_numbering_counterexample :
    examplePaperLastNumber.printing = true
      ∧ examplePaperLastNumber.d_printingPageNumber = 2 ^ 63 - 1
      ∧ examplePaperLastNumber.d_printingPageNumber ≠ 0
      ∧ (HyperPage_formula exampleEnv examplePaperLastNumber "x = 1").sheetsStarted
          = examplePaperLastNumber.sheetsStarted + 1
      ∧ (HyperPage_formula exampleEnv examplePaperLastNumber "x = 1").d_printingPageNumber
          = -2 ^ 63
      ∧ (HyperPage_formula exampleEnv examplePaperLastNumber "x = 1").d_printingPageNumber
          ≠ examplePaperLastNumber.d_printingPageNumber + 1 := by
  have hlow : examplePaperLastNumber.d_y
      - HyperPage_any_topSpacing examplePaperLastNumber
          examplePaperLastNumber.instancePref_fontSize 0.2
      - examplePaperLastNumber.instancePref_fontSize * (1.2 / 72)
      < exampleEnv.PAPER_BOTTOM + BOTTOM_MARGIN + 0.0 := by
    norm_num [HyperPage_any_topSpacing, examplePaperLastNumber, State.empty, exampleEnv,
      BOTTOM_MARGIN, PAPER_TOP, TOP_MARGIN]
  obtain ⟨hs, hn⟩ := HyperPage_formula_newSheet exampleEnv examplePaperLastNumber "x = 1" rfl hlow
  have hnext : nextSheetNumber examplePaperLastNumber.d_printingPageNumber = -2 ^ 63 := by
    decide
  refine ⟨rfl, rfl, by decide, hs, by rw [hn, hnext], ?_⟩
  rw [hn, hnext]
  decide

/-- C22, amended: whenever a print-mode call of `HyperPage_any`, `HyperPage_formula`,
    `HyperPage_picture` or `HyperPage_script` starts a new sheet, the sheet number is
    incremented by exactly 1 if it was non-zero and below the largest 64-bit integer
    `2 ^ 63 - 1`, and stays 0 if it was 0; a call that starts no new sheet leaves the sheet
    number unchanged.  `HyperPage_any`, `HyperPage_formula` and `HyperPage_picture` start at
    most one sheet per call; `HyperPage_script`, which emits its code lines and then its
    picture, can start several, and the number is stepped once for each of them.  No sheet is
    started on the screen.  The calls return for every margin that is 0 or that the height
    estimate can divide by. -/
theorem sheet_numbering (env : Env) (dev : Device) (me : State) (g : Graphics)
    (text : String) (font : kGraphics_font) (size : Rat) (style : Int)
    (minFooterDistance x secondIndent topSpacing bottomSpacing : Rat) (method : Nat)
    (formula : String) (width_inches height_inches : Rat) (draw : Graphics → Drawn)
    (script : String) (play : Graphics → Drawn) (cacheInfo : Option String) :
    nextSheetNumber 0 = 0
      ∧ (∀ n : Int, n ≠ 0 → -2 ^ 63 ≤ n → n < 2 ^ 63 - 1 → nextSheetNumber n = n + 1)
      ∧ (∀ s1, HyperPage_any env me text font size style minFooterDistance x secondIndent
          topSpacing bottomSpacing method = some s1 → sheetNumbering me s1)
      ∧ sheetNumbering me (HyperPage_formula env me formula)
      ∧ sheetNumbering me (HyperPage_picture env me g width_inches height_inches draw).me
      ∧ (∀ r, HyperPage_script env dev me g width_inches height_inches script (some play)
          cacheInfo = some r → sheetNumberingMany me r.me)
      ∧ (me.rightMargin = 0 ∨ truncate (me.rightMargin * 150) ≠ 0 →
          (∃ s1, HyperPage_any env me text font size style minFooterDistance x secondIndent
            topSpacing bottomSpacing method = some s1)
          ∧ ∃ r, HyperPage_script env dev me g width_inches height_inches script (some play)
            cacheInfo = some r) := by
  refine ⟨rfl, ?_, ?_, HyperPage_formula_number env me formula,
    HyperPage_picture_number env me g width_inches height_inches draw, ?_, ?_⟩
  · intro n h0 hlow hhigh
    unfold nextSheetNumber
    rw [if_pos h0, wrapInteger_inRange (n + 1) (by omega) (by omega)]
  · intro s1 h
    exact (HyperPage_any_number env me s1 text font size style minFooterDistance x secondIndent
      topSpacing bottomSpacing method h).1
  · intro r h
    exact HyperPage_script_number env dev me g width_inches height_inches script (some play)
      cacheInfo r h
  · intro hm
    refine ⟨?_, HyperPage_script_returns env dev me g width_inches height_inches script play
      cacheInfo hm⟩
    obtain ⟨s1, h1, -⟩ := HyperPage_any_returns_frame env me text font size style
      minFooterDistance x secondIndent topSpacing bottomSpacing method hm
    exact ⟨s1, h1⟩

theorem sheet_numbering_witness :
    ((3 : Int) ≠ 0 ∧ -2 ^ 63 ≤ (3 : Int) ∧ (3 : Int) < 2 ^ 63 - 1)
      ∧ nextSheetNumber 3 = 3 + 1
      ∧ (examplePaperBottom.rightMargin = 0
          ∨ truncate (examplePaperBottom.rightMargin * 150) ≠ 0)
      ∧ ((∃ s1, HyperPage_any exampleEnv examplePaperBottom "Some text." 0 12 0 0.0 0.03 0.0 0.1
            0.1 0 = some s1)
        ∧ ∃ r, HyperPage_script exampleEnv exampleDevice examplePaperBottom exampleGraphics 7 2
            "Draw line: 0, 0, 1, 1" (some exampleDraw) (some "line 1\n") = some r) :=
  ⟨⟨by decide, by decide, by decide⟩,
    (sheet_numbering exampleEnv exampleDevice examplePaperBottom exampleGraphics "Some text." 0
      12 0 0.0 0.03 0.0 0.1 0.1 0 "x = 1" 7 2 exampleDraw "Draw line: 0, 0, 1, 1" exampleDraw
      (some "line 1\n")).2.1 3 (by decide) (by decide) (by decide),
    Or.inr (by norm_num [truncate, examplePaperBottom, State.empty]),
    (sheet_numbering exampleEnv exampleDevice examplePaperBottom exampleGraphics "Some text." 0
      12 0 0.0 0.03 0.0 0.1 0.1 0 "x = 1" 7 2 exampleDraw "Draw line: 0, 0, 1, 1" exampleDraw
      (some "line 1\n")).2.2.2.2.2.2
      (Or.inr (by norm_num [truncate, examplePaperBottom, State.empty]))⟩

/-! ## The visibility test and the entry hint -/

/-- The screen branch of `HyperPage_any`, case by case: below the visibility bound nothing is
    drawn, no link is registered and `y` goes down by the guessed height; otherwise the text is
    drawn (with a border line if asked for), the links that the text service reports are
    registered, and `y` is what the text service reports.  The entry position is recorded
    exactly when the entry that is looked for is emitted. -/
theorem HyperPage_any_screen_cases (env : Env) (me : State) (heightGuess : Rat) (text : String)
    (font : kGraphics_font) (size : Rat) (style : Int) (x secondIndent topSpacing : Rat)
    (method : Nat) (y : Rat) (call : TextCall)
    (hy : y = me.d_y - HyperPage_any_topSpacing me size topSpacing - size * (1.2 / 72))
    (hcall : call =
      { onPaper := false, text := text, font := font, size := size, style := style,
        wrapWidth := me.rightMargin - x - 0.1, secondIndent := secondIndent, x := x, y := y }) :
    (y < PAGE_HEIGHT - SCREEN_HEIGHT →
        (HyperPage_any_screen env me heightGuess text font size style x secondIndent topSpacing
          method).trace = me.trace
        ∧ (HyperPage_any_screen env me heightGuess text font size style x secondIndent
          topSpacing method).links = me.links
        ∧ (HyperPage_any_screen env me heightGuess text font size style x secondIndent
          topSpacing method).d_y = y - heightGuess)
      ∧ (¬ y < PAGE_HEIGHT - SCREEN_HEIGHT →
        (HyperPage_any_screen env me heightGuess text font size style x secondIndent topSpacing
          method).trace
            = me.trace ++ Event.text call ::
                (if method &&& HyperPage_ADD_BORDER ≠ 0 then
                  [Event.line false 2.0 0.0 y me.rightMargin y] else [])
        ∧ (HyperPage_any_screen env me heightGuess text font size style x secondIndent
          topSpacing method).links = me.links ++ env.Graphics_getLinks call
        ∧ (HyperPage_any_screen env me heightGuess text font size style x secondIndent
          topSpacing method).d_y = env.Graphics_inqTextY call)
      ∧ (HyperPage_any_screen env me heightGuess text font size style x secondIndent topSpacing
          method).entryPosition
          = (if me.entryHint.isSome ∧ method &&& HyperPage_USE_ENTRY_HINT ≠ 0
                ∧ me.entryHint = some text then me.d_y else me.entryPosition) := by
  subst hy hcall
  have hts : ∀ v : Rat, HyperPage_any_topSpacing { me with entryPosition := v } size topSpacing
      = HyperPage_any_topSpacing me size topSpacing := fun _ => rfl
  unfold HyperPage_any_screen
  by_cases hh : me.entryHint.isSome ∧ method &&& HyperPage_USE_ENTRY_HINT ≠ 0
      ∧ me.entryHint = some text
  · simp only [if_pos hh, hts]
    refine ⟨?_, ?_, ?_⟩
    · intro hlow
      simp only [if_pos hlow]
      exact ⟨trivial, trivial, trivial⟩
    · intro hhigh
      simp only [if_neg hhigh]
      split <;> simp
    · split <;> (try split) <;> rfl
  · simp only [if_neg hh]
    refine ⟨?_, ?_, ?_⟩
    · intro hlow
      simp only [if_pos hlow]
      exact ⟨trivial, trivial, trivial⟩
    · intro hhigh
      simp only [if_neg hhigh]
      split <;> simp
    · split <;> (try split) <;> rfl

theorem HyperPage_any_paper_entry (env : Env) (me : State) (text : String)
    (font : kGraphics_font) (size : Rat) (style : Int) (minFooterDistance x secondIndent
    topSpacing : Rat) (method : Nat) :
    (HyperPage_any_paper env me text font size style minFooterDistance x secondIndent topSpacing
        method).entryPosition = me.entryPosition := by
  unfold HyperPage_any_paper
  simp only
  split <;> split <;> (try split) <;> rfl

/-- The entry position after one call of `HyperPage_any`, for every margin that the height
    estimate can divide by: on the screen it is the `y` of before the call if an entry hint is
    pending, the flag `HyperPage_USE_ENTRY_HINT` is in `method` and the text is the hint, and
    unchanged otherwise; on paper it is unchanged. -/
theorem HyperPage_any_entryPosition (env : Env) (me : State) (text : String)
    (font : kGraphics_font) (size : Rat) (style : Int)
    (minFooterDistance x secondIndent topSpacing bottomSpacing : Rat) (method : Nat)
    (hdiv : truncate (me.rightMargin * 150) ≠ 0) :
    ∃ s1, HyperPage_any env me text font size style minFooterDistance x secondIndent topSpacing
        bottomSpacing method = some s1
      ∧ (me.printing = false →
          s1.entryPosition
            = (if me.entryHint.isSome ∧ method &&& HyperPage_USE_ENTRY_HINT ≠ 0
                  ∧ me.entryHint = some text then me.d_y else me.entryPosition))
      ∧ (me.printing = true → s1.entryPosition = me.entryPosition) := by
  have hrm : me.rightMargin ≠ 0 := by
    intro h0
    rw [h0, zero_mul] at hdiv
    exact hdiv truncate_zero
  by_cases hp : me.printing = true
  · refine ⟨_, HyperPage_any_paper_call env me text font size style minFooterDistance x
      secondIndent topSpacing bottomSpacing method hp hdiv, ?_, ?_⟩
    · intro hs
      rw [hp] at hs
      exact absurd hs (by simp)
    · intro _
      exact HyperPage_any_paper_entry env me text font size style minFooterDistance x
        secondIndent topSpacing method
  · have hs : me.printing = false := by simpa using hp
    refine ⟨_, HyperPage_any_screen_eq env me text font size style minFooterDistance x
      secondIndent topSpacing bottomSpacing method hs hrm hdiv, ?_, ?_⟩
    · intro _
      exact (HyperPage_any_screen_cases env me _ text font size style x secondIndent topSpacing
        method _ _ rfl rfl).2.2
    · intro hprint
      exact absurd hprint hp

/-- C25 fails for a narrow margin: on the screen with `rightMargin = 1/200` (not 0), the entry
    hint `"entry"` pending and `y = 320`, the call that emits `"entry"` with the flag
    `HyperPage_USE_ENTRY_HINT` should record the entry position 320; it divides by
    `(int) (rightMargin * 150) = 0` before it looks at the hint, and records nothing. -/
theorem HyperPage_any_entry_narrow_margin :
    exampleNarrowEntry.printing = false ∧ exampleNarrowEntry.rightMargin ≠ 0
      ∧ exampleNarrowEntry.entryHint = some "entry"
      ∧ HyperPage_USE_ENTRY_HINT &&& HyperPage_USE_ENTRY_HINT ≠ 0
      ∧ exampleNarrowEntry.entryPosition = 0 ∧ exampleNarrowEntry.d_y = 320
      ∧ HyperPage_any exampleEnv exampleNarrowEntry "entry" 0 12 0 0.0 0.03 0.0 0.1 0.1
          HyperPage_USE_ENTRY_HINT = none := by
  have hdiv : truncate (exampleNarrowEntry.rightMargin * 150) = 0 := by
    norm_num [truncate, exampleNarrowEntry, State.empty]
    rfl
  have hrm : exampleNarrowEntry.rightMargin ≠ 0 := by
    norm_num [exampleNarrowEntry, State.empty]
  refine ⟨rfl, hrm, rfl, by decide, rfl, ?_, ?_⟩
  · norm_num [exampleNarrowEntry, State.empty, PAGE_HEIGHT]
  · simp only [HyperPage_any, if_neg hrm, if_pos hdiv]

/-! ## The top spacing between two fragments -/

theorem gui_drawingarea_cb_mouse_loop_skip (env : Env) (me : State) (event : MouseEvent)
    (pre : List HyperLink) (post : List HyperLink)
    (hpre : ∀ l, l ∈ pre → l.hit event = false) :
    gui_drawingarea_cb_mouse_loop env me event (pre ++ post)
      = gui_drawingarea_cb_mouse_loop env me event post := by
  induction pre with
  | nil => rfl
  | cons l rest ih =>
    have h1 : l.hit event = false := hpre l (List.mem_cons_self _ _)
    simp only [List.cons_append, gui_drawingarea_cb_mouse_loop, h1, Bool.false_eq_true, if_false]
    exact ih (fun l' hl => hpre l' (List.mem_cons_of_mem _ hl))

/-- C26, as stated, fails in both directions.  A click at `(2, 2)` on a link with `y1 = 3` and
    `y2 = 1` does not satisfy `y < y2 and y > y1`, and the link is visited; the same click on a
    link with `y1 = 1` and `y2 = 3` satisfies `y < y2 and y > y1` (and `x` is strictly between
    `x1` and `x2`), and nothing happens. -/
theorem gui_drawingarea_cb_mouse_hit_test_counterexample :
    ¬ ((2 : Rat) < 1 ∧ (2 : Rat) > 3)
      ∧ (gui_drawingarea_cb_mouse exampleEnv exampleOneLink ⟨true, 2, 2⟩).trace.head?
          = some (Event.goToPage "B")
      ∧ (gui_drawingarea_cb_mouse exampleEnv exampleOneLink ⟨true, 2, 2⟩).optionalCurrentPageTitle
          = some "B"
      ∧ ((2 : Rat) < 3 ∧ (2 : Rat) > 1 ∧ (2 : Rat) > 1 ∧ (2 : Rat) < 3)
      ∧ gui_drawingarea_cb_mouse exampleEnv exampleExchangedLink ⟨true, 2, 2⟩
          = exampleExchangedLink := by
  refine ⟨by norm_num, by decide, by decide, by norm_num, ?_⟩
  exact (gui_drawingarea_cb_mouse_loop_miss exampleEnv exampleExchangedLink ⟨true, 2, 2⟩
    exampleExchangedLink.links (by decide))

/-- C26, amended: for every registered link region and click point `(x, y)`,
    `gui_drawingarea_cb_mouse` treats the click as inside the region exactly when
    `y > region.y2` and `y < region.y1` (together with `x` strictly between `region.x1` and
    `region.x2`): of the links that the click has not been found inside so far, the first is
    visited if the test holds for it, and passed over, the search going on with the links after
    it, if the test does not hold. -/
theorem gui_drawingarea_cb_mouse_hit_test (env : Env) (me : State) (event : MouseEvent)
    (pre : List HyperLink) (link : HyperLink) (post : List HyperLink)
    (hclick : event.isClick = true) (hg : me.graphics = true)
    (hlinks : me.links = pre ++ link :: post)
    (hpre : ∀ l, l ∈ pre → l.hit event = false) :
    (link.hit event = true
        ↔ event.y > link.y2DC ∧ event.y < link.y1DC ∧ event.x > link.x1DC ∧ event.x < link.x2DC)
      ∧ (event.y > link.y2DC ∧ event.y < link.y1DC ∧ event.x > link.x1DC ∧ event.x < link.x2DC →
          gui_drawingarea_cb_mouse env me event
            = (HyperPage_goToPage env (saveHistory me me.optionalCurrentPageTitle) link.name).2)
      ∧ (¬ (event.y > link.y2DC ∧ event.y < link.y1DC ∧ event.x > link.x1DC
            ∧ event.x < link.x2DC) →
          gui_drawingarea_cb_mouse env me event
            = gui_drawingarea_cb_mouse_loop env me event post) := by
  have hiff : link.hit event = true
      ↔ event.y > link.y2DC ∧ event.y < link.y1DC ∧ event.x > link.x1DC ∧ event.x < link.x2DC := by
    unfold HyperLink.hit
    exact decide_eq_true_iff
  have hm : gui_drawingarea_cb_mouse env me event
      = gui_drawingarea_cb_mouse_loop env me event (pre ++ link :: post) := by
    unfold gui_drawingarea_cb_mouse
    simp only [hclick, hg, not_true_eq_false, if_false]
    rw [hlinks]
  refine ⟨hiff, ?_, ?_⟩
  · intro h
    rw [hm]
    exact gui_drawingarea_cb_mouse_loop_hit env me event pre link post hpre (hiff.2 h)
  · intro h
    have hmiss : link.hit event = false := by
      cases hh : link.hit event with
      | false => rfl
      | true => exact absurd (hiff.1 hh) h
    rw [hm, gui_drawingarea_cb_mouse_loop_skip env me event pre (link :: post) hpre]
    simp only [gui_drawingarea_cb_mouse_loop, hmiss, Bool.false_eq_true, if_false]

theorem gui_drawingarea_cb_mouse_hit_test_witness :
    gui_drawingarea_cb_mouse exampleEnv exampleOneLink ⟨true, 2, 2⟩
      = (HyperPage_goToPage exampleEnv
          (saveHistory exampleOneLink exampleOneLink.optionalCurrentPageTitle) "B").2 :=
  (gui_drawingarea_cb_mouse_hit_test exampleEnv exampleOneLink ⟨true, 2, 2⟩ [] ⟨"B", 1, 3, 3, 1⟩ []
    rfl rfl rfl (fun _ h => absurd h (List.not_mem_nil _))).2.1 (by decide)

/-! ## The divisor of the height estimate -/

theorem truncate_small (q : Rat) (h0 : 0 ≤ q) (h1 : q < 1) : truncate q = 0 := by
  have hd : (0 : Rat) < q.den := by exact_mod_cast q.den_pos
  have h2 : (q.num : Rat) < q.den := by
    have h3 := Rat.num_div_den q
    rw [← h3] at h1
    rwa [div_lt_iff₀ hd, one_mul] at h1
  have h4 : q.num < (q.den : Int) := by exact_mod_cast h2
  exact Int.tdiv_eq_zero_of_lt (Rat.num_nonneg.2 h0) h4

/-- The divisor `(int) (rightMargin * 150)` of the height estimate, for a positive margin: it is
    0 exactly when the margin is below 1/150. -/
theorem divisor_zero_iff_narrow (rightMargin : Rat) (hpos : 0 < rightMargin) :
    truncate (rightMargin * 150) = 0 ↔ rightMargin < 1 / 150 := by
  constructor
  · intro h
    by_contra hge
    have := truncate_margin_pos rightMargin (not_lt.1 hge)
    omega
  · intro h
    exact truncate_small _ (by linarith) (by linarith)

/-- C28 fails for a narrow drawing area: after a resize to a width of 1 pixel at 200 pixels per
    inch the margin is `1/200`; it passes the guard `rightMargin == 0.0`, and the divisor
    `(int) (rightMargin * 150) = (int) 0.75` of the height estimate is 0: the next call of
    `HyperPage_any` divides by zero. -/
theorem heightGuess_divisor_zero :
    (gui_drawingarea_cb_resize 200 exampleScreenTop exampleGraphics 1 600).1.rightMargin
        = 1 / 200
      ∧ (gui_drawingarea_cb_resize 200 exampleScreenTop exampleGraphics 1 600).1.rightMargin ≠ 0
      ∧ truncate ((gui_drawingarea_cb_resize 200 exampleScreenTop exampleGraphics 1
          600).1.rightMargin * 150) = 0
      ∧ HyperPage_any exampleEnv
          (gui_drawingarea_cb_resize 200 exampleScreenTop exampleGraphics 1 600).1
          "Some text." 0 12 0 0.0 0.03 0.0 0.1 0.1 0 = none := by
  have hm : (gui_drawingarea_cb_resize 200 exampleScreenTop exampleGraphics 1 600).1.rightMargin
      = 1 / 200 := by
    norm_num [gui_drawingarea_cb_resize, exampleScreenTop, State.empty]
  have hrm : (gui_drawingarea_cb_resize 200 exampleScreenTop exampleGraphics 1 600).1.rightMargin
      ≠ 0 := by
    rw [hm]; norm_num
  have hdiv : truncate ((gui_drawingarea_cb_resize 200 exampleScreenTop exampleGraphics 1
      600).1.rightMargin * 150) = 0 := by
    rw [hm]
    exact truncate_small _ (by norm_num) (by norm_num)
  refine ⟨hm, hrm, hdiv, ?_⟩
  simp only [HyperPage_any, if_neg hrm, if_pos hdiv]

/-! ## The top of the history after a visit -/

theorem slotAt_beyond (h : List HistoryEntry) (i : Nat) (hi : h.length ≤ i) :
    (slotAt h i).page = none := by
  unfold slotAt
  rw [List.getD_eq_default _ _ hi]
  rfl

/-- After `saveHistory` with a title on a history whose filled slots form a prefix: the slot at
    the pointer holds the title, every slot above the pointer is empty, and every page that was
    stored above the old pointer is still stored, below the new pointer or, if it is the title
    itself, at or below it. -/
theorem saveHistory_top_facts (me : State) (n : Nat) (t : String)
    (hpre : me.filledPrefix n) (hp : me.historyPointer ≤ 19) :
    ((saveHistory me (some t)).slot (saveHistory me (some t)).historyPointer).page = some t
      ∧ (∀ i, (saveHistory me (some t)).historyPointer < i →
          ((saveHistory me (some t)).slot i).page = none)
      ∧ (∀ i, me.historyPointer < i → i < n →
          ∃ j, j ≤ (saveHistory me (some t)).historyPointer
            ∧ ((saveHistory me (some t)).slot j).page = (me.slot i).page
            ∧ (j < (saveHistory me (some t)).historyPointer ∨ (me.slot i).page = some t)) := by
  have hgo := goToTop_filled me n hpre hp
  obtain ⟨hl, hn, hf⟩ := hpre
  simp only [State.slot] at hf
  have hempty : ∀ i, n ≤ i → (slotAt me.history i).page = none := by
    intro i hi
    by_cases h20 : i < 20
    · have h1 := hf i h20
      have h2 : ¬ (slotAt me.history i).page.isSome := fun hs => by
        have := h1.1 hs
        omega
      simpa using h2
    · exact slotAt_beyond _ _ (by omega)
  have hcases := saveHistory_cases me t hp
  simp only at hcases
  generalize hr : saveHistory_goToTop me.history 20 me.historyPointer = r at hgo hcases
  have hr19 : r ≤ 19 := by
    rw [hgo]; split <;> omega
  have hnr : (slotAt me.history r).page = none → n ≤ r := by
    intro h0
    by_contra hlt
    have := (hf r (by omega)).2 (by omega)
    simp [h0] at this
  rcases hcases with ⟨h19, hc⟩ | ⟨h0, hpos, hb⟩ | ⟨h0, hne⟩ | ⟨h19, hfill, hne⟩
  · rw [saveHistory_same me t (by rw [hr]; exact hc), hr]
    simp only [State.slot]
    refine ⟨hc, ?_, ?_⟩
    · intro i hi
      exact slotAt_beyond _ _ (by omega)
    · intro i hpi hin
      refine ⟨i, by omega, rfl, ?_⟩
      by_cases hi : i = r
      · right; rw [hi]; exact hc
      · left; omega
  · rw [saveHistory_back me t (by rw [hr]; exact h0) (by rw [hr]; exact hpos) (by rw [hr]; exact hb), hr]
    simp only [State.slot]
    have hnr' := hnr h0
    refine ⟨hb, ?_, ?_⟩
    · intro i hi
      exact hempty i (by omega)
    · intro i hpi hin
      refine ⟨i, by omega, rfl, ?_⟩
      by_cases hi : i = r - 1
      · right; rw [hi]; exact hb
      · left; omega
  · rw [saveHistory_append me t (by rw [hr]; exact h0) (by rw [hr]; exact hne), hr]
    simp only [State.slot]
    have hnr' := hnr h0
    refine ⟨?_, ?_, ?_⟩
    · rw [slotAt_set _ _ _ _ (by omega)]
      simp
    · intro i hi
      by_cases h20 : i < 20
      · rw [slotAt_set _ _ _ _ (by omega)]
        have : ¬ i = r := by omega
        simp only [this, if_false]
        exact hempty i (by omega)
      · exact slotAt_beyond _ _ (by simp [hl]; omega)
    · intro i hpi hin
      refine ⟨i, by omega, ?_, Or.inl (by omega)⟩
      rw [slotAt_set _ _ _ _ (by omega)]
      have : ¬ i = r := by omega
      simp only [this, if_false]
  · rw [saveHistory_evict me t (by rw [hr]; exact h19) hfill hne]
    simp only [State.slot]
    refine ⟨?_, ?_, ?_⟩
    · rw [slotAt_set _ _ _ _ (by simp [shift_length _ hl])]
      simp
    · intro i hi
      exact slotAt_beyond _ _ (by simp [shift_length _ hl]; omega)
    · intro i hpi hin
      refine ⟨i - 1, by omega, ?_, Or.inl (by omega)⟩
      rw [slotAt_set _ _ _ _ (by simp [shift_length _ hl])]
      have : ¬ i - 1 = 19 := by omega
      simp only [this, if_false]
      rw [slotAt_shift _ hl (i - 1) (by omega)]
      have : i - 1 + 1 = i := by omega
      rw [this]

/-- C29, as stated, fails for a visit to the page of the last forward entry: with `A`, `B`, `C`
    stored and the pointer back on `A`, the pages `B` and `C` are forward entries; after
    `saveHistory ("C")` the pointer is on slot 2, which holds `C`, and no slot below the pointer
    holds `C`. -/
theorem saveHistory_forward_below_counterexample :
    (State.visited ["A", "B", "C"] 0).filledPrefix 3
      ∧ (State.visited ["A", "B", "C"] 0).historyPointer = 0
      ∧ ((State.visited ["A", "B", "C"] 0).slot 2).page = some "C"
      ∧ (saveHistory (State.visited ["A", "B", "C"] 0) (some "C")).historyPointer = 2
      ∧ ∀ j, j < (saveHistory (State.visited ["A", "B", "C"] 0) (some "C")).historyPointer →
          ((saveHistory (State.visited ["A", "B", "C"] 0) (some "C")).slot j).page ≠ some "C" := by
  decide

/-- C29, amended: after `saveHistory (t)` with a non-null title `t` on any history state whose
    filled slots form a prefix, the slot at the pointer holds `t` and every slot above the
    pointer is empty; hence `do_forth` immediately after a visit is always a no-op; and pages
    that were forward entries before the visit stay in the history at or below the pointer:
    below it, except that a forward entry that holds `t` itself can be the slot that the pointer
    ends on. -/
theorem saveHistory_top_of_history (env : Env) (me : State) (n : Nat) (t : String)
    (hpre : me.filledPrefix n) (hp : me.historyPointer ≤ 19) :
    ((saveHistory me (some t)).slot (saveHistory me (some t)).historyPointer).page = some t
      ∧ (∀ i, (saveHistory me (some t)).historyPointer < i →
          ((saveHistory me (some t)).slot i).page = none)
      ∧ do_forth env (saveHistory me (some t)) = some (saveHistory me (some t))
      ∧ (∀ i, me.historyPointer < i → i < n →
          ∃ j, j ≤ (saveHistory me (some t)).historyPointer
            ∧ ((saveHistory me (some t)).slot j).page = (me.slot i).page
            ∧ (j < (saveHistory me (some t)).historyPointer ∨ (me.slot i).page = some t)) := by
  obtain ⟨h1, h2, h3⟩ := saveHistory_top_facts me n t hpre hp
  exact ⟨h1, h2, do_forth_stay env _ (Or.inr (h2 _ (Nat.lt_succ_self _))), h3⟩

theorem saveHistory_top_of_history_witness :
    (State.visited ["A", "B", "C"] 0).filledPrefix 3
      ∧ (State.visited ["A", "B", "C"] 0).historyPointer ≤ 19
      ∧ do_forth exampleEnv (saveHistory (State.visited ["A", "B", "C"] 0) (some "C"))
          = some (saveHistory (State.visited ["A", "B", "C"] 0) (some "C")) :=
  ⟨by decide, by decide,
    (saveHistory_top_of_history exampleEnv (State.visited ["A", "B", "C"] 0) 3 "C" (by decide)
      (by decide)).2.2.1⟩

/-! ## Stored scroll offsets -/

theorem offsetsZero_set (h : List HistoryEntry) (i : Nat) (e : HistoryEntry)
    (hz : ∀ a, a ∈ h → a.top = 0) (he : e.top = 0) : ∀ a, a ∈ h.set i e → a.top = 0 := by
  intro a ha
  rcases List.mem_or_eq_of_mem_set ha with h1 | h1
  · exact hz a h1
  · rw [h1]; exact he

theorem offsetsZero_slotAt (h : List HistoryEntry) (i : Nat) (hz : ∀ a, a ∈ h → a.top = 0) :
    (slotAt h i).top = 0 := by
  unfold slotAt
  by_cases hi : i < h.length
  · rw [List.getD_eq_getElem _ _ hi]
    exact hz _ (List.getElem_mem _)
  · rw [List.getD_eq_default _ _ (not_lt.1 hi)]
    rfl

theorem offsetsZero_move (h : List HistoryEntry) (i : Nat) (hz : ∀ a, a ∈ h → a.top = 0) :
    ∀ a, a ∈ saveHistory_move h i → a.top = 0 := by
  unfold saveHistory_move
  exact offsetsZero_set _ _ _ (offsetsZero_set _ _ _ hz (offsetsZero_slotAt h (i + 1) hz))
    (offsetsZero_slotAt h (i + 1) hz)

theorem offsetsZero_foldl (l : List Nat) :
    ∀ h : List HistoryEntry, (∀ a, a ∈ h → a.top = 0) →
      ∀ a, a ∈ l.foldl saveHistory_move h → a.top = 0 := by
  induction l with
  | nil => intro h hz; exact hz
  | cons i rest ih =>
    intro h hz
    exact ih _ (offsetsZero_move h i hz)

/-- The ring shift only moves stored offsets. -/
theorem offsetsZero_shift (h : List HistoryEntry) (hz : ∀ a, a ∈ h → a.top = 0) :
    ∀ a, a ∈ saveHistory_shift h → a.top = 0 := by
  have hf := offsetsZero_foldl (List.range 19) h hz
  unfold saveHistory_shift
  simp only
  generalize (List.range 19).foldl saveHistory_move h = h2 at hf ⊢
  exact offsetsZero_set h2 19 _ hf (offsetsZero_slotAt h2 19 hf)

theorem offsetsZero_saveHistory_add (me : State) (t : String) (hz : me.storedOffsetsZero) :
    (saveHistory_add me t).storedOffsetsZero := by
  have hs := offsetsZero_shift me.history hz
  unfold saveHistory_add State.storedOffsetsZero
  simp only
  split
  · generalize saveHistory_shift me.history = h2 at hs ⊢
    exact offsetsZero_set h2 _ _ hs (offsetsZero_slotAt h2 _ hs)
  · exact offsetsZero_set me.history _ _ hz (offsetsZero_slotAt me.history _ hz)

/-- The function `saveHistory` writes no stored offset other than by moving one. -/
theorem offsetsZero_saveHistory (me : State) (title : Option String)
    (hz : me.storedOffsetsZero) : (saveHistory me title).storedOffsetsZero := by
  cases title with
  | none => exact hz
  | some t =>
    unfold saveHistory
    simp only
    split
    · split
      · exact hz
      · exact offsetsZero_saveHistory_add _ t hz
    · split
      · exact hz
      · exact offsetsZero_saveHistory_add _ t hz

/-- The function `updateVerticalScrollBar` only ever stores 0. -/
theorem offsetsZero_updateVerticalScrollBar (me : State) (hz : me.storedOffsetsZero) :
    (updateVerticalScrollBar me).storedOffsetsZero := by
  unfold updateVerticalScrollBar State.storedOffsetsZero
  exact offsetsZero_set _ _ _ hz rfl

theorem offsetsZero_do_back (env : Env) (me s : State) (hz : me.storedOffsetsZero)
    (h : do_back env me = some s) : s.storedOffsetsZero := by
  unfold do_back at h
  split at h
  · simp only [Option.some.injEq] at h
    rw [← h]; exact hz
  · simp only at h
    split at h
    · exact absurd h (by simp)
    · split at h
      · simp only [Option.some.injEq] at h
        rw [← h]
        exact offsetsZero_updateVerticalScrollBar _ hz
      · simp only [Option.some.injEq] at h
        rw [← h]; exact hz

theorem offsetsZero_do_forth (env : Env) (me s : State) (hz : me.storedOffsetsZero)
    (h : do_forth env me = some s) : s.storedOffsetsZero := by
  unfold do_forth at h
  split at h
  · simp only [Option.some.injEq] at h
    rw [← h]; exact hz
  · simp only at h
    split at h
    · exact absurd h (by simp)
    · split at h
      · simp only [Option.some.injEq] at h
        rw [← h]
        exact offsetsZero_updateVerticalScrollBar _ hz
      · simp only [Option.some.injEq] at h
        rw [← h]; exact hz

theorem offsetsZero_goToPage (env : Env) (me : State) (pageTitle : String)
    (hz : me.storedOffsetsZero) : (HyperPage_goToPage env me pageTitle).2.storedOffsetsZero := by
  unfold HyperPage_goToPage
  simp only
  split
  · exact hz
  · split
    · exact hz
    · exact offsetsZero_updateVerticalScrollBar _
        (offsetsZero_saveHistory { me with trace := me.trace ++ [Event.goToPage pageTitle] }
          (some pageTitle) hz)

theorem offsetsZero_run (env : Env) (op : ViewerOp) (me s : State) (hz : me.storedOffsetsZero)
    (h : op.run env me = some s) : s.storedOffsetsZero := by
  cases op with
  | save title =>
    simp only [ViewerOp.run, Option.some.injEq] at h
    rw [← h]; exact offsetsZero_saveHistory me title hz
  | back => exact offsetsZero_do_back env me s hz h
  | forth => exact offsetsZero_do_forth env me s hz h
  | scroll value =>
    simp only [ViewerOp.run, Option.some.injEq] at h
    rw [← h]
    unfold gui_cb_verticalScroll
    split
    · exact offsetsZero_updateVerticalScrollBar _ hz
    · exact hz
  | pageUp bar =>
    simp only [ViewerOp.run, Option.some.injEq] at h
    rw [← h]
    unfold menu_cb_pageUp
    cases bar with
    | none => exact hz
    | some v =>
      simp only
      split
      · exact offsetsZero_updateVerticalScrollBar _ hz
      · exact hz
  | pageDown bar =>
    simp only [ViewerOp.run, Option.some.injEq] at h
    rw [← h]
    unfold menu_cb_pageDown
    cases bar with
    | none => exact hz
    | some v =>
      simp only
      split
      · exact offsetsZero_updateVerticalScrollBar _ hz
      · exact hz
  | goToPage pageTitle =>
    simp only [ViewerOp.run, Option.some.injEq] at h
    rw [← h]; exact offsetsZero_goToPage env me pageTitle hz

theorem offsetsZero_runViewerOps (env : Env) (ops : List ViewerOp) :
    ∀ me s : State, me.storedOffsetsZero → runViewerOps env ops me = some s →
      s.storedOffsetsZero := by
  induction ops with
  | nil =>
    intro me s hz h
    simp only [runViewerOps, Option.some.injEq] at h
    rw [← h]; exact hz
  | cons op ops ih =>
    intro me s hz h
    simp only [runViewerOps] at h
    cases h1 : op.run env me with
    | none => rw [h1] at h; exact absurd h (by simp)
    | some s1 =>
      rw [h1] at h
      exact ih s1 s (offsetsZero_run env op me s1 hz h1) h

theorem historyInvariant_of_eq (a b : State) (n : Nat) (hh : b.history = a.history)
    (hp : b.historyPointer = a.historyPointer) (h : a.historyInvariant n) :
    b.historyInvariant n := by
  simp only [State.historyInvariant, State.filledPrefix, State.slot, hh, hp] at h ⊢
  exact h

theorem historyInvariant_updateVerticalScrollBar (me : State) (n : Nat)
    (h : me.historyInvariant n) : (updateVerticalScrollBar me).historyInvariant n := by
  obtain ⟨⟨hl, hn, hf⟩, hp⟩ := h
  simp only [State.slot] at hf
  refine ⟨⟨?_, hn, ?_⟩, hp⟩
  · simp [updateVerticalScrollBar, hl]
  · exact filledPrefix_setTop me.history me.historyPointer n 0 hl hf

theorem historyInvariant_goToPage (env : Env) (me : State) (n : Nat) (pageTitle : String)
    (h : me.historyInvariant n) :
    ∃ n', (HyperPage_goToPage env me pageTitle).2.historyInvariant n' := by
  unfold HyperPage_goToPage
  simp only
  split
  · exact ⟨n, historyInvariant_of_eq me _ n rfl rfl h⟩
  · split
    · exact ⟨n, historyInvariant_of_eq me _ n rfl rfl h⟩
    · obtain ⟨n', h1⟩ := historyInvariant_saveHistory
        { me with trace := me.trace ++ [Event.goToPage pageTitle] } n (some pageTitle)
        (historyInvariant_of_eq me _ n rfl rfl h)
      refine ⟨n', historyInvariant_of_eq _ _ n' rfl rfl
        (historyInvariant_updateVerticalScrollBar _ n'
          (historyInvariant_of_eq _ _ n' rfl rfl h1))⟩

theorem historyInvariant_viewerOp (env : Env) (op : ViewerOp) (me : State) (n : Nat)
    (h : me.historyInvariant n) :
    ∃ s n', op.run env me = some s ∧ s.historyInvariant n' := by
  cases op with
  | save title =>
    obtain ⟨n', h1⟩ := historyInvariant_saveHistory me n title h
    exact ⟨_, n', rfl, h1⟩
  | back =>
    obtain ⟨s, h1, h2⟩ := historyInvariant_do_back env me n h
    exact ⟨s, n, h1, h2⟩
  | forth =>
    obtain ⟨s, h1, h2⟩ := historyInvariant_do_forth env me n h
    exact ⟨s, n, h1, h2⟩
  | scroll value =>
    refine ⟨_, n, rfl, ?_⟩
    unfold gui_cb_verticalScroll
    split
    · exact historyInvariant_of_eq _ _ n rfl rfl
        (historyInvariant_updateVerticalScrollBar _ n (historyInvariant_of_eq me _ n rfl rfl h))
    · exact h
  | pageUp bar =>
    refine ⟨_, n, rfl, ?_⟩
    unfold menu_cb_pageUp
    cases bar with
    | none => exact h
    | some v =>
      simp only
      split
      · exact historyInvariant_of_eq _ _ n rfl rfl
          (historyInvariant_updateVerticalScrollBar _ n (historyInvariant_of_eq me _ n rfl rfl h))
      · exact h
  | pageDown bar =>
    refine ⟨_, n, rfl, ?_⟩
    unfold menu_cb_pageDown
    cases bar with
    | none => exact h
    | some v =>
      simp only
      split
      · exact historyInvariant_of_eq _ _ n rfl rfl
          (historyInvariant_updateVerticalScrollBar _ n (historyInvariant_of_eq me _ n rfl rfl h))
      · exact h
  | goToPage pageTitle =>
    obtain ⟨n', h1⟩ := historyInvariant_goToPage env me n pageTitle h
    exact ⟨_, n', rfl, h1⟩

/-- On a well-formed history no sequence of viewer operations fails an assertion. -/
theorem historyInvariant_runViewerOps (env : Env) (ops : List ViewerOp) :
    ∀ (me : State) (n : Nat), me.historyInvariant n →
      ∃ s n', runViewerOps env ops me = some s ∧ s.historyInvariant n' := by
  induction ops with
  | nil =>
    intro me n h
    exact ⟨me, n, rfl, h⟩
  | cons op ops ih =>
    intro me n h
    obtain ⟨s1, n1, h1, hi1⟩ := historyInvariant_viewerOp env op me n h
    obtain ⟨s2, n2, h2, hi2⟩ := ih s1 n1 hi1
    exact ⟨s2, n2, by simp [runViewerOps, h1, h2], hi2⟩

/-- C30: starting from a history whose stored scroll offsets are all 0, after any sequence of
    `saveHistory`, `do_back`, `do_forth`, scroll, page-up, page-down and `HyperPage_goToPage`
    operations the scroll offset stored in every history slot is still 0, so a successful
    `do_back` or `do_forth` (one that moves to a stored page that the document source finds)
    sets `top` to 0.  On a well-formed history the sequence fails no assertion. -/
theorem stored_offsets_stay_zero (env : Env) (ops : List ViewerOp) (me : State)
    (hz : me.storedOffsetsZero) :
    (∀ s, runViewerOps env ops me = some s →
        s.storedOffsetsZero
        ∧ (∀ t, 0 < s.historyPointer → (s.slot (s.historyPointer - 1)).page = some t →
            env.v_goToPage t ≠ 0 →
            ∃ s2, do_back env s = some s2 ∧ s2.historyPointer = s.historyPointer - 1
              ∧ s2.top = 0)
        ∧ (∀ t, s.historyPointer < 19 → (s.slot (s.historyPointer + 1)).page = some t →
            env.v_goToPage t ≠ 0 →
            ∃ s2, do_forth env s = some s2 ∧ s2.historyPointer = s.historyPointer + 1
              ∧ s2.top = 0))
      ∧ (∀ n, me.historyInvariant n → ∃ s, runViewerOps env ops me = some s) := by
  refine ⟨?_, ?_⟩
  · intro s hs
    have hzs := offsetsZero_runViewerOps env ops me s hz hs
    refine ⟨hzs, ?_, ?_⟩
    · intro t hp ht hv
      refine ⟨_, do_back_eq env s t hp ht, ?_, ?_⟩
      · rw [if_pos hv]; rfl
      · rw [if_pos hv]
        exact offsetsZero_slotAt s.history _ hzs
    · intro t hp ht hv
      refine ⟨_, do_forth_eq env s t hp ht, ?_, ?_⟩
      · rw [if_pos hv]; rfl
      · rw [if_pos hv]
        exact offsetsZero_slotAt s.history _ hzs
  · intro n h
    obtain ⟨s, -, h1, -⟩ := historyInvariant_runViewerOps env ops me n h
    exact ⟨s, h1⟩

theorem stored_offsets_stay_zero_witness :
    State.empty.storedOffsetsZero
      ∧ ∃ s, runViewerOps exampleEnv
          [ViewerOp.goToPage "A", ViewerOp.scroll 5, ViewerOp.goToPage "B", ViewerOp.pageDown (some 0),
            ViewerOp.back, ViewerOp.forth] State.empty = some s :=
  ⟨by decide,
    (stored_offsets_stay_zero exampleEnv
      [ViewerOp.goToPage "A", ViewerOp.scroll 5, ViewerOp.goToPage "B", ViewerOp.pageDown (some 0),
        ViewerOp.back, ViewerOp.forth] State.empty (by decide)).2 0 historyInvariant_empty⟩

end HyperPage

namespace ScriptEditor

/-! # Theorems about Run selection -/

theorem appendLines_cons (text line : String) (lines : List String) :
    appendLines text (line :: lines) = appendLines (text ++ "\n" ++ line) lines := rfl

/-- Inside a procedure of a text whose lines alternate, an `endproc` line is still to come. -/
theorem procedureLinesAlternate_any (env : EditorEnv) (lines : List String) :
    procedureLinesAlternate env lines true → lines.any (isEndprocLine env) = true := by
  induction lines with
  | nil =>
    intro h
    exact absurd h (by simp [procedureLinesAlternate])
  | cons line rest ih =>
    intro h
    obtain ⟨-, hrest⟩ := h
    cases he : isEndprocLine env line with
    | true => simp [he]
    | false =>
      rw [he] at hrest
      simp [he, ih hrest]

/-- On a text whose `procedure` and `endproc` lines alternate, the loop with its depth counter
    appends the lines of the procedures, as the specification words it. -/
theorem menu_cb_runSelection_loop_alternate (env : EditorEnv) (lines : List String) :
    ∀ (inside : Bool) (text : String), procedureLinesAlternate env lines inside →
      menu_cb_runSelection_loop env lines (if inside then 1 else 0) text
        = appendLines text (procedureLines_spec env lines inside) := by
  induction lines with
  | nil =>
    intro inside text _
    cases inside <;> rfl
  | cons line rest ih =>
    intro inside text h
    cases inside with
    | false =>
      obtain ⟨he, hrest⟩ := h
      cases hp : isProcedureLine env line with
      | true =>
        rw [hp] at hrest
        have hany := procedureLinesAlternate_any env rest hrest
        have h1 := ih true (text ++ "\n" ++ line) hrest
        simp only [if_true] at h1
        simp only [menu_cb_runSelection_loop, procedureLines_spec, hp, he, hany, Bool.and_self,
          Bool.false_eq_true, if_true, if_false, zero_add, appendLines_cons]
        simpa using h1
      | false =>
        rw [hp] at hrest
        have h1 := ih false text hrest
        simp only [Bool.false_eq_true, if_false] at h1
        simp only [menu_cb_runSelection_loop, procedureLines_spec, hp, he, Bool.false_and,
          Bool.false_eq_true, if_false]
        simpa using h1
    | true =>
      obtain ⟨hp, hrest⟩ := h
      cases he : isEndprocLine env line with
      | true =>
        rw [he] at hrest
        have h1 := ih false (text ++ "\n" ++ line) hrest
        simp only [Bool.not_true, Bool.false_eq_true, if_false] at h1
        simp only [menu_cb_runSelection_loop, procedureLines_spec, hp, he, Bool.false_eq_true,
          if_true, if_false, Bool.not_true, appendLines_cons]
        simpa using h1
      | false =>
        rw [he] at hrest
        have h1 := ih true (text ++ "\n" ++ line) hrest
        simp only [Bool.not_false, if_true] at h1
        simp only [menu_cb_runSelection_loop, procedureLines_spec, hp, he, Bool.false_eq_true,
          if_true, if_false, Bool.not_false, appendLines_cons]
        simpa using h1

/-- C27, as stated, fails.  With an `endproc` line before the procedure, the depth counter is
    below zero when the procedure is read, and the procedure is not appended; with a second
    `procedure` line inside a procedure, the counter is still above zero after the `endproc`
    line, and the line after the procedure is appended. -/
theorem menu_cb_runSelection_counterexample :
    menu_cb_runSelection (exampleEditor ["endproc", "procedure f", "  y = 2", "endproc"])
        = Outcome.run "x = 1"
      ∧ textPlusProcedures_spec (exampleEditor ["endproc", "procedure f", "  y = 2", "endproc"])
          "x = 1" = "x = 1\nprocedure f\n  y = 2\nendproc"
      ∧ menu_cb_runSelection (exampleEditor ["procedure f", "procedure g", "endproc", "z = 3"])
        = Outcome.run "x = 1\nprocedure f\nprocedure g\nendproc\nz = 3"
      ∧ textPlusProcedures_spec (exampleEditor ["procedure f", "procedure g", "endproc", "z = 3"])
          "x = 1" = "x = 1\nprocedure f\nprocedure g\nendproc" := by
  decide

/-- C27, amended: when no script is running, a text is selected and the selected text (after
    its include files are included) has no parameters, then for every script text in which the
    `procedure` lines and the `endproc` lines alternate (no `endproc` line outside a procedure,
    no `procedure` line inside one, the last procedure closed), the text passed to the
    interpreter by `menu_cb_runSelection` is the selected text followed by, for every procedure
    in the whole text, a newline and each line of that procedure in order; no line outside such
    a procedure is appended.  When the selected text has parameters, `menu_cb_runSelection`
    passes no text to the interpreter: it opens the form dialog. -/
theorem menu_cb_runSelection_appends_procedures (env : EditorEnv) (selectedText : String)
    (hrun : env.running = false) (hsel : env.GuiText_getSelection = some selectedText) :
    (env.Interpreter_readParameters (env.Melder_includeIncludeFiles selectedText) = 0 →
        procedureLinesAlternate env env.wholeTextLines false →
        menu_cb_runSelection env
          = Outcome.run
              (textPlusProcedures_spec env (env.Melder_includeIncludeFiles selectedText)))
      ∧ (env.Interpreter_readParameters (env.Melder_includeIncludeFiles selectedText) ≠ 0 →
        menu_cb_runSelection env = Outcome.argsDialog) := by
  have hnr : ¬ env.running = true := by simp [hrun]
  refine ⟨?_, ?_⟩
  · intro hpar halt
    have hloop := menu_cb_runSelection_loop_alternate env env.wholeTextLines false
      (env.Melder_includeIncludeFiles selectedText) halt
    simp only [Bool.false_eq_true, if_false] at hloop
    unfold menu_cb_runSelection textPlusProcedures_spec
    rw [if_neg hnr, hsel]
    simp only [hpar, ne_eq, not_true_eq_false, if_false, hloop]
  · intro hpar
    unfold menu_cb_runSelection
    rw [if_neg hnr, hsel]
    simp only [if_pos hpar]

theorem menu_cb_runSelection_appends_procedures_witness :
    menu_cb_runSelection (exampleEditor ["x = 1", "procedure f", "  y = 2", "endproc"])
      = Outcome.run
          (textPlusProcedures_spec
            (exampleEditor ["x = 1", "procedure f", "  y = 2", "endproc"]) "x = 1") :=
  (menu_cb_runSelection_appends_procedures
    (exampleEditor ["x = 1", "procedure f", "  y = 2", "endproc"]) "x = 1" rfl rfl).1 rfl
    (by decide)

end ScriptEditor
